import Mathlib

/-!
# TomatOS: virtual memory manager, scheduler, APIC, boot memory map and spinlock

A shallow embedding of `kernel/memory/vmm.c`, `kernel/common/common.h`,
`src/process/scheduler.c`, `kernel/arch/amd64/apic.c`, the loops of
`kernel/arch/amd64/entry.c` over the memory map and over the size units,
`src/sync/spinlock.c`, the interrupt-flag functions of `src/util/arch.c` and the
early allocator of `kernel/mem/mm.c`, with the properties of the design
specification checked against it.

Conventions of the embedding.

* Machine words are natural numbers; every value stored in a table is
  produced by masks and stays below `2 ^ 64`.
* Physical memory is a map from the byte address of a 64-bit word to its
  value.  A pointer the code dereferences directly (`pt[...]`) is a physical
  address (the kernel runs identity mapped); the pointer `free_page` is
  dereferenced through the page-table entry that maps the scratch page.
* `NULL` is `0`.
* What the code does to the APIC registers and to the low-memory cells is
  recorded in a log, in the order of the statements; what the hardware or a
  function that is not among the sources answers is held in the state.
* A loop that need not end is run for a bounded number of iterations and yields
  `none` when it has not ended by then.
-/

namespace TomatOS

/-! ## common.h -/

/-- The macro `ALIGN_DOWN(n, a)`, that is `((n) & ~((a) - 1))`, where `a` has an
unsigned type of `w` bits: `(a) - 1` and `~` are computed in `w` bits and the
result is zero-extended before the `&`. -/
def ALIGN_DOWN (w n a : Nat) : Nat :=
  n &&& (2 ^ w - 1 - (a + 2 ^ w - 1) % 2 ^ w)

/-! ## vmm.c: page attributes, masks and index macros -/

def PAGING_PRESENT_BIT : Nat := 1 <<< 0
def PAGING_READ_WRITE_BIT : Nat := 1 <<< 1
def PAGING_USER_SUPREVISOR_BIT : Nat := 1 <<< 2
def PAGING_ACCESSED_BIT : Nat := 1 <<< 5
def PAGING_DIRTY_BIT : Nat := 1 <<< 6
def PAGING_PAGE_SIZE_BIT : Nat := 1 <<< 7
def PAGING_NO_EXECUTE_BIT : Nat := 1 <<< 63

def PAGING_4KB_ADDR_MASK : Nat := 0x7FFFFFFFFFFFF000

def PAGING_PML4_OFFSET (addr : Nat) : Nat := (addr >>> 39) &&& 0x1FF
def PAGING_PDPE_OFFSET (addr : Nat) : Nat := (addr >>> 30) &&& 0x1FF
def PAGING_PDE_OFFSET (addr : Nat) : Nat := (addr >>> 21) &&& 0x1FF
def PAGING_PTE_OFFSET (addr : Nat) : Nat := (addr >>> 12) &&& 0x1FF
def PAGING_PAGE_OFFSET (addr : Nat) : Nat := addr &&& 0xFFF

/-- The type `page_attributes_t` as `vmm.c` uses it: the fields `write`, `user`
and `execute`. -/
structure page_attributes_t where
  write : Bool
  user : Bool
  execute : Bool
  deriving DecidableEq, Repr

/-- The state `vmm.c` works on. -/
structure VmmState where
  /-- Physical memory: the 64-bit word at a byte address. -/
  mem : Nat → Nat
  /-- The word `pte_for_free_page[PAGING_PTE_OFFSET(free_page)]`: the page-table
  entry that maps the scratch page `free_page`. -/
  free_page_pte : Nat
  /-- The words of the global `bitmap`. -/
  bitmap : Nat → Nat
  /-- The frames the physical memory manager has free. -/
  pmm_free_frames : List Nat
  /-- What `vmm_get()` returns. -/
  current_address_space : Nat
  /-- The global `boot_address_space`. -/
  boot_address_space : Nat

/-- A `uint64_t*` the code indexes: a physical address used directly, or the
scratch page `free_page`, which reaches the frame its entry maps. -/
inductive TablePtr where
  | direct (addr : Nat)
  | free_page
  deriving DecidableEq, Repr

/-- The physical address a table pointer reaches in the given state. -/
def TablePtr.resolve (s : VmmState) : TablePtr → Nat
  | .direct addr => addr
  | .free_page => s.free_page_pte &&& PAGING_4KB_ADDR_MASK

/-- The read `table[index]`. -/
def load (s : VmmState) (table : TablePtr) (index : Nat) : Nat :=
  s.mem (table.resolve s + 8 * index)

/-- The write `table[index] = value`. -/
def store (s : VmmState) (table : TablePtr) (index value : Nat) : VmmState :=
  { s with mem := fun a => if a = table.resolve s + 8 * index then value else s.mem a }

/-- The call `memset(ptr, 0, 4096)`. -/
def memset_zero_page (s : VmmState) (ptr : TablePtr) : VmmState :=
  { s with mem := fun a =>
      if ptr.resolve s ≤ a ∧ a < ptr.resolve s + 4096 then 0 else s.mem a }

/-- Modelled from the spec: `pmm.h` and `pmm.c` are missing from the sources.
`pmm_allocate(1)` hands out one frame of the free list ("`allocate(n_frames) →
frame or OOM`, the PMM owns a free list or bitmap"); with no frame left it
returns `NULL`. -/
def pmm_allocate (s : VmmState) : Nat × VmmState :=
  match s.pmm_free_frames with
  | [] => (0, s)
  | f :: rest => (f, { s with pmm_free_frames := rest })

/-- Modelled from the spec: `pmm_free(frame)` returns a frame to the free list. -/
def pmm_free (s : VmmState) (frame : Nat) : VmmState :=
  { s with pmm_free_frames := frame :: s.pmm_free_frames }

/-- The free-frame count of the physical memory manager. -/
def pmm_free_count (s : VmmState) : Nat := s.pmm_free_frames.length

/-! ## vmm.c: the ownership bitmap (`sizeof(size_t)` is 8) -/

def set_allocated (s : VmmState) (physical_address : Nat) : VmmState :=
  { s with bitmap := fun k =>
      if k = physical_address / 8
      then s.bitmap (physical_address / 8) ||| (1 <<< (physical_address % 8))
      else s.bitmap k }

/-- In `set_free` the mask `~(1u << k)` is an `unsigned int`, zero-extended. -/
def set_free (s : VmmState) (physical_address : Nat) : VmmState :=
  { s with bitmap := fun k =>
      if k = physical_address / 8
      then s.bitmap (physical_address / 8) &&& (2 ^ 32 - 1 - (1 <<< (physical_address % 8)))
      else s.bitmap k }

def is_allocated (s : VmmState) (physical_address : Nat) : Bool :=
  let physical_address := ALIGN_DOWN 32 physical_address 4096 / 4096
  (s.bitmap (physical_address / 8) &&& (1 <<< (physical_address % 8))) != 0

/-! ## vmm.c: the scratch page -/

def get_page (s : VmmState) (table : TablePtr) (index : Nat) : Nat :=
  if load s table index &&& PAGING_PRESENT_BIT ≠ 0 then
    load s table index &&& PAGING_4KB_ADDR_MASK
  else
    0

/-- The function `get_free_page_physical`: `get_page(pte_for_free_page,
PAGING_PTE_OFFSET(free_page))`. -/
def get_free_page_physical (s : VmmState) : Nat :=
  if s.free_page_pte &&& PAGING_PRESENT_BIT ≠ 0 then
    s.free_page_pte &&& PAGING_4KB_ADDR_MASK
  else
    0

def map_to_free_page (s : VmmState) (physicalPage : Nat) : VmmState :=
  let s := { s with free_page_pte := physicalPage &&& PAGING_4KB_ADDR_MASK }
  let s := { s with free_page_pte := s.free_page_pte ||| PAGING_PRESENT_BIT }
  let s := { s with free_page_pte := s.free_page_pte ||| PAGING_READ_WRITE_BIT }
  { s with free_page_pte := s.free_page_pte ||| PAGING_NO_EXECUTE_BIT }

/-! ## vmm.c: helper functions -/

/-- The function `set_attributes(&table[index], attrs)`; `~(PAGING_NO_EXECUTE_BIT)`
is the 64-bit complement. -/
def set_attributes (s : VmmState) (table : TablePtr) (index : Nat)
    (attrs : page_attributes_t) : VmmState :=
  let s := if load s table index &&& PAGING_READ_WRITE_BIT = 0 ∧ attrs.write = true then
      store s table index (load s table index ||| PAGING_READ_WRITE_BIT) else s
  let s := if load s table index &&& PAGING_USER_SUPREVISOR_BIT = 0 ∧ attrs.user = true then
      store s table index (load s table index ||| PAGING_USER_SUPREVISOR_BIT) else s
  if load s table index &&& PAGING_NO_EXECUTE_BIT ≠ 0 ∧ attrs.execute = true then
    store s table index (load s table index &&& (2 ^ 64 - 1 - PAGING_NO_EXECUTE_BIT))
  else s

def get_or_create_page (s : VmmState) (table : TablePtr) (index : Nat)
    (attrs : page_attributes_t) : Nat × VmmState :=
  let ptr := get_page s table index
  if ptr ≠ 0 then
    (ptr, set_attributes s table index attrs)
  else
    -- not presented, allocate table
    let (physical_address, s) := pmm_allocate s
    let s :=
      if s.current_address_space = s.boot_address_space then
        memset_zero_page s (.direct physical_address)
      else
        let physical := get_free_page_physical s
        let s := map_to_free_page s physical_address
        let s := memset_zero_page s .free_page
        map_to_free_page s physical
    let s := set_allocated s physical_address
    -- set the new address
    let s := store s table index (physical_address &&& PAGING_4KB_ADDR_MASK)
    let s := store s table index (load s table index ||| PAGING_PRESENT_BIT)
    (physical_address, set_attributes s table index attrs)

def get_or_create_page_table (s : VmmState) (address_space virtual_addr : Nat)
    (attributes : page_attributes_t) : Nat × VmmState :=
  let pml4 := address_space
  let s := map_to_free_page s pml4
  let (pdp, s) := get_or_create_page s .free_page (PAGING_PML4_OFFSET virtual_addr) attributes
  let s := map_to_free_page s pdp
  let (pd, s) := get_or_create_page s .free_page (PAGING_PDPE_OFFSET virtual_addr) attributes
  let s := map_to_free_page s pd
  get_or_create_page s .free_page (PAGING_PDE_OFFSET virtual_addr) attributes

def get_page_table (s : VmmState) (address_space virtual_addr : Nat) : Nat × VmmState :=
  let pml4 := address_space
  if pml4 = 0 then (0, s) else
  let s := map_to_free_page s pml4
  let pdp := get_page s .free_page (PAGING_PML4_OFFSET virtual_addr)
  if pdp = 0 then (0, s) else
  let s := map_to_free_page s pdp
  let pd := get_page s .free_page (PAGING_PDPE_OFFSET virtual_addr)
  if pd = 0 then (0, s) else
  let s := map_to_free_page s pd
  (get_page s .free_page (PAGING_PDE_OFFSET virtual_addr), s)

/-! ## vmm.c: implementation -/

/-- The function `vmm_map`.  The first argument it passes on as the virtual
address is `PAGING_PDE_OFFSET(virtual_addr)`, as in the source. -/
def vmm_map (s : VmmState) (address_space virtual_addr physical_addr : Nat)
    (attributes : page_attributes_t) : VmmState :=
  let (pt, s) :=
    get_or_create_page_table s address_space (PAGING_PDE_OFFSET virtual_addr) attributes
  let s := map_to_free_page s pt
  let phys := get_page s .free_page (PAGING_PTE_OFFSET virtual_addr)
  -- check if we should free the current physical page there
  let s := if phys ≠ 0 ∧ is_allocated s phys = true then set_free (pmm_free s phys) phys else s
  -- set the entry
  let s := store s (.direct pt) (PAGING_PTE_OFFSET virtual_addr)
    (physical_addr &&& PAGING_4KB_ADDR_MASK)
  let s := store s (.direct pt) (PAGING_PTE_OFFSET virtual_addr)
    (load s (.direct pt) (PAGING_PTE_OFFSET virtual_addr) ||| PAGING_PRESENT_BIT)
  set_attributes s (.direct pt) (PAGING_PTE_OFFSET virtual_addr) attributes

def vmm_unmap (s : VmmState) (address_space virtual_addr : Nat) : VmmState :=
  let (pt, s) := get_page_table s address_space virtual_addr
  if pt = 0 then s else
  let s := map_to_free_page s pt
  let phys := get_page s .free_page (PAGING_PTE_OFFSET virtual_addr)
  if phys ≠ 0 then
    store s (.direct pt) (PAGING_PTE_OFFSET virtual_addr) 0
  else s

def vmm_allocate (s : VmmState) (address_space virtual_addr : Nat)
    (attributes : page_attributes_t) : VmmState :=
  let (pt, s) :=
    get_or_create_page_table s address_space (PAGING_PDE_OFFSET virtual_addr) attributes
  let s := map_to_free_page s pt
  let phys := get_page s .free_page (PAGING_PTE_OFFSET virtual_addr)
  -- check if we should free the current physical page there
  let s := if phys ≠ 0 ∧ is_allocated s phys = true then set_free (pmm_free s phys) phys else s
  -- set the entry
  let (frame, s) := pmm_allocate s
  let s := store s (.direct pt) (PAGING_PTE_OFFSET virtual_addr) (frame &&& PAGING_4KB_ADDR_MASK)
  let s := store s (.direct pt) (PAGING_PTE_OFFSET virtual_addr)
    (load s (.direct pt) (PAGING_PTE_OFFSET virtual_addr) ||| PAGING_PRESENT_BIT)
  set_attributes s (.direct pt) (PAGING_PTE_OFFSET virtual_addr) attributes

def vmm_free (s : VmmState) (address_space virtual_addr : Nat) : VmmState :=
  let (pt, s) := get_page_table s address_space virtual_addr
  if pt = 0 then s else
  let s := map_to_free_page s pt
  let phys := get_page s .free_page (PAGING_PTE_OFFSET virtual_addr)
  if phys ≠ 0 then
    let s := if is_allocated s phys = true then set_free (pmm_free s phys) phys else s
    store s (.direct pt) (PAGING_PTE_OFFSET virtual_addr) 0
  else s

/-! ## The hardware view of an address space -/

/-- Modelled from the spec: the 4-level walk of an address space by the indices
of `va` (shifts by 39, 30 and 21, each masked to 9 bits), down to the address
of the leaf entry; `none` when an intermediate entry is not present.  The
sources have no function for it. -/
def leaf_entry_addr (mem : Nat → Nat) (address_space va : Nat) : Option Nat :=
  let e4 := mem ((address_space &&& PAGING_4KB_ADDR_MASK) + 8 * PAGING_PML4_OFFSET va)
  if e4 &&& PAGING_PRESENT_BIT = 0 then none else
  let e3 := mem ((e4 &&& PAGING_4KB_ADDR_MASK) + 8 * PAGING_PDPE_OFFSET va)
  if e3 &&& PAGING_PRESENT_BIT = 0 then none else
  let e2 := mem ((e3 &&& PAGING_4KB_ADDR_MASK) + 8 * PAGING_PDE_OFFSET va)
  if e2 &&& PAGING_PRESENT_BIT = 0 then none else
  some ((e2 &&& PAGING_4KB_ADDR_MASK) + 8 * PAGING_PTE_OFFSET va)

/-- Modelled from the spec: `translate(va) → pa or NOT_MAPPED`, the frame
address of the present leaf entry the walk ends at; `none` is `NOT_MAPPED`. -/
def translate (mem : Nat → Nat) (address_space va : Nat) : Option Nat :=
  match leaf_entry_addr mem address_space va with
  | none => none
  | some a => if mem a &&& PAGING_PRESENT_BIT = 0 then none else some (mem a &&& PAGING_4KB_ADDR_MASK)

/-! ## cpu.h -/

/-- The register frame `system_context_t` pushed on interrupt entry. -/
structure system_context_t where
  ds : Nat
  r15 : Nat
  r14 : Nat
  r13 : Nat
  r12 : Nat
  r11 : Nat
  r10 : Nat
  r9 : Nat
  r8 : Nat
  rbp : Nat
  rdi : Nat
  rsi : Nat
  rdx : Nat
  rcx : Nat
  rbx : Nat
  rax : Nat
  int_num : Nat
  error_code : Nat
  rip : Nat
  cs : Nat
  rflags : Nat
  rsp : Nat
  ss : Nat
  deriving DecidableEq, Repr

/-- The name `scheduler.c` uses for the register frame. -/
abbrev registers_t := system_context_t

/-! ## scheduler.c -/

/-- Error codes; `NO_ERROR` is zero. -/
abbrev error_t := Nat

def NO_ERROR : error_t := 0

/-- Modelled from the spec: `thread.h` is missing from the sources.  "A status
in {new, ready, running, blocked, dead}"; the code names `THREAD_STATUS_READY`
and `THREAD_STATUS_RUNNING`. -/
inductive thread_status_t where
  | THREAD_STATUS_NEW
  | THREAD_STATUS_READY
  | THREAD_STATUS_RUNNING
  | THREAD_STATUS_BLOCKED
  | THREAD_STATUS_DEAD
  deriving DecidableEq, Repr

open thread_status_t

/-- The member `state` of a thread: the saved register frame and the FPU save
area (its content is kept as one number). -/
structure thread_state_t where
  cpu : registers_t
  fpu : Nat
  deriving DecidableEq, Repr

/-- The fields of `thread_t` that `scheduler.c` uses. -/
structure thread_t where
  state : thread_state_t
  status : thread_status_t
  refcount : Nat
  deriving DecidableEq, Repr

/-- The state `scheduler.c` works on.  Threads are named by their address; `0`
is `NULL`. -/
structure SchedState where
  /-- The thread object at an address. -/
  thread : Nat → thread_t
  /-- The global `running_thread`. -/
  running_thread : Nat
  /-- The static cursor `i`. -/
  i : Nat
  /-- The stretchy buffer `threads`. -/
  threads : List Nat
  /-- The register frame `*regs` of the interrupted context. -/
  regs : registers_t
  /-- The FPU/SSE state of the processor. -/
  fpu : Nat
  /-- What the next `_fxsave` returns. -/
  fxsave_result : error_t
  /-- What the next `_fxrstor` returns. -/
  fxrstor_result : error_t

/-- The length `buf_len(threads)`. -/
def buf_len (threads : List Nat) : Nat := threads.length

/-- Modelled from the spec: `_fxsave` (cpu/fpu.h) is missing from the sources;
"save FPU/SSE state into `current.state.fpu`".  It returns an `error_t`. -/
def _fxsave (s : SchedState) (t : Nat) : error_t × SchedState :=
  if s.fxsave_result ≠ NO_ERROR then (s.fxsave_result, s) else
  let area : thread_t := { (s.thread t) with state := { (s.thread t).state with fpu := s.fpu } }
  (NO_ERROR, { s with thread := fun a => if a = t then area else s.thread a })

/-- Modelled from the spec: `_fxrstor` (cpu/fpu.h) is missing from the sources;
"restore FPU state".  It returns an `error_t`. -/
def _fxrstor (s : SchedState) (t : Nat) : error_t × SchedState :=
  if s.fxrstor_result ≠ NO_ERROR then (s.fxrstor_result, s) else
  (NO_ERROR, { s with fpu := (s.thread t).state.fpu })

/-- The assignment `t->state.cpu = regs`. -/
def set_cpu (s : SchedState) (t : Nat) (regs : registers_t) : SchedState :=
  let saved : thread_t := { (s.thread t) with state := { (s.thread t).state with cpu := regs } }
  { s with thread := fun a => if a = t then saved else s.thread a }

/-- The assignment `t->status = status`. -/
def set_status (s : SchedState) (t : Nat) (status : thread_status_t) : SchedState :=
  { s with thread := fun a => if a = t then { (s.thread t) with status := status } else s.thread a }

/-- The function `do_context_switch`.  `CHECK_AND_RETHROW(e)` (its header is not
among the sources; the `cleanup` label and `return err` fix its meaning) stores
`e` in `err` and leaves through `cleanup` when it is not `NO_ERROR`.  The result
is `none` when the code dereferences `NULL`. -/
def do_context_switch (s : SchedState) (new : Nat) : Option (error_t × SchedState) :=
  -- no need to load a new context if using the same address space
  if s.running_thread = new then some (NO_ERROR, s) else
  -- only do this if there was a running thread
  let saved : error_t × SchedState :=
    if s.running_thread ≠ 0 then
      -- save the state of the running thread
      let s := set_cpu s s.running_thread s.regs
      let (err, s) := _fxsave s s.running_thread
      if err ≠ NO_ERROR then (err, s) else
      (NO_ERROR, set_status s s.running_thread THREAD_STATUS_READY)
    else (NO_ERROR, s)
  if saved.1 ≠ NO_ERROR then some saved else
  let s := saved.2
  if new = 0 then none else
  -- load the new thread state
  let s := { s with regs := (s.thread new).state.cpu }
  let (err, s) := _fxrstor s new
  if err ≠ NO_ERROR then some (err, s) else
  let s := set_status s new THREAD_STATUS_RUNNING
  -- set the new as the running thread
  some (NO_ERROR, { s with running_thread := new })

/-- The `do ... while` loop of `scheduler_timer` that chooses the new thread,
run for at most `fuel` iterations.  The result is `none` when the loop has not
ended within the fuel, when `buf_len(threads)` is zero (a division by zero) or
when the entry read is `NULL`. -/
def choose_thread : Nat → SchedState → Option (Nat × SchedState)
  | 0, _ => none
  | fuel + 1, s =>
    if buf_len s.threads = 0 then none else
    let new_thread := s.threads.getD (s.i % buf_len s.threads) 0
    let s := { s with i := (s.i + 1) % 2 ^ 64 % buf_len s.threads }
    if new_thread = 0 then none else
    if (s.thread new_thread).status ≠ THREAD_STATUS_READY
        ∧ (s.thread new_thread).status ≠ THREAD_STATUS_RUNNING then
      choose_thread fuel s
    else some (new_thread, s)

/-- The function `scheduler_timer`, its loop run for at most `fuel` iterations. -/
def scheduler_timer (fuel : Nat) (s : SchedState) : Option (error_t × SchedState) :=
  -- choose new thread
  match choose_thread fuel s with
  | none => none
  | some (new_thread, s) =>
    -- do context switch
    do_context_switch s new_thread

/-! ## scheduler.c: consecutive ticks -/

/-- The thread the loop of `scheduler_timer` chooses on the call number `n` of a
run of consecutive calls, the calls counted from `0` (so `n = 0` is the first
tick); `none` when a call before it, or the choice itself, produces no result. -/
def nth_choice (fuel : Nat) : Nat → SchedState → Option Nat
  | 0, s => (choose_thread fuel s).map Prod.fst
  | n + 1, s =>
    match scheduler_timer fuel s with
    | none => none
    | some (_, s) => nth_choice fuel n s

/-! ## apic.c: error codes and hardware accesses -/

/-- Modelled from the spec: `util/except.h` is missing from the sources.  The
error `NOT_FOUND` of the taxonomy; only its being different from `NO_ERROR` is
used. -/
def ERROR_NOT_FOUND : error_t := 2

/-- Modelled from the spec: `util/except.h` is missing from the sources.  The
error a failed `CHECK_TRACE` leaves in `err`; only its being different from
`NO_ERROR` is used. -/
def ERROR_CHECK_FAILED : error_t := 1

/-- Modelled from the spec: "all RAM is mapped at `DIRECT_BASE + physical_addr`";
the base of the direct window (the scenario of the spec uses
`0xFFFF_8000_0000_1000`). -/
def DIRECT_MAPPING_BASE : Nat := 0xFFFF800000000000

/-- The macro `PHYSICAL_TO_DIRECT`, on 64-bit addresses. -/
def PHYSICAL_TO_DIRECT (addr : Nat) : Nat := (addr + DIRECT_MAPPING_BASE) % 2 ^ 64

def SMP_FLAG : Nat := 0x510 + DIRECT_MAPPING_BASE
def SMP_KERNEL_ENTRY : Nat := 0x520 + DIRECT_MAPPING_BASE
def SMP_KERNEL_PAGE_TABLE : Nat := 0x540 + DIRECT_MAPPING_BASE
def SMP_STACK_POINTER : Nat := 0x550 + DIRECT_MAPPING_BASE
def SMP_KERNEL_GDT : Nat := 0x580 + DIRECT_MAPPING_BASE
def SMP_KERNEL_IDT : Nat := 0x590 + DIRECT_MAPPING_BASE

/-- Modelled from the spec: `apic.h` is missing from the sources.  The offsets
of the local APIC registers the code names (ID, EOI, SVR, LVT-Timer,
TimerInitCount, TimerCurrentCount, TimerDivide, ICR-low/high), as in the xAPIC
register map. -/
def XAPIC_ID_OFFSET : Nat := 0x20
def XAPIC_EOI_OFFSET : Nat := 0xB0
def XAPIC_SPURIOUS_VECTOR_OFFSET : Nat := 0xF0
def XAPIC_ICR_LOW_OFFSET : Nat := 0x300
def XAPIC_ICR_HIGH_OFFSET : Nat := 0x310
def XAPIC_LVT_TIMER_OFFSET : Nat := 0x320
def XAPIC_TIMER_INIT_COUNT_OFFSET : Nat := 0x380
def XAPIC_TIMER_CURRENT_COUNT_OFFSET : Nat := 0x390
def XAPIC_TIMER_DIVIDE_CONFIGURATION_OFFSET : Nat := 0x3E0

/-- Modelled from the spec: "computes the local entry index =
`0x10 + 2*(gsi-gsi_start)`"; the constant is declared in the missing `apic.h`. -/
def IOAPIC_REDIRECTION_TABLE_ENTRY_INDEX : Nat := 0x10

/-- Modelled from the spec: the delivery modes of `apic.h` (missing), with the
values of the APIC architecture. -/
def LAPIC_DELIVERY_MODE_FIXED : Nat := 0
def LAPIC_DELIVERY_MODE_INIT : Nat := 5
def LAPIC_DELIVERY_MODE_STARTUP : Nat := 6

/-- What the code does to the hardware and to the low-memory cells, in the
order it does it.  The macros `POKE8`, `POKE32`, `POKE64` and `POKE` are not
among the sources: `POKE8`, `POKE32` and `POKE64` are stores of 8, 32 and 64
bits.  Each access is recorded with the value that is stored; the values of the
64-bit stores are pointers and `0`, recorded as they are. -/
inductive hw_event where
  /-- The statement `POKE8(apic->base + IOAPIC_INDEX_OFFSET) = index`, with the 8
  bits of `index` that the store keeps. -/
  | ioapic_index (base index : Nat)
  /-- The statement `POKE32(apic->base + IOAPIC_DATA_OFFSET) = value`. -/
  | ioapic_data (base value : Nat)
  /-- The 32-bit store of `lapic_write`. -/
  | lapic_store (reg value : Nat)
  /-- The call `stall(microseconds)`. -/
  | stall (microseconds : Nat)
  /-- A 64-bit store `POKE64(cell) = value`. -/
  | cell_store (cell value : Nat)
  /-- The `memcpy` of the trampoline to physical `0x1000`. -/
  | trampoline_copy
  /-- The copy of `g_idt` to `SMP_KERNEL_IDT`. -/
  | idt_copy
  /-- The copy of `g_gdt` to `SMP_KERNEL_GDT`. -/
  | gdt_copy
  deriving DecidableEq, Repr

/-- The type `ioapic_t`. -/
structure ioapic_t where
  base : Nat
  gsi_start : Nat
  gsi_end : Nat
  deriving DecidableEq, Repr

/-- Modelled from the spec: the MADT entries ("LAPIC (apic id, enabled,
online-capable), IOAPIC (id, mmio base, gsi base), ISO (source IRQ, target GSI,
flags)"); their declarations are in the missing ACPI headers. -/
inductive madt_entry_t where
  | MADT_LAPIC (apic_id : Nat) (enabled online_capable : Bool)
  | MADT_IOAPIC (ioapic_id ioapic_address gsi_base : Nat)
  | MADT_ISO (source gsi flags : Nat)
  | MADT_OTHER
  deriving DecidableEq, Repr

open madt_entry_t

/-- Modelled from the spec: the flags `MAP_WRITE` and `MAP_EXEC` that `apic.c`
passes to `vmm_map`; their header `<mem/vmm.h>` is missing from the sources.
"`flags ⊆ {WRITE, USER, EXEC, NOCACHE, WRITETHROUGH}`": one bit for each, in the
order of the list. -/
def MAP_WRITE : Nat := 1 <<< 0
def MAP_EXEC : Nat := 1 <<< 2

/-- Modelled from the spec: what a page of an address space maps, the physical
address and the flags given to "`map(va, pa, flags)`". -/
structure page_mapping_t where
  pa : Nat
  flags : Nat
  deriving DecidableEq, Repr

/-- Modelled from the spec: `vmm_map` of `<mem/vmm.h>`, which `apic.c` calls and
which is missing from the sources (the `vmm_map` of `vmm.c` returns nothing and
takes an address space by value and attributes).  "`map(va, pa, flags)` —
install a 4 KiB mapping".  The address space is given by what each page maps, by
page number.  `err` is the `err_t` the call returns, an answer of the
environment ("`OUT_OF_MEMORY` (no frame for an intermediate), `ALREADY_MAPPED`"):
a call that returns `NO_ERROR` has installed the mapping of the page of `va`,
and a call that fails leaves the address space as it was. -/
def mem_vmm_map (err : error_t) (pages : Nat → Option page_mapping_t) (va pa flags : Nat) :
    error_t × (Nat → Option page_mapping_t) :=
  if err ≠ NO_ERROR then (err, pages) else
  (NO_ERROR, fun page => if page = va / 4096 then some ⟨pa, flags⟩ else pages page)

/-- Modelled from the spec: `vmm_unmap` of `<mem/vmm.h>`, which `apic.c` calls and
which is missing from the sources (the `vmm_unmap` of `vmm.c` returns nothing).
"`unmap(va)` — tear down a mapping, never freeing the underlying frame"; "after
`unmap(va)`, `translate(va) = NOT_MAPPED`".  `err` is the `err_t` the call
returns, an answer of the environment ("`NOT_MAPPED` (unmap/free of an absent
leaf)"): a call that returns `NO_ERROR` has torn down the mapping of the page of
`va`, and a call that fails leaves the address space as it was. -/
def mem_vmm_unmap (err : error_t) (pages : Nat → Option page_mapping_t) (va : Nat) :
    error_t × (Nat → Option page_mapping_t) :=
  if err ≠ NO_ERROR then (err, pages) else
  (NO_ERROR, fun page => if page = va / 4096 then none else pages page)

/-- Modelled from the spec: "`translate(va) → pa or NOT_MAPPED`" on such an
address space; `none` is `NOT_MAPPED`. -/
def mem_vmm_translate (pages : Nat → Option page_mapping_t) (va : Nat) : Option Nat :=
  match pages (va / 4096) with
  | none => none
  | some m => some (m.pa + va % 4096)

/-- The state `apic.c` works on, with what the hardware and the environment
answer. -/
structure ApicState where
  /-- The list `g_ioapics`. -/
  g_ioapics : List ioapic_t
  /-- The entries of the table `g_madt`, in the order `FOR_EACH_IN_MADT` visits
  them. -/
  g_madt : List madt_entry_t
  /-- The CPU-local `g_lapic_freq`. -/
  g_lapic_freq : Nat
  /-- What `get_lapic_id()` returns on this processor. -/
  lapic_id : Nat
  /-- The accesses made so far, oldest first. -/
  log : List hw_event
  /-- The kernel address space `g_kernel.address_space` as `<mem/vmm.h>` presents
  it: what each 4 KiB page maps, by page number (`none` is a page that is not
  mapped). -/
  kernel_pages : Nat → Option page_mapping_t
  /-- The top-level table of `g_kernel.address_space`. -/
  kernel_address_space : Nat
  /-- What `alloc_stack()` returns. -/
  alloc_stack_result : Nat
  /-- The address of `per_cpu_entry`. -/
  per_cpu_entry : Nat
  /-- The value of the ready flag `SMP_FLAG` the boot processor reads after the
  first SIPI to a processor and the stall that follows. -/
  flag_after_first_sipi : Nat → Nat
  /-- The value of the ready flag read after the second SIPI and its stall. -/
  flag_after_second_sipi : Nat → Nat
  /-- What the two `vmm_map` and the two `vmm_unmap` calls of
  `startup_all_cores` return (the functions `apic.c` calls return an `err_t`). -/
  vmm_map_zero_result : error_t
  vmm_map_trampoline_result : error_t
  vmm_unmap_zero_result : error_t
  vmm_unmap_trampoline_result : error_t

/-- Appends one access to the log. -/
def record (s : ApicState) (e : hw_event) : ApicState :=
  { s with log := s.log ++ [e] }

/-! ## apic.c: the I/O APIC -/

/-- The function `ioapic_write`.  The parameter `index` is a `size_t` and is
stored with `POKE8`, which keeps its low 8 bits; `value` is a `uint32_t`. -/
def ioapic_write (s : ApicState) (apic : ioapic_t) (index value : Nat) : ApicState :=
  let s := record s (.ioapic_index apic.base (index % 2 ^ 8))
  record s (.ioapic_data apic.base (value % 2 ^ 32))

/-- Modelled from the spec: the declaration of `ioapic_redir_entry_t` (`apic.h`)
is missing.  "A redirection entry carries {vector, delivery mode, destination
mode, polarity, trigger mode, mask, destination id}", here with the two status
bits of the I/O APIC register format. -/
structure ioapic_redir_entry_t where
  vector : Nat
  delivery_mode : Nat
  destination_mode : Nat
  delivery_status : Nat
  polarity : Nat
  remote_irr : Nat
  trigger_mode : Nat
  mask : Nat
  destination_id : Nat
  deriving DecidableEq, Repr

/-- Modelled from the spec: the member `raw_split.low`, the low 32 bits of the
entry in the I/O APIC register format (vector in bits 0-7, delivery mode 8-10,
destination mode 11, delivery status 12, polarity 13, remote IRR 14, trigger
mode 15, mask 16). -/
def ioapic_redir_entry_t.raw_split_low (e : ioapic_redir_entry_t) : Nat :=
  e.vector % 256 + (e.delivery_mode % 8) * 256 + (e.destination_mode % 2) * 2048
    + (e.delivery_status % 2) * 4096 + (e.polarity % 2) * 8192 + (e.remote_irr % 2) * 16384
    + (e.trigger_mode % 2) * 32768 + (e.mask % 2) * 65536

/-- Modelled from the spec: the member `raw_split.high`, the high 32 bits of the
entry (destination id in bits 24-31 of the word). -/
def ioapic_redir_entry_t.raw_split_high (e : ioapic_redir_entry_t) : Nat :=
  (e.destination_id % 256) * 16777216

/-- The loop of `ioapic_redirect` that looks for the I/O APIC of `gsi`, with
`found` the value of the variable `ioapic` so far (`none` is `NULL`). -/
def find_ioapic (gsi : Nat) : List ioapic_t → Option ioapic_t → Option ioapic_t
  | [], found => found
  | apic :: rest, found =>
    if apic.gsi_start ≤ gsi ∧ gsi ≤ apic.gsi_end then find_ioapic gsi rest (some apic)
    else find_ioapic gsi rest found

/-- The function `ioapic_redirect`.  `CHECK_ERROR(c, e)` (its header is not among
the sources) leaves through `cleanup` with `err = e` when `c` is false.  The
parameters `gsi` and `vector` are `uint8_t`. -/
def ioapic_redirect (s : ApicState) (gsi vector : Nat) (level_triggered assertion_level : Bool) :
    error_t × ApicState :=
  -- TODO: redirect with isos
  -- find the correct ioapic
  match find_ioapic gsi s.g_ioapics none with
  | none => (ERROR_NOT_FOUND, s)
  | some ioapic =>
    let gsi := (gsi - ioapic.gsi_start) % 256
    -- setup the entry
    let entry : ioapic_redir_entry_t :=
      { vector := vector
        delivery_mode := LAPIC_DELIVERY_MODE_FIXED
        destination_mode := 0
        delivery_status := 0
        polarity := (!assertion_level).toNat
        remote_irr := 0
        trigger_mode := level_triggered.toNat
        mask := 0
        destination_id := 0 }
    let s := ioapic_write s ioapic (IOAPIC_REDIRECTION_TABLE_ENTRY_INDEX + gsi * 2 + 1)
      entry.raw_split_high
    let s := ioapic_write s ioapic (IOAPIC_REDIRECTION_TABLE_ENTRY_INDEX + gsi * 2)
      entry.raw_split_low
    (NO_ERROR, s)

/-! ## apic.c: the local APIC -/

/-- The function `lapic_write`; its parameter `value` is a `uint32_t`. -/
def lapic_write (s : ApicState) (reg value : Nat) : ApicState :=
  record s (.lapic_store reg (value % 2 ^ 32))

/-- Modelled from the spec: the declaration of `lapic_lvt_timer_t` (`apic.h`) is
missing; the fields of the LVT-Timer register. -/
structure lapic_lvt_timer_t where
  vector : Nat
  delivery_status : Nat
  mask : Nat
  timer_mode : Nat
  deriving DecidableEq, Repr

/-- Modelled from the spec: the member `raw` of the LVT-Timer entry (vector in
bits 0-7, delivery status 12, mask 16, timer mode 17-18 with `0` one-shot). -/
def lapic_lvt_timer_t.raw (t : lapic_lvt_timer_t) : Nat :=
  t.vector % 256 + (t.delivery_status % 2) * 4096 + (t.mask % 2) * 65536
    + (t.timer_mode % 4) * 131072

/-- The function `set_next_scheduler_tick`; `ms` and `g_lapic_freq` are
`uint64_t`, so the product is taken modulo `2 ^ 64` before `lapic_write`
converts it. -/
def set_next_scheduler_tick (s : ApicState) (ms : Nat) : ApicState :=
  let timer : lapic_lvt_timer_t := { vector := 0x20, delivery_status := 0, mask := 0, timer_mode := 0 }
  let s := lapic_write s XAPIC_TIMER_INIT_COUNT_OFFSET (ms * s.g_lapic_freq % 2 ^ 64)
  let s := lapic_write s XAPIC_TIMER_DIVIDE_CONFIGURATION_OFFSET 0
  lapic_write s XAPIC_LVT_TIMER_OFFSET timer.raw

/-- Modelled from the spec: the declaration of `lapic_icr_low_t` (`apic.h`) is
missing; "ICR-low (vector + delivery mode + level)". -/
structure lapic_icr_low_t where
  vector : Nat
  delivery_mode : Nat
  delivery_status : Nat
  level : Nat
  deriving DecidableEq, Repr

/-- Modelled from the spec: the member `raw` of ICR-low (vector in bits 0-7,
delivery mode 8-10, delivery status 12, level 14). -/
def lapic_icr_low_t.raw (icr : lapic_icr_low_t) : Nat :=
  icr.vector % 256 + (icr.delivery_mode % 8) * 256 + (icr.delivery_status % 2) * 4096
    + (icr.level % 2) * 16384

/-- The function `send_ipi`; its parameter `lapic_id` is a `uint8_t`.  The wait
for the delivery-status bit only reads the register, until the hardware clears
the bit; it is taken to end.  `enter_critical` and `exit_critical` are not among
the sources. -/
def send_ipi (s : ApicState) (low : lapic_icr_low_t) (lapic_id : Nat) : ApicState :=
  -- send it
  let s := lapic_write s XAPIC_ICR_HIGH_OFFSET ((lapic_id % 256) <<< 24)
  lapic_write s XAPIC_ICR_LOW_OFFSET low.raw

/-- The function `send_init_ipi`. -/
def send_init_ipi (s : ApicState) (lapic_id : Nat) : ApicState :=
  send_ipi s { vector := 0, delivery_mode := LAPIC_DELIVERY_MODE_INIT, delivery_status := 0,
               level := 1 } (lapic_id % 2 ^ 32)

/-- The function `send_sipi_ipi`. -/
def send_sipi_ipi (s : ApicState) (lapic_id entry : Nat) : ApicState :=
  send_ipi s { vector := entry >>> 12, delivery_mode := LAPIC_DELIVERY_MODE_STARTUP,
               delivery_status := 0, level := 1 } (lapic_id % 2 ^ 32)

/-! ## apic.c: starting the other processors -/

/-- The body of the loop of `startup_all_cores` for one processor to start.
`CHECK_TRACE(c, ...)` (its header is not among the sources) leaves through
`cleanup` with `err = ERROR_CHECK_FAILED` when `c` is false. -/
def startup_core (s : ApicState) (apic_id : Nat) : error_t × ApicState :=
  let s := record s (.cell_store SMP_FLAG 0)
  let s := record s (.cell_store SMP_STACK_POINTER s.alloc_stack_result)
  -- TODO: we need to free this stack somehow
  let s := send_init_ipi s apic_id
  let s := record s (.stall 10000)
  let s := send_sipi_ipi s apic_id 0x1000
  let s := record s (.stall 1000)
  if s.flag_after_first_sipi apic_id = 0 then
    let s := send_sipi_ipi s apic_id 0x1000
    let s := record s (.stall 1000000)
    if s.flag_after_second_sipi apic_id ≠ 0 then (NO_ERROR, s) else (ERROR_CHECK_FAILED, s)
  else (NO_ERROR, s)

/-- The loop `FOR_EACH_IN_MADT` of `startup_all_cores`, over the entries still
to visit. -/
def startup_cores_loop : List madt_entry_t → ApicState → error_t × ApicState
  | [], s => (NO_ERROR, s)
  | MADT_LAPIC apic_id enabled online_capable :: rest, s =>
    if apic_id = s.lapic_id ∨ (enabled = false ∧ online_capable = false) then
      startup_cores_loop rest s
    else
      let r := startup_core s apic_id
      if r.1 ≠ NO_ERROR then r else startup_cores_loop rest r.2
  | _ :: rest, s => startup_cores_loop rest s

/-- The function `startup_all_cores`.  The calls `vmm_map` and `vmm_unmap` are
those of `<mem/vmm.h>` on `g_kernel.address_space`; the `err_t` each returns is
the one the state holds for it, and `CHECK_AND_RETHROW` leaves through `cleanup`
with an `err_t` that is not `NO_ERROR`. -/
def startup_all_cores (s : ApicState) : error_t × ApicState :=
  -- setup everything for starting the cores
  let s := record s .trampoline_copy
  let s := record s (.cell_store SMP_KERNEL_ENTRY s.per_cpu_entry)
  let s := record s (.cell_store SMP_KERNEL_PAGE_TABLE s.kernel_address_space)
  let s := record s .idt_copy
  let s := record s .gdt_copy
  -- map the data and code
  let r := mem_vmm_map s.vmm_map_zero_result s.kernel_pages 0 0 MAP_WRITE
  let s := { s with kernel_pages := r.2 }
  if r.1 ≠ NO_ERROR then (r.1, s) else
  let r := mem_vmm_map s.vmm_map_trampoline_result s.kernel_pages 0x1000 0x1000
    (MAP_WRITE ||| MAP_EXEC)
  let s := { s with kernel_pages := r.2 }
  if r.1 ≠ NO_ERROR then (r.1, s) else
  let r := startup_cores_loop s.g_madt s
  if r.1 ≠ NO_ERROR then r else
  let s := r.2
  -- unmap these
  let r := mem_vmm_unmap s.vmm_unmap_zero_result s.kernel_pages 0
  let s := { s with kernel_pages := r.2 }
  if r.1 ≠ NO_ERROR then (r.1, s) else
  let r := mem_vmm_unmap s.vmm_unmap_trampoline_result s.kernel_pages 0x1000
  let s := { s with kernel_pages := r.2 }
  if r.1 ≠ NO_ERROR then (r.1, s) else
  (NO_ERROR, s)

/-! ## entry.c: feeding the physical memory manager -/

/-- The type `mmap_entry_t` of the bootloader memory map: "array of
`{base, length, type}` where type 1 = usable". -/
structure mmap_entry_t where
  base : Nat
  length : Nat
  type : Nat
  deriving DecidableEq, Repr

/-- Modelled from the spec: the constant `BASE_4GB` (`util/defs.h` is missing),
4 GiB. -/
def BASE_4GB : Nat := 0x100000000

/-- Modelled from the spec: the constant `PAGE_SIZE` (`util/defs.h` is missing),
the size of a 4 KiB frame. -/
def PAGE_SIZE : Nat := 4096

/-- What the two loops of `kentry` over the memory map build up: the calls
`pmm_submit_range(address, page_count)` made so far, oldest first, and the
variable `available_size`. -/
structure BootState where
  pmm_submitted : List (Nat × Nat)
  available_size : Nat
  deriving DecidableEq, Repr

/-- The first loop of `kentry` over the memory map ("setup the allocator (only
first 4GB)"), over the entries still to visit; `base + length` is a 64-bit
sum. -/
def kentry_bootstrap_pass : List mmap_entry_t → BootState → BootState
  | [], s => s
  | entry :: rest, s =>
    if entry.type = 1 ∧ (entry.base + entry.length) % 2 ^ 64 < BASE_4GB then
      kentry_bootstrap_pass rest
        { pmm_submitted :=
            s.pmm_submitted ++ [(PHYSICAL_TO_DIRECT entry.base, entry.length / PAGE_SIZE)]
          available_size := (s.available_size + entry.length) % 2 ^ 64 }
    else kentry_bootstrap_pass rest s

/-- The second loop of `kentry` over the memory map ("finish setup the pmm
entries"), over the entries still to visit. -/
def kentry_finish_pass : List mmap_entry_t → BootState → BootState
  | [], s => s
  | entry :: rest, s =>
    if entry.type = 1 ∧ entry.base ≥ BASE_4GB then
      kentry_finish_pass rest
        { pmm_submitted :=
            s.pmm_submitted ++ [(PHYSICAL_TO_DIRECT entry.base, entry.length / PAGE_SIZE)]
          available_size := (s.available_size + entry.length) % 2 ^ 64 }
    else kentry_finish_pass rest s

/-- The calls of `pmm_submit_range` the two loops of `kentry` make for a memory
map, in order. -/
def kentry_pmm_submissions (memory_map : List mmap_entry_t) : List (Nat × Nat) :=
  (kentry_finish_pass memory_map (kentry_bootstrap_pass memory_map ⟨[], 0⟩)).pmm_submitted

/-! ## spinlock.c -/

/-- The type `spinlock_t`: the atomic flag and the saved task priority level. -/
structure spinlock_t where
  flag : Bool
  owner_tpl : Nat
  deriving DecidableEq, Repr

/-- One lock and the task priority level of the processor. -/
structure TplState where
  lock : spinlock_t
  /-- The current task priority level. -/
  tpl : Nat
  deriving DecidableEq, Repr

/-- Modelled from the spec: `event/event.h` is missing from the sources; the
*high-level* task priority level, at which interrupts are masked. -/
def TPL_HIGH_LEVEL : Nat := 31

/-- Modelled from the spec: `raise_tpl` is missing from the sources; "TPL is
raised to *high-level*", and the level before is returned for `restore_tpl`. -/
def raise_tpl (s : TplState) (new_tpl : Nat) : Nat × TplState :=
  (s.tpl, { s with tpl := new_tpl })

/-- Modelled from the spec: `restore_tpl` is missing from the sources;
"`spinlock_release` restores the saved TPL". -/
def restore_tpl (s : TplState) (old_tpl : Nat) : TplState :=
  { s with tpl := old_tpl }

/-- Modelled from the spec: `get_tpl` is missing from the sources; "acquiring
records the current TPL". -/
def get_tpl (s : TplState) : Nat := s.tpl

/-- The C11 operation `atomic_flag_test_and_set_explicit` on the flag of the
lock: it sets the flag and returns the value the flag had. -/
def atomic_flag_test_and_set_explicit (s : TplState) : Bool × TplState :=
  (s.lock.flag, { s with lock := { s.lock with flag := true } })

/-- The C11 operation `atomic_flag_clear_explicit` on the flag of the lock. -/
def atomic_flag_clear_explicit (s : TplState) : TplState :=
  { s with lock := { s.lock with flag := false } }

/-- The `while` loop of `spinlock_acquire_high_tpl`, run for at most `fuel`
tests of its condition; `none` when it has not ended by then. -/
def spinlock_acquire_high_tpl_loop : Nat → TplState → Option TplState
  | 0, _ => none
  | fuel + 1, s =>
    let (was_set, s) := atomic_flag_test_and_set_explicit s
    if !was_set then
      -- restore it if failed and raise it again
      let s := restore_tpl s s.lock.owner_tpl
      let (_, s) := raise_tpl s TPL_HIGH_LEVEL
      spinlock_acquire_high_tpl_loop fuel s
    else some s

def spinlock_acquire_high_tpl (fuel : Nat) (s : TplState) : Option TplState :=
  let (old_tpl, s) := raise_tpl s TPL_HIGH_LEVEL
  let s := { s with lock := { s.lock with owner_tpl := old_tpl } }
  spinlock_acquire_high_tpl_loop fuel s

/-- The `while` loop of `spinlock_acquire`, run for at most `fuel` tests of its
condition; `none` when it has not ended by then. -/
def spinlock_acquire_loop : Nat → TplState → Option TplState
  | 0, _ => none
  | fuel + 1, s =>
    let (was_set, s) := atomic_flag_test_and_set_explicit s
    if !was_set then spinlock_acquire_loop fuel s else some s

def spinlock_acquire (fuel : Nat) (s : TplState) : Option TplState :=
  let s := { s with lock := { s.lock with owner_tpl := get_tpl s } }
  spinlock_acquire_loop fuel s

def spinlock_release (s : TplState) : TplState :=
  if s.lock.flag = true then
    let s := atomic_flag_clear_explicit s
    restore_tpl s s.lock.owner_tpl
  else s

/-! ## arch.c: the interrupt flag -/

/-- The processor state `arch.c` works on: the register RFLAGS. -/
structure CpuState where
  rflags : Nat
  deriving DecidableEq, Repr

/-- Modelled from the spec: the declaration of `IA32_RFLAGS` is missing from the
sources; the interrupt flag `IF` is bit 9 of RFLAGS. -/
def RFLAGS_IF : Nat := 1 <<< 9

/-- The function `enable_interrupts`: the instruction `sti` sets `IF`. -/
def enable_interrupts (s : CpuState) : CpuState :=
  { s with rflags := s.rflags ||| RFLAGS_IF }

/-- The function `disable_interrupts`: the instruction `cli` clears `IF`. -/
def disable_interrupts (s : CpuState) : CpuState :=
  { s with rflags := s.rflags &&& (2 ^ 64 - 1 - RFLAGS_IF) }

/-- The function `read_eflags`: `pushfq` then `pop`. -/
def read_eflags (s : CpuState) : Nat := s.rflags

/-- The function `get_interrupt_state`; the one-bit field `IF` of `IA32_RFLAGS`
is bit 9 of the value read. -/
def get_interrupt_state (s : CpuState) : Bool :=
  let flags := read_eflags s
  flags.testBit 9 == true

def save_and_disable_interrupts (s : CpuState) : Bool × CpuState :=
  let state := get_interrupt_state s
  let s := disable_interrupts s
  (state, s)

def set_interrupt_state (s : CpuState) (state : Bool) : Bool × CpuState :=
  let s := if state then enable_interrupts s else disable_interrupts s
  (state, s)

/-! ## common.h: the other alignment macros -/

/-- The macro `IS_POW2(x)`, that is `((x) != 0) && ((x) & ((x)-1)) == 0`, on an
unsigned `x`; `&&` evaluates `(x)-1` only when `x` is not zero. -/
def IS_POW2 (x : Nat) : Bool :=
  (x != 0) && ((x &&& (x - 1)) == 0)

/-- The macro `ALIGN_UP(n, a)`, that is `ALIGN_DOWN((n) + (a) - 1, (a))`, where
`a` has an unsigned type of `w` bits and the sum `(n) + (a) - 1` is computed in
an unsigned type of `W` bits (the wider of the types of `n` and `a`). -/
def ALIGN_UP (w W n a : Nat) : Nat :=
  ALIGN_DOWN w ((n + a + 2 ^ W - 1) % 2 ^ W) a

/-! ## entry.c: the unit of the memory size -/

/-- The number of elements of `g_size_names`, that is `{ "B", "kB", "MB", "GB" }`:
the value of `ARRAY_LENGTH(g_size_names)`. -/
def g_size_names_length : Nat := 4

/-- The loop `while (size >= 1024 && div < ARRAY_LENGTH(g_size_names))` of
`kentry` with its body `div++; size /= 1024;`, run for at most `fuel` tests of
its condition; the result is `size` and `div` at the end of the loop, `none`
when the loop has not ended by then. -/
def kentry_size_loop : Nat → Nat → Nat → Option (Nat × Nat)
  | 0, _, _ => none
  | fuel + 1, size, div =>
    if size ≥ 1024 ∧ div < g_size_names_length then
      kentry_size_loop fuel (size / 1024) (div + 1)
    else some (size, div)

/-- The statements `size = available_size; div = 0;` and the loop after them:
the number printed and the index used in `g_size_names[div]`. -/
def kentry_size_unit (fuel : Nat) (available_size : Nat) : Option (Nat × Nat) :=
  kentry_size_loop fuel available_size 0

/-! ## mm.c: the early allocator -/

/-- The type `stivale2_mmap_entry_t` of the memory map `early_alloc` works on:
its fields `base`, `length` and `type`. -/
structure stivale2_mmap_entry_t where
  base : Nat
  length : Nat
  type : Nat
  deriving DecidableEq, Repr

/-- Modelled from the spec: the constant `STIVALE2_MMAP_TYPE_USABLE` (the header
of the boot protocol is missing); "type 1 = usable". -/
def STIVALE2_MMAP_TYPE_USABLE : Nat := 1

/-- Modelled from the spec: the macro `PHYS_TO_DIRECT` (its header is missing);
"all RAM is mapped at `DIRECT_BASE + physical_addr`", on 64-bit addresses. -/
def PHYS_TO_DIRECT (addr : Nat) : Nat := (addr + DIRECT_MAPPING_BASE) % 2 ^ 64

/-- Modelled from the spec: the macro `PAGES_TO_SIZE` (its header is missing);
the size in bytes of a number of 4 KiB pages, a `size_t`. -/
def PAGES_TO_SIZE (page_count : Nat) : Nat := page_count * PAGE_SIZE % 2 ^ 64

/-- Modelled from the spec: the macro `SIZE_TO_PAGES` (its header is missing);
the number of 4 KiB pages that hold a number of bytes. -/
def SIZE_TO_PAGES (size : Nat) : Nat := (size + PAGE_SIZE - 1) / PAGE_SIZE

/-- The loop of `early_alloc` over the entries still to visit: the pointer
returned and the entries as the loop leaves them, `none` when the loop ends
without a `return`. -/
def early_alloc_loop (size : Nat) :
    List stivale2_mmap_entry_t → Option (Nat × List stivale2_mmap_entry_t)
  | [] => none
  | entry :: rest =>
    -- check if a valid type
    if entry.type = STIVALE2_MMAP_TYPE_USABLE ∧ entry.length ≥ size then
      -- remove the the chunk and return the pointer
      let ptr := PHYS_TO_DIRECT entry.base
      some (ptr, { entry with base := (entry.base + size) % 2 ^ 64
                              length := entry.length - size } :: rest)
    else
      match early_alloc_loop size rest with
      | none => none
      | some (ptr, rest) => some (ptr, entry :: rest)

/-- The function `early_alloc` on the memory map of the boot protocol: the
pointer it returns (`0` is `NULL`) and the memory map as it leaves it. -/
def early_alloc (memmap : List stivale2_mmap_entry_t) (page_count : Nat) :
    Nat × List stivale2_mmap_entry_t :=
  -- we are only supporting page aligned allocations
  let size := PAGES_TO_SIZE page_count
  -- find an entry with enough space
  match early_alloc_loop size memmap with
  | some r => r
  -- no empty entries
  | none => (0, memmap)

/-- The function `early_page_alloc`. -/
def early_page_alloc (memmap : List stivale2_mmap_entry_t) :
    Nat × List stivale2_mmap_entry_t :=
  early_alloc memmap (SIZE_TO_PAGES PAGE_SIZE)

/-! ## Concrete states used to evaluate the code -/

/-- The attributes `{ .write = true, .user = false, .execute = false }`. -/
def attrs_write_only : page_attributes_t := ⟨true, false, false⟩

/-- An address space whose top-level table at `0x1000` is empty, a physical
memory manager with six free frames, an empty bitmap; the kernel address
space is current. -/
def empty_space : VmmState where
  mem := fun _ => 0
  free_page_pte := 0
  bitmap := fun _ => 0
  pmm_free_frames := [0x10000, 0x11000, 0x12000, 0x13000, 0x14000, 0x15000]
  current_address_space := 0x1000
  boot_address_space := 0x9000

/-- An address space at `0x1000` whose tables for the first 2 MiB exist
(`0x1000 → 0x10000 → 0x11000 → 0x12000`, each entry present and writable) and
whose page table is empty; two free frames; the scratch page maps frame
`0x7000`. -/
def prepared_space : VmmState where
  mem := fun a =>
    if a = 0x1000 then 0x10003 else
    if a = 0x10000 then 0x11003 else
    if a = 0x11000 then 0x12003 else 0
  free_page_pte := 0x8000000000007003
  bitmap := fun _ => 0
  pmm_free_frames := [0x13000, 0x14000]
  current_address_space := 0x1000
  boot_address_space := 0x9000

/-- The state `prepared_space` with the page at `0x3000` mapped to frame
`0x5000` (leaf entry `0x12018`, present and writable). -/
def mapped_space : VmmState :=
  { prepared_space with mem := fun a => if a = 0x12018 then 0x5003 else prepared_space.mem a }

/-- The state `prepared_space` with the page at `0` mapped to frame `0` (leaf
entry `0x12000`, present and writable), as `vmm_map(as, 0, 0, ...)` leaves it. -/
def zero_frame_space : VmmState :=
  { prepared_space with mem := fun a => if a = 0x12000 then 0x3 else prepared_space.mem a }


/-- A register frame with a distinct value in every field, starting at `k`. -/
def regs_pattern (k : Nat) : registers_t :=
  { ds := k, r15 := k + 1, r14 := k + 2, r13 := k + 3, r12 := k + 4, r11 := k + 5,
    r10 := k + 6, r9 := k + 7, r8 := k + 8, rbp := k + 9, rdi := k + 10, rsi := k + 11,
    rdx := k + 12, rcx := k + 13, rbx := k + 14, rax := k + 15, int_num := k + 16,
    error_code := k + 17, rip := k + 18, cs := k + 19, rflags := k + 20, rsp := k + 21,
    ss := k + 22 }

/-- Two threads, at `0x100` (running) and `0x200` (ready), both in the table;
the cursor is at the second entry and the FPU instructions succeed. -/
def two_threads : SchedState where
  thread := fun a =>
    if a = 0x100 then ⟨⟨regs_pattern 100, 7⟩, THREAD_STATUS_RUNNING, 1⟩
    else if a = 0x200 then ⟨⟨regs_pattern 200, 8⟩, THREAD_STATUS_READY, 1⟩
    else ⟨⟨regs_pattern 0, 0⟩, THREAD_STATUS_DEAD, 0⟩
  running_thread := 0x100
  i := 1
  threads := [0x100, 0x200]
  regs := regs_pattern 500
  fpu := 9
  fxsave_result := NO_ERROR
  fxrstor_result := NO_ERROR

/-- The state a call has produced, or the given state when it produced none. -/
def outcome (r : Option (error_t × SchedState)) (otherwise : SchedState) : SchedState :=
  match r with
  | some (_, s) => s
  | none => otherwise

/-! ## Auxiliary definitions for the proofs -/

/-- The value `set_attributes` leaves in an entry that held `e`. -/
def set_attributes_word (e : Nat) (attrs : page_attributes_t) : Nat :=
  let e := if e &&& PAGING_READ_WRITE_BIT = 0 ∧ attrs.write = true then
      e ||| PAGING_READ_WRITE_BIT else e
  let e := if e &&& PAGING_USER_SUPREVISOR_BIT = 0 ∧ attrs.user = true then
      e ||| PAGING_USER_SUPREVISOR_BIT else e
  if e &&& PAGING_NO_EXECUTE_BIT ≠ 0 ∧ attrs.execute = true then
    e &&& (2 ^ 64 - 1 - PAGING_NO_EXECUTE_BIT)
  else e

/-- One guarded update of `set_attributes`: when the entry satisfies `c`, it is
replaced by its image under `g`. -/
def attr_step (c : Nat → Prop) [DecidablePred c] (g : Nat → Nat) (s : VmmState)
    (table : TablePtr) (index : Nat) : VmmState :=
  if c (load s table index) then store s table index (g (load s table index)) else s

/-- One guarded update of `set_attributes`, on the value of the entry. -/
def attr_word_step (c : Nat → Prop) [DecidablePred c] (g : Nat → Nat) (e : Nat) : Nat :=
  if c e then g e else e

/-- The state `s'` is `s` with the word at address `A` replaced by its image
under `w`. -/
def updates_word (s s' : VmmState) (A : Nat) (w : Nat → Nat) : Prop :=
  s'.mem A = w (s.mem A)
    ∧ (∀ a, a ≠ A → s'.mem a = s.mem a)
    ∧ s'.free_page_pte = s.free_page_pte
    ∧ s'.bitmap = s.bitmap
    ∧ s'.pmm_free_frames = s.pmm_free_frames
    ∧ s'.current_address_space = s.current_address_space
    ∧ s'.boot_address_space = s.boot_address_space

/-- What `get_page` returns for the entry `index` of the table at the physical
address `base`. -/
def entry_target (mem : Nat → Nat) (base index : Nat) : Nat :=
  if mem (base + 8 * index) &&& PAGING_PRESENT_BIT ≠ 0 then
    mem (base + 8 * index) &&& PAGING_4KB_ADDR_MASK
  else
    0

/-- The page table `get_page_table` finds for `va`, or `0`: the walk by the
indices of `va` in which an entry counts as absent when `get_page` returns `0`. -/
def walk_tables (mem : Nat → Nat) (address_space va : Nat) : Nat :=
  let pdp := entry_target mem (address_space &&& PAGING_4KB_ADDR_MASK) (PAGING_PML4_OFFSET va)
  if pdp = 0 then 0 else
  let pd := entry_target mem pdp (PAGING_PDPE_OFFSET va)
  if pd = 0 then 0 else
  entry_target mem pd (PAGING_PDE_OFFSET va)

/-- Two memories whose words agree on the present bit and on the frame
address: they hold the same tree of tables. -/
def same_links (m m' : Nat → Nat) : Prop :=
  ∀ a, m' a &&& PAGING_4KB_ADDR_MASK = m a &&& PAGING_4KB_ADDR_MASK
    ∧ m' a &&& PAGING_PRESENT_BIT = m a &&& PAGING_PRESENT_BIT

/-! ## Auxiliary definitions for the scheduler, the APIC and the locks -/

/-- The conditions of round-robin choice: a table that is not empty, of a length
below `2 ^ 64`, a cursor with room for the increment, and entries that are
threads with status `READY` or `RUNNING`. -/
def round_robin_ready (s : SchedState) : Prop :=
  s.threads ≠ [] ∧ buf_len s.threads < 2 ^ 64 ∧ s.i + 1 < 2 ^ 64
    ∧ ∀ t ∈ s.threads, t ≠ 0 ∧ ((s.thread t).status = THREAD_STATUS_READY
      ∨ (s.thread t).status = THREAD_STATUS_RUNNING)

/-- Three threads `A`, `B`, `C` at `0x100`, `0x200` and `0x300`, all ready and
in the table in that order; the cursor is at the first entry and no thread is
running yet. -/
def three_threads : SchedState where
  thread := fun a =>
    if a = 0x100 then ⟨⟨regs_pattern 100, 7⟩, THREAD_STATUS_READY, 1⟩
    else if a = 0x200 then ⟨⟨regs_pattern 200, 8⟩, THREAD_STATUS_READY, 1⟩
    else if a = 0x300 then ⟨⟨regs_pattern 300, 9⟩, THREAD_STATUS_READY, 1⟩
    else ⟨⟨regs_pattern 0, 0⟩, THREAD_STATUS_DEAD, 0⟩
  running_thread := 0
  i := 0
  threads := [0x100, 0x200, 0x300]
  regs := regs_pattern 500
  fpu := 9
  fxsave_result := NO_ERROR
  fxrstor_result := NO_ERROR

/-- A table of one thread, at `0x100`, which is blocked; no thread is
running. -/
def blocked_only : SchedState where
  thread := fun a =>
    if a = 0x100 then ⟨⟨regs_pattern 100, 7⟩, THREAD_STATUS_BLOCKED, 1⟩
    else ⟨⟨regs_pattern 0, 0⟩, THREAD_STATUS_DEAD, 0⟩
  running_thread := 0
  i := 0
  threads := [0x100]
  regs := regs_pattern 500
  fpu := 9
  fxsave_result := NO_ERROR
  fxrstor_result := NO_ERROR

/-- A machine with two processors (the boot processor has APIC id `0`), one
I/O APIC for the GSIs `0` to `23`, and an interrupt source override that sends
the legacy IRQ `0` to GSI `2`, active low and level triggered (flags `0xF`).
The kernel address space maps the page at 1 MiB and neither the page at `0` nor
the page at `0x1000`.  The other processor sets the ready flag after the first
SIPI; the calls into the virtual memory manager report no error. -/
def two_cpu_machine : ApicState where
  g_ioapics := [{ base := 0xFFFF8000FEC00000, gsi_start := 0, gsi_end := 23 }]
  g_madt := [MADT_LAPIC 0 true false, MADT_LAPIC 1 true false,
    MADT_IOAPIC 0 0xFEC00000 0, MADT_ISO 0 2 0xF]
  g_lapic_freq := 1000
  lapic_id := 0
  log := []
  kernel_pages := fun page => if page = 0x100 then some ⟨0x100000, MAP_WRITE⟩ else none
  kernel_address_space := 0x100000
  alloc_stack_result := 0xFFFF800000200000
  per_cpu_entry := 0xFFFFFFFF80001000
  flag_after_first_sipi := fun _ => 1
  flag_after_second_sipi := fun _ => 1
  vmm_map_zero_result := NO_ERROR
  vmm_map_trampoline_result := NO_ERROR
  vmm_unmap_zero_result := NO_ERROR
  vmm_unmap_trampoline_result := NO_ERROR

/-- The processors `startup_all_cores` is to start, in the words of the
specification: the LAPIC entries of the table whose APIC id is not the boot
processor's and that are enabled or online-capable, in the order of the
table. -/
def expected_startup_targets (bsp : Nat) : List madt_entry_t → List Nat
  | [] => []
  | MADT_LAPIC apic_id enabled online_capable :: rest =>
    if apic_id ≠ bsp ∧ (enabled = true ∨ online_capable = true) then
      apic_id :: expected_startup_targets bsp rest
    else expected_startup_targets bsp rest
  | _ :: rest => expected_startup_targets bsp rest

/-- One inter-processor interrupt, in the words of the specification:
"ICR-high (destination id << 24)" then "ICR-low (vector + delivery mode +
level)". -/
def expected_ipi_events (icr_low apic_id : Nat) : List hw_event :=
  [hw_event.lapic_store XAPIC_ICR_HIGH_OFFSET (apic_id % 256 * 16777216),
   hw_event.lapic_store XAPIC_ICR_LOW_OFFSET icr_low]

/-- What the boot processor does for one target, in the words of the
specification: clear the ready flag, set the stack, INIT IPI (ICR-low `0x4500`),
stall 10 ms, SIPI for the page `0x1000` (ICR-low `0x4601`), stall 1 ms, and, if
the flag is still zero, a second SIPI and a stall of 1 s. -/
def expected_core_events (stack : Nat) (flag_after_first : Nat → Nat) (apic_id : Nat) :
    List hw_event :=
  [hw_event.cell_store SMP_FLAG 0, hw_event.cell_store SMP_STACK_POINTER stack]
    ++ expected_ipi_events 0x4500 apic_id ++ [hw_event.stall 10000]
    ++ expected_ipi_events 0x4601 apic_id ++ [hw_event.stall 1000]
    ++ (if flag_after_first apic_id = 0 then
          expected_ipi_events 0x4601 apic_id ++ [hw_event.stall 1000000]
        else [])

/-- What the boot processor does for a list of targets, in the words of the
specification: the targets are started in order, and a target whose flag is
still zero after the second SIPI ends the bring-up (no later target is
started). -/
def expected_startup_events (stack : Nat) (flag_after_first flag_after_second : Nat → Nat) :
    List Nat → List hw_event
  | [] => []
  | apic_id :: rest =>
    expected_core_events stack flag_after_first apic_id
      ++ (if flag_after_first apic_id = 0 ∧ flag_after_second apic_id = 0 then []
          else expected_startup_events stack flag_after_first flag_after_second rest)

/-- The accesses `startup_all_cores` makes before it maps the two pages: the copy
of the trampoline, the entry point, the page table, the IDT and the GDT. -/
def expected_setup_events (s : ApicState) : List hw_event :=
  [hw_event.trampoline_copy, hw_event.cell_store SMP_KERNEL_ENTRY s.per_cpu_entry,
   hw_event.cell_store SMP_KERNEL_PAGE_TABLE s.kernel_address_space,
   hw_event.idt_copy, hw_event.gdt_copy]

/-- The machine `two_cpu_machine` with another processor that never sets the
ready flag. -/
def silent_cpu_machine : ApicState :=
  { two_cpu_machine with
    flag_after_first_sipi := fun _ => 0
    flag_after_second_sipi := fun _ => 0 }

/-- A free lock (the owner level it holds is a leftover `7`) on a processor at
the task priority level `4`. -/
def free_lock_at_4 : TplState := { lock := { flag := false, owner_tpl := 7 }, tpl := 4 }

/-! ## Concrete states for the bitmap, the timer, the scheduler and the locks -/

/-- The state `empty_space` with the bit of page `1` set where `is_allocated`
reads it (bit `1` of the word `0` of the bitmap). -/
def page_one_marked : VmmState :=
  { empty_space with bitmap := fun k => if k = 0 then 2 else 0 }

/-- The state `empty_space` with the bit set where `set_allocated(0x1000)` sets
it (bit `0` of the word `0x200` of the bitmap). -/
def word_0x200_marked : VmmState :=
  { empty_space with bitmap := fun k => if k = 0x200 then 1 else 0 }

/-- The machine `two_cpu_machine` with a local APIC timer calibrated at
`0x80000000` counts per millisecond. -/
def fast_timer_machine : ApicState :=
  { two_cpu_machine with g_lapic_freq := 0x80000000 }

/-- Two threads in the table: the running thread at `0x100`, which has set its
status to `BLOCKED`, and a ready thread at `0x200`; the cursor is at the second
entry. -/
def blocked_runner : SchedState where
  thread := fun a =>
    if a = 0x100 then ⟨⟨regs_pattern 100, 7⟩, THREAD_STATUS_BLOCKED, 1⟩
    else if a = 0x200 then ⟨⟨regs_pattern 200, 8⟩, THREAD_STATUS_READY, 1⟩
    else ⟨⟨regs_pattern 0, 0⟩, THREAD_STATUS_DEAD, 0⟩
  running_thread := 0x100
  i := 1
  threads := [0x100, 0x200]
  regs := regs_pattern 500
  fpu := 9
  fxsave_result := NO_ERROR
  fxrstor_result := NO_ERROR

/-- A lock that is held (its flag is set, by an owner that took it at the level
`7`) and a processor at the task priority level `4`. -/
def held_lock_at_4 : TplState := { lock := { flag := true, owner_tpl := 7 }, tpl := 4 }

/-- A memory map of four entries: a usable region of 2 pages at `0x1000`, a
reserved region, a usable region of 16 pages at `0x100000` and a usable region
of 256 pages at `0x1000000`. -/
def sample_memmap : List stivale2_mmap_entry_t :=
  [⟨0x1000, 0x2000, 1⟩, ⟨0xA0000, 0x60000, 2⟩, ⟨0x100000, 0x10000, 1⟩,
   ⟨0x1000000, 0x100000, 1⟩]

/-- The state `empty_space` with the bit of page `0` set where `is_allocated`
reads it (bit `0` of the word `0` of the bitmap). -/
def page_zero_marked : VmmState :=
  { empty_space with bitmap := fun k => if k = 0 then 1 else 0 }

/-! ## Auxiliary definitions for the intermediate entries -/

/-- An entry that links a table: it is present and its frame address is not
zero, so that `get_page` returns a pointer for it that is not `NULL`. -/
def links_table (e : Nat) : Prop :=
  e &&& PAGING_PRESENT_BIT ≠ 0 ∧ e &&& PAGING_4KB_ADDR_MASK ≠ 0

/-- The entry `e'` has the frame address and the present bit of the entry `e`,
and has the WRITE bit and the USER bit when `e` has them. -/
def entry_grows (e e' : Nat) : Prop :=
  e' &&& PAGING_4KB_ADDR_MASK = e &&& PAGING_4KB_ADDR_MASK
    ∧ e' &&& PAGING_PRESENT_BIT = e &&& PAGING_PRESENT_BIT
    ∧ (e &&& PAGING_READ_WRITE_BIT ≠ 0 → e' &&& PAGING_READ_WRITE_BIT ≠ 0)
    ∧ (e &&& PAGING_USER_SUPREVISOR_BIT ≠ 0 → e' &&& PAGING_USER_SUPREVISOR_BIT ≠ 0)

/-- The word at `a` lies in a frame the physical memory manager may hand out:
a frame of its free list, or the frame `0` it returns when the list is empty
(the 4 KiB from the frame's address, or from its address masked as a page-table
entry masks it). -/
def in_free_frame (s : VmmState) (a : Nat) : Prop :=
  ∃ f ∈ 0 :: s.pmm_free_frames,
    (f ≤ a ∧ a < f + 4096)
      ∨ (f &&& PAGING_4KB_ADDR_MASK ≤ a ∧ a < (f &&& PAGING_4KB_ADDR_MASK) + 4096)

/-- A call of `vmm_map` (with `allocate` false) or of `vmm_allocate` (with
`allocate` true, `pa` unused). -/
structure map_call where
  allocate : Bool
  address_space : Nat
  va : Nat
  pa : Nat
  attrs : page_attributes_t
  deriving DecidableEq, Repr

/-- The state after one call. -/
def run_call (s : VmmState) (c : map_call) : VmmState :=
  if c.allocate = true then vmm_allocate s c.address_space c.va c.attrs
  else vmm_map s c.address_space c.va c.pa c.attrs

/-- The state after a sequence of calls, the first call of the list first. -/
def run_calls : List map_call → VmmState → VmmState
  | [], s => s
  | c :: rest, s => run_calls rest (run_call s c)

/-- The address of the leaf entry a call writes: the entry `PAGING_PTE_OFFSET(va)`
of the page table `get_or_create_page_table` returns to it. -/
def leaf_entry_written (s : VmmState) (c : map_call) : Nat :=
  (get_or_create_page_table s c.address_space (PAGING_PDE_OFFSET c.va) c.attrs).1
    + 8 * PAGING_PTE_OFFSET c.va

/-- Along a sequence of calls the word of memory at `a` is never the leaf entry
a call writes and never lies in a frame the physical memory manager may hand out
to that call.  (The entry that maps the scratch page is not a word of `mem`: the
state holds it in `free_page_pte`, and every walk rewrites it.) -/
def kept_aside : List map_call → VmmState → Nat → Prop
  | [], _, _ => True
  | c :: rest, s, a =>
    a ≠ leaf_entry_written s c ∧ ¬ in_free_frame s a ∧ kept_aside rest (run_call s c) a

/-- The attributes `{ .write = false, .user = false, .execute = false }`. -/
def attrs_none : page_attributes_t := ⟨false, false, false⟩

/-- An address space whose top-level table at `0x1000` is empty, with a physical
memory manager whose free list starts with the frame at `0`; the scratch page
maps frame `0x7000`. -/
def frame_zero_free : VmmState where
  mem := fun _ => 0
  free_page_pte := 0x8000000000007003
  bitmap := fun _ => 0
  pmm_free_frames := [0, 0x13000, 0x14000, 0x15000, 0x16000, 0x17000]
  current_address_space := 0x1000
  boot_address_space := 0x9000

/-- The state `frame_zero_free` after `vmm_map(0x1000, 0x3000, 0x5000, {write})`:
the table of the first entry of the top-level table is the frame at `0`. -/
def frame_zero_table_space : VmmState :=
  vmm_map frame_zero_free 0x1000 0x3000 0x5000 attrs_write_only

/-- The state `frame_zero_free` with a physical memory manager that has no frame
left. -/
def no_frame_left : VmmState := { frame_zero_free with pmm_free_frames := [] }

/-! ## Bit-level facts -/

theorem present_and_mask : PAGING_PRESENT_BIT &&& PAGING_4KB_ADDR_MASK = 0 := by decide

theorem read_write_and_mask : PAGING_READ_WRITE_BIT &&& PAGING_4KB_ADDR_MASK = 0 := by decide

theorem user_and_mask : PAGING_USER_SUPREVISOR_BIT &&& PAGING_4KB_ADDR_MASK = 0 := by decide

theorem no_execute_and_mask : PAGING_NO_EXECUTE_BIT &&& PAGING_4KB_ADDR_MASK = 0 := by decide

theorem clear_nx_and_mask :
    (2 ^ 64 - 1 - PAGING_NO_EXECUTE_BIT) &&& PAGING_4KB_ADDR_MASK = PAGING_4KB_ADDR_MASK := by
  decide

theorem read_write_and_present : PAGING_READ_WRITE_BIT &&& PAGING_PRESENT_BIT = 0 := by decide

theorem user_and_present : PAGING_USER_SUPREVISOR_BIT &&& PAGING_PRESENT_BIT = 0 := by decide

theorem clear_nx_and_present :
    (2 ^ 64 - 1 - PAGING_NO_EXECUTE_BIT) &&& PAGING_PRESENT_BIT = PAGING_PRESENT_BIT := by
  decide

theorem mask_and_no_execute : PAGING_4KB_ADDR_MASK &&& PAGING_NO_EXECUTE_BIT = 0 := by decide

theorem present_and_no_execute : PAGING_PRESENT_BIT &&& PAGING_NO_EXECUTE_BIT = 0 := by decide

theorem read_write_and_no_execute : PAGING_READ_WRITE_BIT &&& PAGING_NO_EXECUTE_BIT = 0 := by
  decide

theorem user_and_no_execute : PAGING_USER_SUPREVISOR_BIT &&& PAGING_NO_EXECUTE_BIT = 0 := by
  decide

theorem present_and_present : PAGING_PRESENT_BIT &&& PAGING_PRESENT_BIT = PAGING_PRESENT_BIT := by
  decide

theorem mask_and_present : PAGING_4KB_ADDR_MASK &&& PAGING_PRESENT_BIT = 0 := by decide

/-- Masking twice is masking once. -/
theorem mask_idem (x : Nat) :
    (x &&& PAGING_4KB_ADDR_MASK) &&& PAGING_4KB_ADDR_MASK = x &&& PAGING_4KB_ADDR_MASK := by
  rw [Nat.and_assoc, Nat.and_self]

/-- Setting a bit outside a field leaves the field as it was. -/
theorem or_and_of_disjoint (x b f : Nat) (h : b &&& f = 0) : (x ||| b) &&& f = x &&& f := by
  rw [Nat.and_distrib_right, h, Nat.or_zero]

/-- Clearing bits with a mask that covers a field leaves the field as it was. -/
theorem and_and_of_cover (x c f : Nat) (h : c &&& f = f) : (x &&& c) &&& f = x &&& f := by
  rw [Nat.and_assoc, h]

/-- The entry `map_to_free_page` writes maps the frame of the page given. -/
theorem map_to_free_page_frame (s : VmmState) (p : Nat) :
    (map_to_free_page s p).free_page_pte &&& PAGING_4KB_ADDR_MASK = p &&& PAGING_4KB_ADDR_MASK := by
  simp only [map_to_free_page]
  rw [or_and_of_disjoint _ _ _ no_execute_and_mask, or_and_of_disjoint _ _ _ read_write_and_mask,
    or_and_of_disjoint _ _ _ present_and_mask, mask_idem]

/-- A field of the entry that none of the three attribute bits touches is left
as it was by `set_attributes`. -/
theorem set_attributes_word_field (f : Nat) (hrw : PAGING_READ_WRITE_BIT &&& f = 0)
    (hus : PAGING_USER_SUPREVISOR_BIT &&& f = 0)
    (hnx : (2 ^ 64 - 1 - PAGING_NO_EXECUTE_BIT) &&& f = f)
    (e : Nat) (attrs : page_attributes_t) :
    set_attributes_word e attrs &&& f = e &&& f := by
  have step1 : ∀ (x : Nat) (c : Prop) [Decidable c],
      (if c then x ||| PAGING_READ_WRITE_BIT else x) &&& f = x &&& f := by
    intro x c _
    split_ifs
    · exact or_and_of_disjoint _ _ _ hrw
    · rfl
  have step2 : ∀ (x : Nat) (c : Prop) [Decidable c],
      (if c then x ||| PAGING_USER_SUPREVISOR_BIT else x) &&& f = x &&& f := by
    intro x c _
    split_ifs
    · exact or_and_of_disjoint _ _ _ hus
    · rfl
  have step3 : ∀ (x : Nat) (c : Prop) [Decidable c],
      (if c then x &&& (2 ^ 64 - 1 - PAGING_NO_EXECUTE_BIT) else x) &&& f = x &&& f := by
    intro x c _
    split_ifs
    · exact and_and_of_cover _ _ _ hnx
    · rfl
  unfold set_attributes_word
  dsimp only
  rw [step3, step2, step1]

theorem set_attributes_word_mask (e : Nat) (attrs : page_attributes_t) :
    set_attributes_word e attrs &&& PAGING_4KB_ADDR_MASK = e &&& PAGING_4KB_ADDR_MASK :=
  set_attributes_word_field _ read_write_and_mask user_and_mask clear_nx_and_mask e attrs

theorem set_attributes_word_present (e : Nat) (attrs : page_attributes_t) :
    set_attributes_word e attrs &&& PAGING_PRESENT_BIT = e &&& PAGING_PRESENT_BIT :=
  set_attributes_word_field _ read_write_and_present user_and_present clear_nx_and_present e attrs

/-- The function `set_attributes` never sets the no-execute bit. -/
theorem set_attributes_word_no_execute (e : Nat) (attrs : page_attributes_t)
    (h : e &&& PAGING_NO_EXECUTE_BIT = 0) :
    set_attributes_word e attrs &&& PAGING_NO_EXECUTE_BIT = 0 := by
  have step1 : ∀ (x : Nat) (c : Prop) [Decidable c], x &&& PAGING_NO_EXECUTE_BIT = 0 →
      (if c then x ||| PAGING_READ_WRITE_BIT else x) &&& PAGING_NO_EXECUTE_BIT = 0 := by
    intro x c _ hx
    split_ifs
    · rw [or_and_of_disjoint _ _ _ read_write_and_no_execute, hx]
    · exact hx
  have step2 : ∀ (x : Nat) (c : Prop) [Decidable c], x &&& PAGING_NO_EXECUTE_BIT = 0 →
      (if c then x ||| PAGING_USER_SUPREVISOR_BIT else x) &&& PAGING_NO_EXECUTE_BIT = 0 := by
    intro x c _ hx
    split_ifs
    · rw [or_and_of_disjoint _ _ _ user_and_no_execute, hx]
    · exact hx
  have step3 : ∀ (x : Nat) (c : Prop) [Decidable c], x &&& PAGING_NO_EXECUTE_BIT = 0 →
      (if c then x &&& (2 ^ 64 - 1 - PAGING_NO_EXECUTE_BIT) else x) &&& PAGING_NO_EXECUTE_BIT
        = 0 := by
    intro x c _ hx
    split_ifs
    · rw [Nat.and_assoc, Nat.and_comm (2 ^ 64 - 1 - PAGING_NO_EXECUTE_BIT), ← Nat.and_assoc, hx]
      simp
    · exact hx
  unfold set_attributes_word
  dsimp only
  exact step3 _ _ (step2 _ _ (step1 _ _ h))

/-- A fresh leaf word, the masked frame with the present bit, has the no-execute
bit clear. -/
theorem fresh_leaf_no_execute (pa : Nat) :
    ((pa &&& PAGING_4KB_ADDR_MASK) ||| PAGING_PRESENT_BIT) &&& PAGING_NO_EXECUTE_BIT = 0 := by
  rw [or_and_of_disjoint _ _ _ present_and_no_execute, Nat.and_assoc, mask_and_no_execute]
  simp

theorem fresh_leaf_mask (pa : Nat) :
    ((pa &&& PAGING_4KB_ADDR_MASK) ||| PAGING_PRESENT_BIT) &&& PAGING_4KB_ADDR_MASK
      = pa &&& PAGING_4KB_ADDR_MASK := by
  rw [or_and_of_disjoint _ _ _ present_and_mask, mask_idem]

theorem fresh_leaf_present (pa : Nat) :
    ((pa &&& PAGING_4KB_ADDR_MASK) ||| PAGING_PRESENT_BIT) &&& PAGING_PRESENT_BIT
      = PAGING_PRESENT_BIT := by
  rw [Nat.and_distrib_right, Nat.and_assoc, mask_and_present, present_and_present]
  simp

/-! ## Facts about the helper functions -/

@[simp] theorem map_to_free_page_mem (s : VmmState) (p : Nat) :
    (map_to_free_page s p).mem = s.mem := rfl

@[simp] theorem map_to_free_page_bitmap (s : VmmState) (p : Nat) :
    (map_to_free_page s p).bitmap = s.bitmap := rfl

@[simp] theorem map_to_free_page_pmm (s : VmmState) (p : Nat) :
    (map_to_free_page s p).pmm_free_frames = s.pmm_free_frames := rfl

theorem get_page_eq (s : VmmState) (t : TablePtr) (i : Nat) :
    get_page s t i = entry_target s.mem (t.resolve s) i := rfl

/-- Reading through the scratch page after `map_to_free_page(p)` reads the
table at the frame of `p`. -/
theorem get_page_free_page_map (s : VmmState) (p i : Nat) :
    get_page (map_to_free_page s p) .free_page i
      = entry_target s.mem (p &&& PAGING_4KB_ADDR_MASK) i := by
  rw [get_page_eq]
  show entry_target _ ((map_to_free_page s p).free_page_pte &&& PAGING_4KB_ADDR_MASK) i = _
  rw [map_to_free_page_frame]
  rfl

theorem entry_target_masked (mem : Nat → Nat) (base i : Nat) :
    entry_target mem base i &&& PAGING_4KB_ADDR_MASK = entry_target mem base i := by
  unfold entry_target
  split_ifs
  · exact mask_idem _
  · simp

theorem entry_target_ne_zero {mem : Nat → Nat} {base i : Nat} (h : entry_target mem base i ≠ 0) :
    mem (base + 8 * i) &&& PAGING_PRESENT_BIT ≠ 0
      ∧ entry_target mem base i = mem (base + 8 * i) &&& PAGING_4KB_ADDR_MASK := by
  unfold entry_target at h ⊢
  split_ifs at h ⊢ with hp
  · exact ⟨hp, rfl⟩
  · exact absurd rfl h

/-- The page table `get_page_table` returns is the one of the pure walk. -/
theorem get_page_table_fst (s : VmmState) (address_space va : Nat) :
    (get_page_table s address_space va).1
      = if address_space = 0 then 0 else walk_tables s.mem address_space va := by
  unfold get_page_table walk_tables
  simp only [get_page_free_page_map, map_to_free_page_mem, entry_target_masked]
  split_ifs <;> rfl

/-- The function `get_page_table` writes neither memory, nor the bitmap, nor
the free list. -/
theorem get_page_table_snd (s : VmmState) (address_space va : Nat) :
    (get_page_table s address_space va).2.mem = s.mem
      ∧ (get_page_table s address_space va).2.bitmap = s.bitmap
      ∧ (get_page_table s address_space va).2.pmm_free_frames = s.pmm_free_frames := by
  unfold get_page_table
  dsimp only
  split_ifs <;> exact ⟨rfl, rfl, rfl⟩

/-- When the pure walk finds a page table, the hardware walk ends in that
table, at the entry of `va`. -/
theorem walk_tables_leaf {mem : Nat → Nat} {address_space va : Nat}
    (h : walk_tables mem address_space va ≠ 0) :
    leaf_entry_addr mem address_space va
      = some (walk_tables mem address_space va + 8 * PAGING_PTE_OFFSET va) := by
  unfold walk_tables at h ⊢
  dsimp only at h ⊢
  split_ifs at h ⊢ with h4 h3
  · exact absurd rfl h
  · exact absurd rfl h
  · obtain ⟨p4, e4⟩ := entry_target_ne_zero h4
    obtain ⟨p3, e3⟩ := entry_target_ne_zero h3
    obtain ⟨p2, e2⟩ := entry_target_ne_zero h
    unfold leaf_entry_addr
    dsimp only
    rw [if_neg p4, ← e4, if_neg p3, ← e3, if_neg p2, ← e2]

/-! ## vmm_unmap -/

/-- Claim C5, against the claim as stated: `vmm_unmap` changes a page-table word
other than the leaf entry of `va`, namely the entry that maps the scratch page
`free_page`: on `mapped_space` it goes from frame `0x7000` to the page table
`0x12000` of `va = 0x3000`. -/
theorem vmm_unmap_rewrites_scratch_entry :
    mapped_space.free_page_pte = 0x8000000000007003
      ∧ (vmm_unmap mapped_space 0x1000 0x3000).free_page_pte = 0x8000000000012003 := by
  decide

/-- Claim C5, amended: `vmm_unmap` returns no frame to the physical memory
manager (its free list is unchanged), leaves the ownership bitmap unchanged, and
writes no word of memory except the leaf entry of `va`; the only other
page-table word it may change is the entry of the scratch page. -/
theorem vmm_unmap_frame_effect (s : VmmState) (address_space va : Nat) :
    (vmm_unmap s address_space va).pmm_free_frames = s.pmm_free_frames
      ∧ (vmm_unmap s address_space va).bitmap = s.bitmap
      ∧ (vmm_unmap s address_space va).current_address_space = s.current_address_space
      ∧ (vmm_unmap s address_space va).boot_address_space = s.boot_address_space
      ∧ ∀ a, leaf_entry_addr s.mem address_space va ≠ some a →
          (vmm_unmap s address_space va).mem a = s.mem a := by
  obtain ⟨hm, hb, hp⟩ := get_page_table_snd s address_space va
  have hfst := get_page_table_fst s address_space va
  have hc : (get_page_table s address_space va).2.current_address_space
      = s.current_address_space
      ∧ (get_page_table s address_space va).2.boot_address_space = s.boot_address_space := by
    unfold get_page_table
    dsimp only
    split_ifs <;> exact ⟨rfl, rfl⟩
  unfold vmm_unmap
  generalize get_page_table s address_space va = r at hm hb hp hfst hc
  obtain ⟨pt, s1⟩ := r
  dsimp only at hm hb hp hfst hc ⊢
  by_cases hpt : pt = 0
  · rw [if_pos hpt]
    exact ⟨hp, hb, hc.1, hc.2, fun a _ => by rw [hm]⟩
  · rw [if_neg hpt]
    split_ifs with hphys
    · refine ⟨hp, hb, hc.1, hc.2, fun a ha => ?_⟩
      have hw : pt = walk_tables s.mem address_space va := by
        by_cases h0 : address_space = 0
        · rw [if_pos h0] at hfst
          exact absurd hfst hpt
        · rw [if_neg h0] at hfst
          exact hfst
      have hleaf := walk_tables_leaf (hw ▸ hpt)
      rw [← hw] at hleaf
      have hne : a ≠ pt + 8 * PAGING_PTE_OFFSET va := by
        intro h
        exact ha (h ▸ hleaf)
      show (if a = pt + 8 * PAGING_PTE_OFFSET va then 0 else s1.mem a) = s.mem a
      rw [if_neg hne, hm]
    · exact ⟨hp, hb, hc.1, hc.2, fun a _ => by rw [← hm]; rfl⟩

/-- A witness for claim C5 as amended: `vmm_unmap` of the page at `0x3000` of
`mapped_space` leaves the free list and the entry `0x11000` of the page
directory as they were. -/
theorem vmm_unmap_frame_effect_witness :
    leaf_entry_addr mapped_space.mem 0x1000 0x3000 ≠ some 0x11000
      ∧ (vmm_unmap mapped_space 0x1000 0x3000).pmm_free_frames = [0x13000, 0x14000]
      ∧ (vmm_unmap mapped_space 0x1000 0x3000).mem 0x11000 = 0x12003 :=
  ⟨by decide, (vmm_unmap_frame_effect mapped_space 0x1000 0x3000).1,
    (vmm_unmap_frame_effect mapped_space 0x1000 0x3000).2.2.2.2 0x11000 (by decide)⟩

/-! ## set_attributes, as an update of one word -/

theorem resolve_store (s : VmmState) (t : TablePtr) (i v : Nat) (t' : TablePtr) :
    t'.resolve (store s t i v) = t'.resolve s := by
  cases t' <;> rfl

theorem set_attributes_steps (s : VmmState) (t : TablePtr) (i : Nat) (attrs : page_attributes_t) :
    set_attributes s t i attrs
      = attr_step (fun e => e &&& PAGING_NO_EXECUTE_BIT ≠ 0 ∧ attrs.execute = true)
          (fun e => e &&& (2 ^ 64 - 1 - PAGING_NO_EXECUTE_BIT))
          (attr_step (fun e => e &&& PAGING_USER_SUPREVISOR_BIT = 0 ∧ attrs.user = true)
            (fun e => e ||| PAGING_USER_SUPREVISOR_BIT)
            (attr_step (fun e => e &&& PAGING_READ_WRITE_BIT = 0 ∧ attrs.write = true)
              (fun e => e ||| PAGING_READ_WRITE_BIT) s t i) t i) t i := rfl

theorem set_attributes_word_steps (e : Nat) (attrs : page_attributes_t) :
    set_attributes_word e attrs
      = attr_word_step (fun e => e &&& PAGING_NO_EXECUTE_BIT ≠ 0 ∧ attrs.execute = true)
          (fun e => e &&& (2 ^ 64 - 1 - PAGING_NO_EXECUTE_BIT))
          (attr_word_step (fun e => e &&& PAGING_USER_SUPREVISOR_BIT = 0 ∧ attrs.user = true)
            (fun e => e ||| PAGING_USER_SUPREVISOR_BIT)
            (attr_word_step (fun e => e &&& PAGING_READ_WRITE_BIT = 0 ∧ attrs.write = true)
              (fun e => e ||| PAGING_READ_WRITE_BIT) e)) := rfl

/-- A guarded update changes the one word, by the word-level step, and nothing
else. -/
theorem attr_step_updates (c : Nat → Prop) [DecidablePred c] (g : Nat → Nat) (s : VmmState)
    (t : TablePtr) (i : Nat) :
    updates_word s (attr_step c g s t i) (t.resolve s + 8 * i) (attr_word_step c g) := by
  unfold updates_word attr_step attr_word_step load
  by_cases h : c (s.mem (t.resolve s + 8 * i))
  · rw [if_pos h, if_pos h]
    refine ⟨?_, fun a ha => ?_, rfl, rfl, rfl, rfl, rfl⟩
    · show (if _ = _ then _ else _) = _
      rw [if_pos rfl]
    · show (if _ = _ then _ else _) = _
      rw [if_neg ha]
  · rw [if_neg h, if_neg h]
    exact ⟨rfl, fun _ _ => rfl, rfl, rfl, rfl, rfl, rfl⟩

theorem updates_word_trans {s s1 s2 : VmmState} {A : Nat} {w1 w2 : Nat → Nat}
    (h1 : updates_word s s1 A w1) (h2 : updates_word s1 s2 A w2) :
    updates_word s s2 A (fun e => w2 (w1 e)) := by
  obtain ⟨a1, b1, c1, d1, e1, f1, g1⟩ := h1
  obtain ⟨a2, b2, c2, d2, e2, f2, g2⟩ := h2
  refine ⟨by rw [a2, a1], fun a ha => by rw [b2 a ha, b1 a ha], c2.trans c1, d2.trans d1,
    e2.trans e1, f2.trans f1, g2.trans g1⟩

theorem resolve_of_free_page_pte {s s' : VmmState} (h : s'.free_page_pte = s.free_page_pte)
    (t : TablePtr) : t.resolve s' = t.resolve s := by
  cases t
  · rfl
  · show s'.free_page_pte &&& _ = s.free_page_pte &&& _
    rw [h]

/-- The function `set_attributes` changes the one entry, to the value
`set_attributes_word` gives, and nothing else. -/
theorem set_attributes_updates (s : VmmState) (t : TablePtr) (i : Nat)
    (attrs : page_attributes_t) :
    updates_word s (set_attributes s t i attrs) (t.resolve s + 8 * i)
      (fun e => set_attributes_word e attrs) := by
  rw [set_attributes_steps]
  have h1 := attr_step_updates (fun e => e &&& PAGING_READ_WRITE_BIT = 0 ∧ attrs.write = true)
    (fun e => e ||| PAGING_READ_WRITE_BIT) s t i
  have h2 := attr_step_updates
    (fun e => e &&& PAGING_USER_SUPREVISOR_BIT = 0 ∧ attrs.user = true)
    (fun e => e ||| PAGING_USER_SUPREVISOR_BIT)
    (attr_step (fun e => e &&& PAGING_READ_WRITE_BIT = 0 ∧ attrs.write = true)
      (fun e => e ||| PAGING_READ_WRITE_BIT) s t i) t i
  rw [resolve_of_free_page_pte h1.2.2.1] at h2
  have h12 := updates_word_trans h1 h2
  have h3 := attr_step_updates
    (fun e => e &&& PAGING_NO_EXECUTE_BIT ≠ 0 ∧ attrs.execute = true)
    (fun e => e &&& (2 ^ 64 - 1 - PAGING_NO_EXECUTE_BIT))
    (attr_step (fun e => e &&& PAGING_USER_SUPREVISOR_BIT = 0 ∧ attrs.user = true)
      (fun e => e ||| PAGING_USER_SUPREVISOR_BIT)
      (attr_step (fun e => e &&& PAGING_READ_WRITE_BIT = 0 ∧ attrs.write = true)
        (fun e => e ||| PAGING_READ_WRITE_BIT) s t i) t i) t i
  rw [resolve_of_free_page_pte h12.2.2.1] at h3
  exact updates_word_trans h12 h3


/-! ## Walking tables that exist -/

theorem same_links_refl (m : Nat → Nat) : same_links m m := fun _ => ⟨rfl, rfl⟩

theorem same_links_trans {m1 m2 m3 : Nat → Nat} (h1 : same_links m1 m2) (h2 : same_links m2 m3) :
    same_links m1 m3 := fun a =>
  ⟨(h2 a).1.trans (h1 a).1, (h2 a).2.trans (h1 a).2⟩

theorem entry_target_same_links {m m' : Nat → Nat} (h : same_links m m') (base i : Nat) :
    entry_target m' base i = entry_target m base i := by
  unfold entry_target
  rw [(h _).1, (h _).2]

/-- An update of one word by `set_attributes` keeps the tree of tables. -/
theorem same_links_of_set_attributes (s : VmmState) (t : TablePtr) (i : Nat)
    (attrs : page_attributes_t) : same_links s.mem (set_attributes s t i attrs).mem := by
  obtain ⟨h1, h2, _⟩ := set_attributes_updates s t i attrs
  intro a
  by_cases ha : a = t.resolve s + 8 * i
  · subst ha
    rw [h1]
    exact ⟨set_attributes_word_mask _ _, set_attributes_word_present _ _⟩
  · rw [h2 a ha]
    exact ⟨rfl, rfl⟩

theorem get_or_create_page_present (s : VmmState) (t : TablePtr) (i : Nat)
    (attrs : page_attributes_t) (h : get_page s t i ≠ 0) :
    get_or_create_page s t i attrs = (get_page s t i, set_attributes s t i attrs) := by
  unfold get_or_create_page
  dsimp only
  rw [if_pos h]

/-- One level of `get_or_create_page_table` on an entry that is present: the
entry's table is returned, no frame is taken, and the tree of tables is kept. -/
theorem walk_step_present (s0 s : VmmState) (p i : Nat) (attrs : page_attributes_t)
    (hl : same_links s0.mem s.mem) (hb : s.bitmap = s0.bitmap)
    (hp : s.pmm_free_frames = s0.pmm_free_frames)
    (hne : entry_target s0.mem (p &&& PAGING_4KB_ADDR_MASK) i ≠ 0) :
    (get_or_create_page (map_to_free_page s p) .free_page i attrs).1
        = entry_target s0.mem (p &&& PAGING_4KB_ADDR_MASK) i
      ∧ same_links s0.mem (get_or_create_page (map_to_free_page s p) .free_page i attrs).2.mem
      ∧ (get_or_create_page (map_to_free_page s p) .free_page i attrs).2.bitmap = s0.bitmap
      ∧ (get_or_create_page (map_to_free_page s p) .free_page i attrs).2.pmm_free_frames
          = s0.pmm_free_frames := by
  have hg : get_page (map_to_free_page s p) .free_page i
      = entry_target s0.mem (p &&& PAGING_4KB_ADDR_MASK) i := by
    rw [get_page_free_page_map, entry_target_same_links hl]
  rw [get_or_create_page_present _ _ _ _ (hg ▸ hne)]
  obtain ⟨_, _, _, h4, h5, _, _⟩ := set_attributes_updates (map_to_free_page s p) .free_page i attrs
  refine ⟨hg, ?_, ?_, ?_⟩
  · exact same_links_trans hl (same_links_of_set_attributes (map_to_free_page s p) _ _ _)
  · rw [h4]
    exact hb
  · rw [h5]
    exact hp

/-- On tables that exist `get_or_create_page_table` returns the page table of
the pure walk, takes no frame, and keeps the tree of tables. -/
theorem get_or_create_page_table_present (s : VmmState) (address_space v : Nat)
    (attrs : page_attributes_t) (h : walk_tables s.mem address_space v ≠ 0) :
    (get_or_create_page_table s address_space v attrs).1 = walk_tables s.mem address_space v
      ∧ same_links s.mem (get_or_create_page_table s address_space v attrs).2.mem
      ∧ (get_or_create_page_table s address_space v attrs).2.bitmap = s.bitmap
      ∧ (get_or_create_page_table s address_space v attrs).2.pmm_free_frames
          = s.pmm_free_frames := by
  unfold walk_tables at h ⊢
  dsimp only at h ⊢
  split_ifs at h ⊢ with h4 h3
  · exact absurd rfl h
  · exact absurd rfl h
  · unfold get_or_create_page_table
    dsimp only
    obtain ⟨a1, b1, c1, d1⟩ := walk_step_present s s address_space (PAGING_PML4_OFFSET v) attrs
      (same_links_refl _) rfl rfl h4
    generalize get_or_create_page (map_to_free_page s address_space) .free_page
      (PAGING_PML4_OFFSET v) attrs = r1 at a1 b1 c1 d1
    obtain ⟨pdp, s1⟩ := r1
    dsimp only at a1 b1 c1 d1 ⊢
    subst a1
    have e1 := entry_target_masked s.mem (address_space &&& PAGING_4KB_ADDR_MASK)
      (PAGING_PML4_OFFSET v)
    obtain ⟨a2, b2, c2, d2⟩ := walk_step_present s s1 _ (PAGING_PDPE_OFFSET v) attrs b1 c1 d1
      (by rw [e1]; exact h3)
    rw [e1] at a2
    generalize get_or_create_page (map_to_free_page s1 _) .free_page
      (PAGING_PDPE_OFFSET v) attrs = r2 at a2 b2 c2 d2
    obtain ⟨pd, s2⟩ := r2
    dsimp only at a2 b2 c2 d2 ⊢
    subst a2
    have e2 := entry_target_masked s.mem
      (entry_target s.mem (address_space &&& PAGING_4KB_ADDR_MASK) (PAGING_PML4_OFFSET v))
      (PAGING_PDPE_OFFSET v)
    obtain ⟨a3, b3, c3, d3⟩ := walk_step_present s s2 _ (PAGING_PDE_OFFSET v) attrs b2 c2 d2
      (by rw [e2]; exact h)
    rw [e2] at a3
    exact ⟨a3, b3, c3, d3⟩


/-! ## vmm_map -/

/-- The three statements that set a leaf entry (the frame, the present bit,
`set_attributes`) replace that entry and touch nothing else. -/
theorem write_leaf_updates (s : VmmState) (pt idx v : Nat) (attrs : page_attributes_t) :
    updates_word s
      (set_attributes
        (store (store s (.direct pt) idx v) (.direct pt) idx
          (load (store s (.direct pt) idx v) (.direct pt) idx ||| PAGING_PRESENT_BIT))
        (.direct pt) idx attrs)
      (pt + 8 * idx) (fun _ => set_attributes_word (v ||| PAGING_PRESENT_BIT) attrs) := by
  obtain ⟨h1, h2, h3, h4, h5, h6, h7⟩ := set_attributes_updates
    (store (store s (.direct pt) idx v) (.direct pt) idx
      (load (store s (.direct pt) idx v) (.direct pt) idx ||| PAGING_PRESENT_BIT))
    (.direct pt) idx attrs
  have e5 : (store (store s (.direct pt) idx v) (.direct pt) idx
      (load (store s (.direct pt) idx v) (.direct pt) idx ||| PAGING_PRESENT_BIT)).mem
        (pt + 8 * idx) = v ||| PAGING_PRESENT_BIT := by
    simp only [store, load, TablePtr.resolve, if_true]
  have e6 : ∀ a, a ≠ pt + 8 * idx → (store (store s (.direct pt) idx v) (.direct pt) idx
      (load (store s (.direct pt) idx v) (.direct pt) idx ||| PAGING_PRESENT_BIT)).mem a
        = s.mem a := by
    intro a ha
    simp only [store, load, TablePtr.resolve, if_neg ha]
  refine ⟨?_, fun a ha => ?_, h3, h4, h5, h6, h7⟩
  · exact h1.trans (congrArg (fun e => set_attributes_word e attrs) e5)
  · exact (h2 a ha).trans (e6 a ha)

/-- What `vmm_map` does after `get_or_create_page_table` has returned the page
table: the leaf word it writes, the words it leaves alone, the free list and
the bitmap. -/
theorem vmm_map_effect (s : VmmState) (address_space va pa : Nat) (attrs : page_attributes_t) :
    (vmm_map s address_space va pa attrs).mem
        ((get_or_create_page_table s address_space (PAGING_PDE_OFFSET va) attrs).1
          + 8 * PAGING_PTE_OFFSET va)
        = set_attributes_word ((pa &&& PAGING_4KB_ADDR_MASK) ||| PAGING_PRESENT_BIT) attrs
      ∧ (∀ a, a ≠ (get_or_create_page_table s address_space (PAGING_PDE_OFFSET va) attrs).1
            + 8 * PAGING_PTE_OFFSET va →
          (vmm_map s address_space va pa attrs).mem a
            = (get_or_create_page_table s address_space (PAGING_PDE_OFFSET va) attrs).2.mem a)
      ∧ (vmm_map s address_space va pa attrs).pmm_free_frames
          = (if entry_target
                (get_or_create_page_table s address_space (PAGING_PDE_OFFSET va) attrs).2.mem
                ((get_or_create_page_table s address_space (PAGING_PDE_OFFSET va) attrs).1
                  &&& PAGING_4KB_ADDR_MASK) (PAGING_PTE_OFFSET va) ≠ 0
              ∧ is_allocated
                (get_or_create_page_table s address_space (PAGING_PDE_OFFSET va) attrs).2
                (entry_target
                  (get_or_create_page_table s address_space (PAGING_PDE_OFFSET va) attrs).2.mem
                  ((get_or_create_page_table s address_space (PAGING_PDE_OFFSET va) attrs).1
                    &&& PAGING_4KB_ADDR_MASK) (PAGING_PTE_OFFSET va)) = true
            then
              entry_target
                (get_or_create_page_table s address_space (PAGING_PDE_OFFSET va) attrs).2.mem
                ((get_or_create_page_table s address_space (PAGING_PDE_OFFSET va) attrs).1
                  &&& PAGING_4KB_ADDR_MASK) (PAGING_PTE_OFFSET va)
                :: (get_or_create_page_table s address_space
                      (PAGING_PDE_OFFSET va) attrs).2.pmm_free_frames
            else
              (get_or_create_page_table s address_space
                (PAGING_PDE_OFFSET va) attrs).2.pmm_free_frames)
      ∧ (vmm_map s address_space va pa attrs).bitmap
          = (if entry_target
                (get_or_create_page_table s address_space (PAGING_PDE_OFFSET va) attrs).2.mem
                ((get_or_create_page_table s address_space (PAGING_PDE_OFFSET va) attrs).1
                  &&& PAGING_4KB_ADDR_MASK) (PAGING_PTE_OFFSET va) ≠ 0
              ∧ is_allocated
                (get_or_create_page_table s address_space (PAGING_PDE_OFFSET va) attrs).2
                (entry_target
                  (get_or_create_page_table s address_space (PAGING_PDE_OFFSET va) attrs).2.mem
                  ((get_or_create_page_table s address_space (PAGING_PDE_OFFSET va) attrs).1
                    &&& PAGING_4KB_ADDR_MASK) (PAGING_PTE_OFFSET va)) = true
            then
              (set_free
                (get_or_create_page_table s address_space (PAGING_PDE_OFFSET va) attrs).2
                (entry_target
                  (get_or_create_page_table s address_space (PAGING_PDE_OFFSET va) attrs).2.mem
                  ((get_or_create_page_table s address_space (PAGING_PDE_OFFSET va) attrs).1
                    &&& PAGING_4KB_ADDR_MASK) (PAGING_PTE_OFFSET va))).bitmap
            else
              (get_or_create_page_table s address_space
                (PAGING_PDE_OFFSET va) attrs).2.bitmap) := by
  unfold vmm_map
  generalize get_or_create_page_table s address_space (PAGING_PDE_OFFSET va) attrs = r
  obtain ⟨pt, s1⟩ := r
  dsimp only
  rw [get_page_free_page_map]
  generalize entry_target s1.mem (pt &&& PAGING_4KB_ADDR_MASK) (PAGING_PTE_OFFSET va) = phys
  have hal : is_allocated (map_to_free_page s1 pt) phys = is_allocated s1 phys := rfl
  rw [hal]
  generalize hs3 : (if phys ≠ 0 ∧ is_allocated s1 phys = true then
      set_free (pmm_free (map_to_free_page s1 pt) phys) phys else map_to_free_page s1 pt) = s3
  have hmem3 : s3.mem = s1.mem := by
    rw [← hs3]
    split_ifs <;> rfl
  have hpmm3 : s3.pmm_free_frames = if phys ≠ 0 ∧ is_allocated s1 phys = true then
      phys :: s1.pmm_free_frames else s1.pmm_free_frames := by
    rw [← hs3]
    split_ifs <;> rfl
  have hbit3 : s3.bitmap = if phys ≠ 0 ∧ is_allocated s1 phys = true then
      (set_free s1 phys).bitmap else s1.bitmap := by
    rw [← hs3]
    split_ifs <;> rfl
  obtain ⟨h1, h2, _, h4, h5, _, _⟩ := write_leaf_updates s3 pt (PAGING_PTE_OFFSET va)
    (pa &&& PAGING_4KB_ADDR_MASK) attrs
  refine ⟨h1, fun a ha => ?_, ?_, ?_⟩
  · rw [h2 a ha, hmem3]
  · rw [h5, hpmm3]
  · rw [h4, hbit3]

/-- Below 2 MiB the three table indices of an address are zero. -/
theorem low_va_indices {va : Nat} (h : va < 2 ^ 21) :
    PAGING_PML4_OFFSET va = 0 ∧ PAGING_PDPE_OFFSET va = 0 ∧ PAGING_PDE_OFFSET va = 0 := by
  unfold PAGING_PML4_OFFSET PAGING_PDPE_OFFSET PAGING_PDE_OFFSET
  rw [Nat.shiftRight_eq_div_pow, Nat.shiftRight_eq_div_pow, Nat.shiftRight_eq_div_pow,
    Nat.div_eq_of_lt (by omega), Nat.div_eq_of_lt (by omega), Nat.div_eq_of_lt h]
  exact ⟨rfl, rfl, rfl⟩

/-- Below 2 MiB the walk by `PAGING_PDE_OFFSET(va)`, which `vmm_map` asks for, is
the walk by `va`. -/
theorem walk_tables_low_va (mem : Nat → Nat) (address_space : Nat) {va : Nat} (h : va < 2 ^ 21) :
    walk_tables mem address_space (PAGING_PDE_OFFSET va) = walk_tables mem address_space va := by
  obtain ⟨a, b, c⟩ := low_va_indices h
  have h0 : (0 : Nat) < 2 ^ 21 := by omega
  obtain ⟨a0, b0, c0⟩ := low_va_indices h0
  unfold walk_tables
  rw [c, a0, b0, c0, a, b]

theorem walk_tables_masked (mem : Nat → Nat) (address_space va : Nat) :
    walk_tables mem address_space va &&& PAGING_4KB_ADDR_MASK = walk_tables mem address_space va := by
  unfold walk_tables
  dsimp only
  split_ifs
  · simp
  · simp
  · exact entry_target_masked _ _ _

/-- Claim C4, against the claim as stated: a second `vmm_map` at the mapped page
`0x3000` replaces the leaf entry (frame `0x5000` becomes frame `0x6000`); the
function returns nothing, so no `ALREADY_MAPPED` is reported. -/
theorem vmm_map_twice_overwrites :
    translate mapped_space.mem 0x1000 0x3000 = some 0x5000
      ∧ mapped_space.mem 0x12018 = 0x5003
      ∧ (vmm_map mapped_space 0x1000 0x3000 0x6000 attrs_write_only).mem 0x12018 = 0x6003
      ∧ translate (vmm_map mapped_space 0x1000 0x3000 0x6000 attrs_write_only).mem 0x1000 0x3000
          = some 0x6000 := by
  decide

/-- Claim C4, amended: `vmm_map` has no error result.  Called at a `va` below
2 MiB whose tables exist and whose leaf entry is present, it overwrites the leaf
entry: afterwards the entry is present and holds the frame of `pa` with the
attributes applied.  It takes no frame; the frame the entry held before is
returned to the free list, and its bitmap bit cleared, exactly when that frame
is not zero and `is_allocated` holds for it. -/
theorem vmm_map_present_leaf_overwritten (s : VmmState) (address_space va pa : Nat)
    (attrs : page_attributes_t) (hva : va < 2 ^ 21)
    (hpt : walk_tables s.mem address_space va ≠ 0)
    (hleaf : s.mem (walk_tables s.mem address_space va + 8 * PAGING_PTE_OFFSET va)
      &&& PAGING_PRESENT_BIT ≠ 0) :
    leaf_entry_addr s.mem address_space va
        = some (walk_tables s.mem address_space va + 8 * PAGING_PTE_OFFSET va)
      ∧ (vmm_map s address_space va pa attrs).mem
          (walk_tables s.mem address_space va + 8 * PAGING_PTE_OFFSET va)
          = set_attributes_word ((pa &&& PAGING_4KB_ADDR_MASK) ||| PAGING_PRESENT_BIT) attrs
      ∧ (vmm_map s address_space va pa attrs).mem
          (walk_tables s.mem address_space va + 8 * PAGING_PTE_OFFSET va)
          &&& PAGING_PRESENT_BIT ≠ 0
      ∧ (vmm_map s address_space va pa attrs).mem
          (walk_tables s.mem address_space va + 8 * PAGING_PTE_OFFSET va)
          &&& PAGING_4KB_ADDR_MASK = pa &&& PAGING_4KB_ADDR_MASK
      ∧ (vmm_map s address_space va pa attrs).pmm_free_frames
          = (if s.mem (walk_tables s.mem address_space va + 8 * PAGING_PTE_OFFSET va)
                  &&& PAGING_4KB_ADDR_MASK ≠ 0
                ∧ is_allocated s
                  (s.mem (walk_tables s.mem address_space va + 8 * PAGING_PTE_OFFSET va)
                    &&& PAGING_4KB_ADDR_MASK) = true
            then
              (s.mem (walk_tables s.mem address_space va + 8 * PAGING_PTE_OFFSET va)
                &&& PAGING_4KB_ADDR_MASK) :: s.pmm_free_frames
            else s.pmm_free_frames)
      ∧ (vmm_map s address_space va pa attrs).bitmap
          = (if s.mem (walk_tables s.mem address_space va + 8 * PAGING_PTE_OFFSET va)
                  &&& PAGING_4KB_ADDR_MASK ≠ 0
                ∧ is_allocated s
                  (s.mem (walk_tables s.mem address_space va + 8 * PAGING_PTE_OFFSET va)
                    &&& PAGING_4KB_ADDR_MASK) = true
            then
              (set_free s
                (s.mem (walk_tables s.mem address_space va + 8 * PAGING_PTE_OFFSET va)
                  &&& PAGING_4KB_ADDR_MASK)).bitmap
            else s.bitmap) := by
  have hidx := walk_tables_low_va s.mem address_space hva
  obtain ⟨g1, g2, g3, g4⟩ := get_or_create_page_table_present s address_space
    (PAGING_PDE_OFFSET va) attrs (hidx ▸ hpt)
  obtain ⟨e1, _, e3, e4⟩ := vmm_map_effect s address_space va pa attrs
  rw [hidx] at g1
  have hphys : entry_target
      (get_or_create_page_table s address_space (PAGING_PDE_OFFSET va) attrs).2.mem
      ((get_or_create_page_table s address_space (PAGING_PDE_OFFSET va) attrs).1
        &&& PAGING_4KB_ADDR_MASK) (PAGING_PTE_OFFSET va)
      = s.mem (walk_tables s.mem address_space va + 8 * PAGING_PTE_OFFSET va)
          &&& PAGING_4KB_ADDR_MASK := by
    rw [entry_target_same_links g2, g1, walk_tables_masked]
    unfold entry_target
    rw [if_pos hleaf]
  have hal : ∀ x, is_allocated
      (get_or_create_page_table s address_space (PAGING_PDE_OFFSET va) attrs).2 x
      = is_allocated s x := by
    intro x
    unfold is_allocated
    rw [g3]
  have hsf : ∀ x, (set_free
      (get_or_create_page_table s address_space (PAGING_PDE_OFFSET va) attrs).2 x).bitmap
      = (set_free s x).bitmap := by
    intro x
    unfold set_free
    dsimp only
    rw [g3]
  rw [g1] at e1
  rw [hphys, hal, g4] at e3
  rw [hphys, hal, hsf, g3] at e4
  refine ⟨walk_tables_leaf hpt, e1, ?_, ?_, e3, e4⟩
  · rw [e1, set_attributes_word_present, fresh_leaf_present]
    decide
  · rw [e1, set_attributes_word_mask, fresh_leaf_mask]

/-- A witness for claim C4 as amended: the second `vmm_map` on `mapped_space`. -/
theorem vmm_map_present_leaf_overwritten_witness :
    (0x3000 < 2 ^ 21
      ∧ walk_tables mapped_space.mem 0x1000 0x3000 ≠ 0
      ∧ mapped_space.mem (walk_tables mapped_space.mem 0x1000 0x3000 + 8 * PAGING_PTE_OFFSET 0x3000)
          &&& PAGING_PRESENT_BIT ≠ 0)
      ∧ (vmm_map mapped_space 0x1000 0x3000 0x6000 attrs_write_only).mem
          (walk_tables mapped_space.mem 0x1000 0x3000 + 8 * PAGING_PTE_OFFSET 0x3000)
          &&& PAGING_4KB_ADDR_MASK = 0x6000 &&& PAGING_4KB_ADDR_MASK :=
  ⟨⟨by decide, by decide, by decide⟩,
    (vmm_map_present_leaf_overwritten mapped_space 0x1000 0x3000 0x6000 attrs_write_only
      (by decide) (by decide) (by decide)).2.2.2.1⟩

/-- The slip behind claim C1, for every input: the page table `vmm_map` asks
for does not depend on `va`; it is the one of the first 2 MiB, because the
"address" handed to `get_or_create_page_table` is the index
`PAGING_PDE_OFFSET(va)`, a number below 512. -/
theorem vmm_map_table_independent_of_va (s : VmmState) (address_space va : Nat)
    (attrs : page_attributes_t) :
    get_or_create_page_table s address_space (PAGING_PDE_OFFSET va) attrs
      = get_or_create_page_table s address_space 0 attrs := by
  have hlt : PAGING_PDE_OFFSET va < 2 ^ 21 := by
    have h := @Nat.and_le_right (va >>> 21) 0x1FF
    unfold PAGING_PDE_OFFSET
    omega
  obtain ⟨a, b, c⟩ := low_va_indices hlt
  have h0 : (0 : Nat) < 2 ^ 21 := by omega
  obtain ⟨a0, b0, c0⟩ := low_va_indices h0
  unfold get_or_create_page_table
  rw [a, b, c, a0, b0, c0]

/-- Claim C1, the code at the failing input: `vmm_map` of `va = 0x200000` (the
second 2 MiB region) to `pa = 0x5000` in an empty address space.  The walk by the
indices of `va` finds no mapping afterwards; the leaf was written into the page
table of the first 2 MiB, where `va = 0` now translates to `0x5000`. -/
theorem vmm_map_leaf_in_wrong_table :
    translate (vmm_map empty_space 0x1000 0x200000 0x5000 attrs_write_only).mem 0x1000 0x200000
        = none
      ∧ translate (vmm_map empty_space 0x1000 0x200000 0x5000 attrs_write_only).mem 0x1000 0
        = some 0x5000
      ∧ translate empty_space.mem 0x1000 0 = none := by
  decide

/-- Clearing the leaf entry the walk ends at leaves the address not mapped,
even when the entry written is also one of the entries the walk goes through. -/
theorem translate_after_clear {mem : Nat → Nat} {address_space va L : Nat}
    (h : leaf_entry_addr mem address_space va = some L) :
    translate (fun a => if a = L then 0 else mem a) address_space va = none := by
  have hz : (0 : Nat) &&& PAGING_PRESENT_BIT = 0 := by simp
  unfold leaf_entry_addr at h
  dsimp only at h
  split_ifs at h with h4 h3 h2
  simp only [Option.some.injEq] at h
  unfold translate leaf_entry_addr
  dsimp only
  by_cases c4 : (address_space &&& PAGING_4KB_ADDR_MASK) + 8 * PAGING_PML4_OFFSET va = L
  · rw [if_pos c4, if_pos hz]
  · rw [if_neg c4, if_neg h4]
    by_cases c3 : (mem ((address_space &&& PAGING_4KB_ADDR_MASK) + 8 * PAGING_PML4_OFFSET va)
        &&& PAGING_4KB_ADDR_MASK) + 8 * PAGING_PDPE_OFFSET va = L
    · rw [if_pos c3, if_pos hz]
    · rw [if_neg c3, if_neg h3]
      by_cases c2 : (mem ((mem ((address_space &&& PAGING_4KB_ADDR_MASK)
          + 8 * PAGING_PML4_OFFSET va) &&& PAGING_4KB_ADDR_MASK) + 8 * PAGING_PDPE_OFFSET va)
          &&& PAGING_4KB_ADDR_MASK) + 8 * PAGING_PDE_OFFSET va = L
      · rw [if_pos c2, if_pos hz]
      · rw [if_neg c2, if_neg h2]
        dsimp only
        rw [if_pos h, if_pos hz]

/-- Where the defect of claim C2 does not reach: when the tables of `va` and the
frame of its leaf entry are not at address zero, `vmm_unmap` leaves `va` not
mapped. -/
theorem vmm_unmap_clears_nonzero_leaf (s : VmmState) (address_space va : Nat)
    (h0 : address_space ≠ 0) (hpt : walk_tables s.mem address_space va ≠ 0)
    (hphys : entry_target s.mem (walk_tables s.mem address_space va) (PAGING_PTE_OFFSET va) ≠ 0) :
    translate (vmm_unmap s address_space va).mem address_space va = none := by
  have hfst := get_page_table_fst s address_space va
  obtain ⟨hm, _, _⟩ := get_page_table_snd s address_space va
  have hmem : (vmm_unmap s address_space va).mem = fun a =>
      if a = walk_tables s.mem address_space va + 8 * PAGING_PTE_OFFSET va then 0
      else s.mem a := by
    unfold vmm_unmap
    generalize get_page_table s address_space va = r at hfst hm
    obtain ⟨pt, s1⟩ := r
    dsimp only at hfst hm ⊢
    rw [if_neg h0] at hfst
    subst hfst
    rw [if_neg hpt, get_page_free_page_map, hm, walk_tables_masked, if_pos hphys, ← hm]
    rfl
  rw [hmem]
  exact translate_after_clear (walk_tables_leaf hpt)

/-- Claim C2, the code at the failing input: the page at `0` is mapped to frame
`0` (the state `vmm_map(as, 0, 0, ...)` produces); after `vmm_unmap` the leaf
entry is still present. -/
theorem vmm_unmap_keeps_frame_zero_leaf :
    (vmm_map prepared_space 0x1000 0 0 attrs_write_only).mem 0x12000 = zero_frame_space.mem 0x12000
      ∧ leaf_entry_addr zero_frame_space.mem 0x1000 0 = some 0x12000
      ∧ zero_frame_space.mem 0x12000 &&& PAGING_PRESENT_BIT ≠ 0
      ∧ (vmm_unmap zero_frame_space 0x1000 0).mem 0x12000 &&& PAGING_PRESENT_BIT ≠ 0
      ∧ translate (vmm_unmap zero_frame_space 0x1000 0).mem 0x1000 0 = some 0 := by
  decide

/-- The leaf entry `vmm_map` writes never has the no-execute bit set, whatever
the attributes. -/
theorem vmm_map_leaf_never_no_execute (s : VmmState) (address_space va pa : Nat)
    (attrs : page_attributes_t) :
    (vmm_map s address_space va pa attrs).mem
        ((get_or_create_page_table s address_space (PAGING_PDE_OFFSET va) attrs).1
          + 8 * PAGING_PTE_OFFSET va) &&& PAGING_NO_EXECUTE_BIT = 0 := by
  rw [(vmm_map_effect s address_space va pa attrs).1]
  exact set_attributes_word_no_execute _ _ (fresh_leaf_no_execute pa)

/-- Claim C3, the code at the failing input: `vmm_map` without the execute
attribute writes the leaf entry `0x5003`, whose no-execute bit is clear. -/
theorem vmm_map_no_execute_not_set :
    attrs_write_only.execute = false
      ∧ leaf_entry_addr (vmm_map prepared_space 0x1000 0x3000 0x5000 attrs_write_only).mem
          0x1000 0x3000 = some 0x12018
      ∧ (vmm_map prepared_space 0x1000 0x3000 0x5000 attrs_write_only).mem 0x12018 = 0x5003
      ∧ (vmm_map prepared_space 0x1000 0x3000 0x5000 attrs_write_only).mem 0x12018
          &&& PAGING_NO_EXECUTE_BIT = 0 := by
  decide

/-! ## vmm_allocate and vmm_free -/

/-- What `get_page_table` returns and leaves behind, in one statement. -/
theorem get_page_table_spec (s : VmmState) (address_space va : Nat) :
    (get_page_table s address_space va).1
        = (if address_space = 0 then 0 else walk_tables s.mem address_space va)
      ∧ (get_page_table s address_space va).2.mem = s.mem
      ∧ (get_page_table s address_space va).2.bitmap = s.bitmap
      ∧ (get_page_table s address_space va).2.pmm_free_frames = s.pmm_free_frames
      ∧ (get_page_table s address_space va).2.current_address_space = s.current_address_space
      ∧ (get_page_table s address_space va).2.boot_address_space = s.boot_address_space := by
  obtain ⟨hm, hb, hp⟩ := get_page_table_snd s address_space va
  refine ⟨get_page_table_fst s address_space va, hm, hb, hp, ?_⟩
  unfold get_page_table
  dsimp only
  split_ifs <;> exact ⟨rfl, rfl⟩

/-- The ownership test and `set_free` read the bitmap only. -/
theorem is_allocated_of_bitmap (s s' : VmmState) (h : s'.bitmap = s.bitmap) (x : Nat) :
    is_allocated s' x = is_allocated s x := by
  unfold is_allocated
  rw [h]

theorem set_free_bitmap_of_bitmap (s s' : VmmState) (h : s'.bitmap = s.bitmap) (x : Nat) :
    (set_free s' x).bitmap = (set_free s x).bitmap := by
  unfold set_free
  dsimp only
  rw [h]

/-- Claim C6, against the claim as stated: `vmm_free` at a page that is not
mapped (`0x3000` in `prepared_space`) does change something, the page-table
entry of the scratch page, which goes from frame `0x7000` to the page table
`0x12000`. -/
theorem vmm_free_absent_rewrites_scratch_entry :
    translate prepared_space.mem 0x1000 0x3000 = none
      ∧ prepared_space.free_page_pte = 0x8000000000007003
      ∧ (vmm_free prepared_space 0x1000 0x3000).free_page_pte = 0x8000000000012003 := by
  decide

/-- Claim C6, amended.  When the leaf entry of `va` or one of its tables is
absent, `vmm_free` changes neither memory, nor the free list, nor the bitmap
(the entry of the scratch page is all it may rewrite).  When the tables of `va`
exist and its leaf entry is present with a frame `f` other than zero, `vmm_free`
clears the leaf entry and writes no other word of memory, and it returns `f` to
the free list and calls `set_free` on it if and only if `is_allocated(f)`
holds. -/
theorem vmm_free_effect (s : VmmState) (address_space va : Nat) :
    (translate s.mem address_space va = none →
        (vmm_free s address_space va).mem = s.mem
          ∧ (vmm_free s address_space va).pmm_free_frames = s.pmm_free_frames
          ∧ (vmm_free s address_space va).bitmap = s.bitmap)
      ∧ (address_space ≠ 0 → walk_tables s.mem address_space va ≠ 0 →
          entry_target s.mem (walk_tables s.mem address_space va) (PAGING_PTE_OFFSET va) ≠ 0 →
          leaf_entry_addr s.mem address_space va
              = some (walk_tables s.mem address_space va + 8 * PAGING_PTE_OFFSET va)
            ∧ (vmm_free s address_space va).mem
                (walk_tables s.mem address_space va + 8 * PAGING_PTE_OFFSET va) = 0
            ∧ (∀ a, a ≠ walk_tables s.mem address_space va + 8 * PAGING_PTE_OFFSET va →
                (vmm_free s address_space va).mem a = s.mem a)
            ∧ (vmm_free s address_space va).pmm_free_frames
                = (if is_allocated s (entry_target s.mem (walk_tables s.mem address_space va)
                      (PAGING_PTE_OFFSET va)) = true
                  then entry_target s.mem (walk_tables s.mem address_space va)
                      (PAGING_PTE_OFFSET va) :: s.pmm_free_frames
                  else s.pmm_free_frames)
            ∧ (vmm_free s address_space va).bitmap
                = (if is_allocated s (entry_target s.mem (walk_tables s.mem address_space va)
                      (PAGING_PTE_OFFSET va)) = true
                  then (set_free s (entry_target s.mem (walk_tables s.mem address_space va)
                      (PAGING_PTE_OFFSET va))).bitmap
                  else s.bitmap)) := by
  obtain ⟨hfst, hm, hb, hp, _, _⟩ := get_page_table_spec s address_space va
  unfold vmm_free
  generalize get_page_table s address_space va = r at hfst hm hb hp
  obtain ⟨pt, s1⟩ := r
  dsimp only at hfst hm hb hp ⊢
  rw [get_page_free_page_map, hm]
  have hal := is_allocated_of_bitmap s (map_to_free_page s1 pt) hb
  have hsf := set_free_bitmap_of_bitmap s (map_to_free_page s1 pt) hb
  constructor
  · intro htr
    by_cases hpt : pt = 0
    · rw [if_pos hpt]
      exact ⟨hm, hp, hb⟩
    · rw [if_neg hpt]
      have hw : pt = walk_tables s.mem address_space va := by
        by_cases h0 : address_space = 0
        · rw [if_pos h0] at hfst
          exact absurd hfst hpt
        · rw [if_neg h0] at hfst
          exact hfst
      have hleaf := walk_tables_leaf (hw ▸ hpt)
      have hmask : pt &&& PAGING_4KB_ADDR_MASK = pt := hw ▸ walk_tables_masked _ _ _
      rw [hmask]
      by_cases hphys : entry_target s.mem pt (PAGING_PTE_OFFSET va) = 0
      · rw [if_neg (not_not.mpr hphys)]
        exact ⟨hm, hp, hb⟩
      · exfalso
        obtain ⟨hpres, _⟩ := entry_target_ne_zero hphys
        unfold translate at htr
        rw [hleaf, ← hw] at htr
        dsimp only at htr
        rw [if_neg hpres] at htr
        cases htr
  · intro h0 hpt hphys
    rw [if_neg h0] at hfst
    subst hfst
    rw [if_neg hpt, walk_tables_masked, if_pos hphys, hal]
    generalize hs3 : (if is_allocated s (entry_target s.mem (walk_tables s.mem address_space va)
        (PAGING_PTE_OFFSET va)) = true then
      set_free (pmm_free (map_to_free_page s1 (walk_tables s.mem address_space va))
        (entry_target s.mem (walk_tables s.mem address_space va) (PAGING_PTE_OFFSET va)))
        (entry_target s.mem (walk_tables s.mem address_space va) (PAGING_PTE_OFFSET va))
      else map_to_free_page s1 (walk_tables s.mem address_space va)) = s3
    have hmem3 : s3.mem = s.mem := by
      rw [← hs3, ← hm]
      split_ifs <;> rfl
    have hpmm3 : s3.pmm_free_frames
        = (if is_allocated s (entry_target s.mem (walk_tables s.mem address_space va)
              (PAGING_PTE_OFFSET va)) = true
          then entry_target s.mem (walk_tables s.mem address_space va)
              (PAGING_PTE_OFFSET va) :: s.pmm_free_frames
          else s.pmm_free_frames) := by
      rw [← hs3, ← hp]
      split_ifs <;> rfl
    have hbit3 : s3.bitmap
        = (if is_allocated s (entry_target s.mem (walk_tables s.mem address_space va)
              (PAGING_PTE_OFFSET va)) = true
          then (set_free s (entry_target s.mem (walk_tables s.mem address_space va)
              (PAGING_PTE_OFFSET va))).bitmap
          else s.bitmap) := by
      rw [← hs3]
      split_ifs
      · exact hsf _
      · exact hb
    refine ⟨walk_tables_leaf hpt, ?_, fun a ha => ?_, hpmm3, hbit3⟩
    · show (if _ = walk_tables s.mem address_space va + 8 * PAGING_PTE_OFFSET va then 0
        else _) = 0
      rw [if_pos rfl]
    · show (if a = walk_tables s.mem address_space va + 8 * PAGING_PTE_OFFSET va then 0
        else s3.mem a) = _
      rw [if_neg ha, hmem3]

/-- A witness for claim C6 as amended: `vmm_free` at the mapped page of
`mapped_space` clears the leaf entry `0x12018`, and at the absent page of
`prepared_space` leaves memory alone. -/
theorem vmm_free_effect_witness :
    (translate prepared_space.mem 0x1000 0x3000 = none
      ∧ (0x1000 ≠ 0 ∧ walk_tables mapped_space.mem 0x1000 0x3000 ≠ 0
        ∧ entry_target mapped_space.mem (walk_tables mapped_space.mem 0x1000 0x3000)
            (PAGING_PTE_OFFSET 0x3000) ≠ 0))
      ∧ (vmm_free prepared_space 0x1000 0x3000).mem = prepared_space.mem
      ∧ (vmm_free mapped_space 0x1000 0x3000).mem
          (walk_tables mapped_space.mem 0x1000 0x3000 + 8 * PAGING_PTE_OFFSET 0x3000) = 0 :=
  ⟨⟨by decide, by decide, by decide, by decide⟩,
    ((vmm_free_effect prepared_space 0x1000 0x3000).1 (by decide)).1,
    ((vmm_free_effect mapped_space 0x1000 0x3000).2 (by decide) (by decide) (by decide)).2.1⟩

/-- The ownership slip behind claims C6 and C7, on the code: `vmm_allocate`
takes frame `0x13000` for the page at `0x3000` and does not mark it in the
bitmap; `vmm_free` then clears the leaf entry and returns nothing to the free
list. -/
theorem vmm_free_keeps_allocated_frame :
    translate (vmm_allocate prepared_space 0x1000 0x3000 attrs_write_only).mem 0x1000 0x3000
        = some 0x13000
      ∧ (vmm_allocate prepared_space 0x1000 0x3000 attrs_write_only).pmm_free_frames = [0x14000]
      ∧ is_allocated (vmm_allocate prepared_space 0x1000 0x3000 attrs_write_only) 0x13000 = false
      ∧ translate (vmm_free (vmm_allocate prepared_space 0x1000 0x3000 attrs_write_only)
          0x1000 0x3000).mem 0x1000 0x3000 = none
      ∧ (vmm_free (vmm_allocate prepared_space 0x1000 0x3000 attrs_write_only)
          0x1000 0x3000).pmm_free_frames = [0x14000] := by
  decide

/-- Claim C7, the code at the failing input: with the tables of the page at
`0x3000` in place, `vmm_allocate` followed by `vmm_free` leaves one free frame
where there were two. -/
theorem vmm_allocate_free_loses_frame :
    translate prepared_space.mem 0x1000 0x3000 = none
      ∧ walk_tables prepared_space.mem 0x1000 0x3000 = 0x12000
      ∧ pmm_free_count prepared_space = 2
      ∧ pmm_free_count (vmm_free (vmm_allocate prepared_space 0x1000 0x3000 attrs_write_only)
          0x1000 0x3000) = 1 := by
  decide

/-! ## do_context_switch -/

/-- What a successful `do_context_switch` to a thread other than the running one
does. -/
theorem do_context_switch_ok {s s' : SchedState} {new : Nat} (hne : s.running_thread ≠ new)
    (h : do_context_switch s new = some (NO_ERROR, s')) :
    new ≠ 0
      ∧ s'.regs = (s.thread new).state.cpu
      ∧ s'.running_thread = new
      ∧ (s'.thread new).status = THREAD_STATUS_RUNNING
      ∧ (s.running_thread ≠ 0 →
          (s'.thread s.running_thread).state.cpu = s.regs
            ∧ (s'.thread s.running_thread).status = THREAD_STATUS_READY)
      ∧ (s.running_thread = 0 → ∀ t, (s'.thread t).state = (s.thread t).state)
      ∧ (∀ t, t ≠ new → t ≠ s.running_thread → s'.thread t = s.thread t)
      ∧ s'.threads = s.threads := by
  by_cases hn : new = 0
  · subst hn
    by_cases hs : s.fxsave_result = NO_ERROR <;>
      simp [do_context_switch, _fxsave, set_cpu, set_status, hne, hs] at h
  by_cases hx : s.fxrstor_result = NO_ERROR
  · by_cases hr : s.running_thread = 0
    · have h0 : ¬ (0 = new) := fun e => hn e.symm
      simp [do_context_switch, _fxsave, _fxrstor, set_cpu, set_status, hr, hx, hn, h0] at h
      subst h
      refine ⟨hn, rfl, rfl, ?_, ?_, ?_, ?_, rfl⟩
      · simp
      · intro hc
        exact absurd hr hc
      · intro _ t
        dsimp only
        split_ifs <;> simp_all
      · intro t ht _
        simp [ht]
    · by_cases hs : s.fxsave_result = NO_ERROR
      · simp [do_context_switch, _fxsave, _fxrstor, set_cpu, set_status, hne, hr, hx, hn, hs] at h
        subst h
        refine ⟨hn, ?_, rfl, ?_, ?_, ?_, ?_, rfl⟩
        · simp [Ne.symm hne]
        · simp
        · intro _
          simp [hne]
        · intro hc
          exact absurd hc hr
        · intro t ht hr
          simp [ht, hr]
      · simp [do_context_switch, _fxsave, _fxrstor, set_cpu, set_status, hne, hr, hx, hn, hs] at h
  · by_cases hr : s.running_thread = 0
    · have h0 : ¬ (0 = new) := fun e => hn e.symm
      simp [do_context_switch, _fxsave, _fxrstor, set_cpu, set_status, hr, hx, hn, h0] at h
    · by_cases hs : s.fxsave_result = NO_ERROR
      · simp [do_context_switch, _fxsave, _fxrstor, set_cpu, set_status, hne, hr, hx, hn, hs] at h
      · simp [do_context_switch, _fxsave, _fxrstor, set_cpu, set_status, hne, hr, hx, hn, hs] at h

/-- Claim C8: a successful `do_context_switch(regs, new)` with `new` other than
the running thread leaves, when there was a running thread `cur`, `cur.state.cpu`
equal to the register frame on entry and `cur.status = READY`; in every case the
register frame equals `new.state.cpu` as it was on entry, `new.status = RUNNING`
and `running_thread = new`; when `running_thread` was `NULL` no thread's saved
state is written. -/
theorem do_context_switch_effect (s s' : SchedState) (new : Nat)
    (hne : new ≠ s.running_thread)
    (h : do_context_switch s new = some (NO_ERROR, s')) :
    (s.running_thread ≠ 0 →
        (s'.thread s.running_thread).state.cpu = s.regs
          ∧ (s'.thread s.running_thread).status = THREAD_STATUS_READY)
      ∧ s'.regs = (s.thread new).state.cpu
      ∧ (s'.thread new).status = THREAD_STATUS_RUNNING
      ∧ s'.running_thread = new
      ∧ (s.running_thread = 0 → ∀ t, (s'.thread t).state = (s.thread t).state) := by
  obtain ⟨_, h2, h3, h4, h5, h6, _, _⟩ := do_context_switch_ok (Ne.symm hne) h
  exact ⟨h5, h2, h4, h3, h6⟩

/-- A witness for claim C8: the switch from the thread at `0x100` to the thread
at `0x200`. -/
theorem do_context_switch_effect_witness :
    (0x200 ≠ two_threads.running_thread
      ∧ do_context_switch two_threads 0x200
          = some (NO_ERROR, outcome (do_context_switch two_threads 0x200) two_threads))
      ∧ ((outcome (do_context_switch two_threads 0x200) two_threads).thread 0x100).state.cpu
          = regs_pattern 500
      ∧ (outcome (do_context_switch two_threads 0x200) two_threads).regs = regs_pattern 200 :=
  ⟨⟨by decide, rfl⟩,
    ((do_context_switch_effect two_threads
      (outcome (do_context_switch two_threads 0x200) two_threads) 0x200
      (by decide) rfl).1 (by decide)).1,
    (do_context_switch_effect two_threads
      (outcome (do_context_switch two_threads 0x200) two_threads) 0x200
      (by decide) rfl).2.1⟩

/-- Claim C10: thread `A` runs with register frame `r = s0.regs` when
`do_context_switch` switches to `B`; later, with `A`'s saved frame untouched in
between, `do_context_switch` switches back to `A`.  The register frame handed
back is `r`, hence equal to it in every field. -/
theorem context_fidelity (s0 s1 s2 s3 : SchedState) (A B : Nat) (hAB : A ≠ B) (hA : A ≠ 0)
    (hrun : s0.running_thread = A)
    (h1 : do_context_switch s0 B = some (NO_ERROR, s1))
    (hkeep : (s2.thread A).state.cpu = (s1.thread A).state.cpu)
    (hrun2 : s2.running_thread ≠ A)
    (h2 : do_context_switch s2 A = some (NO_ERROR, s3)) :
    s3.regs = s0.regs := by
  obtain ⟨_, _, _, _, h5, _, _, _⟩ := do_context_switch_ok (hrun ▸ hAB) h1
  obtain ⟨_, g2, _, _, _, _, _, _⟩ := do_context_switch_ok hrun2 h2
  rw [g2, hkeep]
  rw [hrun] at h5
  exact (h5 hA).1

/-- A witness for claim C10: the thread at `0x100` is switched out for the
thread at `0x200` and then switched back in. -/
theorem context_fidelity_witness :
    (outcome (do_context_switch (outcome (do_context_switch two_threads 0x200) two_threads) 0x100)
      two_threads).regs = regs_pattern 500 :=
  context_fidelity two_threads (outcome (do_context_switch two_threads 0x200) two_threads)
    (outcome (do_context_switch two_threads 0x200) two_threads)
    (outcome (do_context_switch (outcome (do_context_switch two_threads 0x200) two_threads) 0x100)
      two_threads)
    0x100 0x200 (by decide) (by decide) rfl rfl rfl (by decide) rfl

/-! ## scheduler_timer -/

/-- The loop of `scheduler_timer` returns a thread of the table, not `NULL`,
whose status is `READY` or `RUNNING`, and writes nothing but the cursor. -/
theorem choose_thread_some (fuel : Nat) (s s1 : SchedState) (new : Nat)
    (h : choose_thread fuel s = some (new, s1)) :
    new ∈ s.threads ∧ new ≠ 0
      ∧ ((s.thread new).status = THREAD_STATUS_READY
          ∨ (s.thread new).status = THREAD_STATUS_RUNNING)
      ∧ s1.thread = s.thread ∧ s1.running_thread = s.running_thread
      ∧ s1.threads = s.threads ∧ s1.regs = s.regs := by
  induction fuel generalizing s with
  | zero => simp [choose_thread] at h
  | succ n ih =>
    unfold choose_thread at h
    by_cases hlen : buf_len s.threads = 0
    · rw [if_pos hlen] at h
      cases h
    · rw [if_neg hlen] at h
      dsimp only at h
      by_cases h0 : s.threads.getD (s.i % buf_len s.threads) 0 = 0
      · rw [if_pos h0] at h
        cases h
      · rw [if_neg h0] at h
        split_ifs at h with hst
        · obtain ⟨a, b, c, d, e, f, g⟩ := ih _ h
          exact ⟨a, b, c, d, e, f, g⟩
        · simp only [Option.some.injEq, Prod.mk.injEq] at h
          obtain ⟨rfl, rfl⟩ := h
          have hlt : s.i % buf_len s.threads < s.threads.length :=
            Nat.mod_lt _ (Nat.pos_of_ne_zero hlen)
          refine ⟨?_, h0, ?_, rfl, rfl, rfl, rfl⟩
          · rw [List.getD_eq_getElem s.threads 0 hlt]
            exact List.getElem_mem hlt
          · by_contra hc
            exact hst ⟨fun e => hc (Or.inl e), fun e => hc (Or.inr e)⟩

/-- Claim C9: if before the tick the threads with status `RUNNING` are exactly
the running thread (none when `running_thread` is `NULL`), then after a
successful `scheduler_timer` the running thread is a thread of the table, and
among the threads of the table (indeed among all threads) it is the one and
only with status `RUNNING`. -/
theorem scheduler_timer_single_running (fuel : Nat) (s s' : SchedState)
    (hpre : ∀ t, t ≠ 0 → ((s.thread t).status = THREAD_STATUS_RUNNING ↔ t = s.running_thread))
    (h : scheduler_timer fuel s = some (NO_ERROR, s')) :
    s'.running_thread ≠ 0
      ∧ s'.running_thread ∈ s'.threads
      ∧ (∀ t, t ≠ 0 →
          ((t ∈ s'.threads ∧ (s'.thread t).status = THREAD_STATUS_RUNNING)
            ↔ t = s'.running_thread))
      ∧ (∀ t, t ≠ 0 →
          ((s'.thread t).status = THREAD_STATUS_RUNNING ↔ t = s'.running_thread)) := by
  unfold scheduler_timer at h
  cases hc : choose_thread fuel s with
  | none => simp [hc] at h
  | some r =>
    obtain ⟨new, s1⟩ := r
    rw [hc] at h
    dsimp only at h
    obtain ⟨hmem, hn0, _, hth, hrun, hths, _⟩ := choose_thread_some fuel s s1 new hc
    have hinv : s'.running_thread = new ∧ s'.threads = s.threads
        ∧ ∀ t, t ≠ 0 →
          ((s'.thread t).status = THREAD_STATUS_RUNNING ↔ t = s'.running_thread) := by
      by_cases heq : s1.running_thread = new
      · unfold do_context_switch at h
        rw [if_pos heq] at h
        simp only [Option.some.injEq, Prod.mk.injEq, true_and] at h
        subst h
        refine ⟨heq, hths, fun t ht => ?_⟩
        rw [hth, hrun]
        exact hpre t ht
      · obtain ⟨_, _, g3, g4, g5, _, g7, g8⟩ := do_context_switch_ok heq h
        refine ⟨g3, g8.trans hths, fun t ht => ?_⟩
        rw [g3]
        constructor
        · intro hst
          by_contra htn
          by_cases htr : t = s1.running_thread
          · have hr0 : s1.running_thread ≠ 0 := htr ▸ ht
            rw [htr, (g5 hr0).2] at hst
            exact absurd hst (by decide)
          · rw [g7 t htn htr, hth] at hst
            exact htr (((hpre t ht).1 hst).trans hrun.symm)
        · intro e
          rw [e]
          exact g4
    obtain ⟨e1, e2, e3⟩ := hinv
    refine ⟨e1 ▸ hn0, ?_, fun t ht => ?_, e3⟩
    · rw [e1, e2]
      exact hmem
    · constructor
      · intro ⟨_, hst⟩
        exact (e3 t ht).1 hst
      · intro e
        refine ⟨?_, (e3 t ht).2 e⟩
        rw [e, e1, e2]
        exact hmem

/-- A witness for claim C9: a tick on `two_threads` switches from the thread at
`0x100` to the thread at `0x200`. -/
theorem scheduler_timer_single_running_witness :
    scheduler_timer 2 two_threads
        = some (NO_ERROR, outcome (scheduler_timer 2 two_threads) two_threads)
      ∧ (outcome (scheduler_timer 2 two_threads) two_threads).running_thread = 0x200
      ∧ ∀ t, t ≠ 0 →
          ((t ∈ (outcome (scheduler_timer 2 two_threads) two_threads).threads
              ∧ ((outcome (scheduler_timer 2 two_threads) two_threads).thread t).status
                  = THREAD_STATUS_RUNNING)
            ↔ t = (outcome (scheduler_timer 2 two_threads) two_threads).running_thread) :=
  ⟨rfl, rfl,
    (scheduler_timer_single_running 2 two_threads
      (outcome (scheduler_timer 2 two_threads) two_threads)
      (fun t _ => by
        show (if t = 0x100 then _ else if t = 0x200 then _ else _ : thread_t).status = _ ↔ t = 0x100
        by_cases h1 : t = 0x100
        · simp [h1]
        · by_cases h2 : t = 0x200
          · simp [h1, h2]
          · simp [h1, h2])
      rfl).2.2.1⟩

/-! ## Round-robin choice -/

/-- What makes the loop of `scheduler_timer` end at its first test whatever the
cursor: a table that is not empty, of a length and with a cursor that fit a
`size_t` with room for the increment, whose entries are threads (not `NULL`)
with status `READY` or `RUNNING`. -/
theorem choose_thread_first (fuel : Nat) (s : SchedState) (hK : s.threads ≠ [])
    (hall : ∀ t ∈ s.threads, t ≠ 0 ∧ ((s.thread t).status = THREAD_STATUS_READY
      ∨ (s.thread t).status = THREAD_STATUS_RUNNING)) :
    choose_thread (fuel + 1) s
      = some (s.threads.getD (s.i % buf_len s.threads) 0,
          { s with i := (s.i + 1) % 2 ^ 64 % buf_len s.threads }) := by
  have hlen : buf_len s.threads ≠ 0 := by
    unfold buf_len
    intro h
    exact hK (List.length_eq_zero.mp h)
  have hlt : s.i % buf_len s.threads < s.threads.length :=
    Nat.mod_lt _ (Nat.pos_of_ne_zero hlen)
  have hmem : s.threads.getD (s.i % buf_len s.threads) 0 ∈ s.threads := by
    rw [List.getD_eq_getElem s.threads 0 hlt]
    exact List.getElem_mem hlt
  obtain ⟨h0, hst⟩ := hall _ hmem
  unfold choose_thread
  rw [if_neg hlen]
  dsimp only
  rw [if_neg h0, if_neg]
  intro hc
  rcases hst with h | h
  · exact hc.1 h
  · exact hc.2 h

/-- Whatever it returns, `do_context_switch` leaves the table and the cursor
alone, and a status it writes is `READY` or `RUNNING`. -/
theorem do_context_switch_keeps {s s' : SchedState} {new : Nat} {e : error_t}
    (h : do_context_switch s new = some (e, s')) :
    s'.threads = s.threads ∧ s'.i = s.i
      ∧ ∀ t, (s'.thread t).status = (s.thread t).status
          ∨ (s'.thread t).status = THREAD_STATUS_READY
          ∨ (s'.thread t).status = THREAD_STATUS_RUNNING := by
  by_cases heq : s.running_thread = new
  · unfold do_context_switch at h
    rw [if_pos heq] at h
    simp only [Option.some.injEq, Prod.mk.injEq] at h
    obtain ⟨_, rfl⟩ := h
    exact ⟨rfl, rfl, fun t => Or.inl rfl⟩
  by_cases hr : s.running_thread = 0
  · have h0 : ¬ (0 = new) := fun e => heq (hr.trans e)
    have hn : new ≠ 0 := fun e => h0 e.symm
    by_cases hx : s.fxrstor_result = NO_ERROR
    · simp [do_context_switch, _fxsave, _fxrstor, set_cpu, set_status, hr, hx, hn, h0] at h
      obtain ⟨_, rfl⟩ := h
      refine ⟨rfl, rfl, fun t => ?_⟩
      dsimp only
      split_ifs
      · exact Or.inr (Or.inr rfl)
      · exact Or.inl rfl
    · simp [do_context_switch, _fxsave, _fxrstor, set_cpu, set_status, hr, hx, hn, h0] at h
      obtain ⟨_, rfl⟩ := h
      exact ⟨rfl, rfl, fun t => Or.inl rfl⟩
  · by_cases hs : s.fxsave_result = NO_ERROR
    · by_cases hn : new = 0
      · simp [do_context_switch, _fxsave, _fxrstor, set_cpu, set_status, heq, hr, hn, hs] at h
      · by_cases hx : s.fxrstor_result = NO_ERROR
        · simp [do_context_switch, _fxsave, _fxrstor, set_cpu, set_status, heq, hr, hx, hn, hs] at h
          obtain ⟨_, rfl⟩ := h
          refine ⟨rfl, rfl, fun t => ?_⟩
          dsimp only
          by_cases h1 : t = new
          · rw [if_pos h1]
            exact Or.inr (Or.inr rfl)
          · rw [if_neg h1]
            by_cases h2 : t = s.running_thread
            · rw [if_pos h2]
              exact Or.inr (Or.inl rfl)
            · rw [if_neg h2, if_neg h2, if_neg h2]
              exact Or.inl rfl
        · simp [do_context_switch, _fxsave, _fxrstor, set_cpu, set_status, heq, hr, hx, hn, hs] at h
          obtain ⟨_, rfl⟩ := h
          refine ⟨rfl, rfl, fun t => ?_⟩
          dsimp only
          by_cases h2 : t = s.running_thread
          · rw [if_pos h2]
            exact Or.inr (Or.inl rfl)
          · rw [if_neg h2, if_neg h2, if_neg h2]
            exact Or.inl rfl
    · simp [do_context_switch, _fxsave, _fxrstor, set_cpu, set_status, heq, hr, hs] at h
      obtain ⟨_, rfl⟩ := h
      refine ⟨rfl, rfl, fun t => ?_⟩
      dsimp only
      split_ifs with h2
      · exact Or.inl (by rw [h2])
      · exact Or.inl rfl

/-- Under the same conditions `do_context_switch` to a thread that is not `NULL`
returns (with an error code or without). -/
theorem do_context_switch_returns (s : SchedState) {new : Nat} (hn : new ≠ 0) :
    ∃ e s', do_context_switch s new = some (e, s') := by
  by_cases heq : s.running_thread = new
  · exact ⟨_, _, by rw [do_context_switch, if_pos heq]⟩
  · have h0 : ¬ (0 = new) := fun e => hn e.symm
    by_cases hr : s.running_thread = 0 <;> by_cases hs : s.fxsave_result = NO_ERROR <;>
      by_cases hx : s.fxrstor_result = NO_ERROR <;>
      simp [do_context_switch, _fxsave, _fxrstor, set_cpu, set_status, heq, hr, hs, hx, hn, h0]

/-- One tick under the conditions of round-robin choice returns, moves the cursor
by one place around the table, and leaves the conditions in force. -/
theorem round_robin_tick (fuel : Nat) (s : SchedState)
    (h : round_robin_ready s) :
    ∃ e s', scheduler_timer (fuel + 1) s = some (e, s')
      ∧ round_robin_ready s' ∧ s'.threads = s.threads
      ∧ s'.i = (s.i + 1) % buf_len s.threads := by
  obtain ⟨hK, hlen, hi, hall⟩ := h
  have hpos : 0 < buf_len s.threads := by
    unfold buf_len
    exact List.length_pos.mpr hK
  have hlt : s.i % buf_len s.threads < s.threads.length := Nat.mod_lt _ hpos
  have hmem : s.threads.getD (s.i % buf_len s.threads) 0 ∈ s.threads := by
    rw [List.getD_eq_getElem s.threads 0 hlt]
    exact List.getElem_mem hlt
  have hnew := (hall _ hmem).1
  obtain ⟨e, s', hd⟩ := do_context_switch_returns
    { s with i := (s.i + 1) % 2 ^ 64 % buf_len s.threads } hnew
  obtain ⟨ht, hkeep, hst⟩ := do_context_switch_keeps hd
  have hcur : s'.i = (s.i + 1) % buf_len s.threads := by
    rw [hkeep, Nat.mod_eq_of_lt hi]
  refine ⟨e, s', ?_, ⟨?_, ?_, ?_, ?_⟩, ht, hcur⟩
  · unfold scheduler_timer
    rw [choose_thread_first fuel s hK hall]
    exact hd
  · rw [ht]
    exact hK
  · rw [ht]
    exact hlen
  · have := Nat.mod_lt (s.i + 1) hpos
    omega
  · intro t htm
    rw [ht] at htm
    obtain ⟨h0, h1⟩ := hall t htm
    refine ⟨h0, ?_⟩
    rcases hst t with h2 | h2 | h2
    · rw [h2]
      exact h1
    · exact Or.inl h2
    · exact Or.inr h2

/-- The choice of the call number `n` under the conditions of round-robin
choice. -/
theorem nth_choice_round_robin (fuel : Nat) (n : Nat) :
    ∀ s : SchedState, round_robin_ready s →
      nth_choice (fuel + 1) n s
        = some (s.threads.getD ((s.i + n) % buf_len s.threads) 0) := by
  induction n with
  | zero =>
    intro s h
    unfold nth_choice
    rw [choose_thread_first fuel s h.1 h.2.2.2]
    rfl
  | succ n ih =>
    intro s h
    obtain ⟨e, s', h1, h2, h3, h4⟩ := round_robin_tick fuel s h
    unfold nth_choice
    rw [h1]
    dsimp only
    rw [ih s' h2, h3, h4]
    congr 2
    rw [Nat.add_mod ((s.i + 1) % buf_len s.threads) n, Nat.mod_mod, ← Nat.add_mod]
    congr 1
    omega

/-- Counting the numbers below `N` that a shift by `c` sends to the residue `j`
modulo `K`: the floor or the ceiling of `N / K`. -/
theorem count_shifted_residue (K c j N : Nat) (hK : 0 < K) (hj : j < K) :
    Nat.count (fun n => (c + n) % K = j) N = N / K
      ∨ Nat.count (fun n => (c + n) % K = j) N = (N + K - 1) / K := by
  have hv : ∀ n, (c + n) % K = j ↔ n ≡ j + (K - c % K) [MOD K] := by
    intro n
    have hc : c + (j + (K - c % K)) ≡ j [MOD K] := by
      have h1 : c + (j + (K - c % K)) = j + K * (c / K + 1) := by
        have := Nat.div_add_mod c K
        have := Nat.mod_lt c hK
        rw [Nat.mul_add, Nat.mul_one]
        omega
      rw [h1]
      unfold Nat.ModEq
      rw [Nat.add_mul_mod_self_left]
    constructor
    · intro h
      apply Nat.ModEq.add_left_cancel' c
      refine Nat.ModEq.trans ?_ hc.symm
      unfold Nat.ModEq
      rw [h, Nat.mod_eq_of_lt hj]
    · intro h
      have h2 := (Nat.ModEq.add_left c h).trans hc
      unfold Nat.ModEq at h2
      rw [h2, Nat.mod_eq_of_lt hj]
  have hcount : Nat.count (fun n => (c + n) % K = j) N
      = Nat.count (fun n => n ≡ j + (K - c % K) [MOD K]) N := by
    apply le_antisymm
    · exact Nat.count_mono_left (fun n h => (hv n).mp h)
    · exact Nat.count_mono_left (fun n h => (hv n).mpr h)
  rw [hcount, Nat.count_modEq_card N hK]
  have hceil : (N + K - 1) / K = N / K + (if N % K = 0 then 0 else 1) := by
    have h1 := Nat.div_add_mod N K
    have h2 := Nat.mod_lt N hK
    split_ifs with h0
    · have : N + K - 1 = (K - 1) + K * (N / K) := by omega
      rw [this, Nat.add_mul_div_left _ _ hK, Nat.div_eq_of_lt (by omega)]
      omega
    · have : N + K - 1 = (N % K - 1) + K * (N / K + 1) := by
        rw [Nat.mul_add, Nat.mul_one]
        omega
      rw [this, Nat.add_mul_div_left _ _ hK, Nat.div_eq_of_lt (by omega)]
      omega
  rw [hceil]
  split_ifs with h1 h2 h2
  · omega
  · right
    rfl
  · left
    rfl
  · left
    rfl

/-- Claim C11.  Round-robin fairness.  Take a table that is not empty, of a
length `K` and with a cursor `i0` that fit a `size_t` with room for the
increment, whose entries are threads (not `NULL`) with status `READY` or
`RUNNING`, and let the loop of `scheduler_timer` run once at least.  Then, the
calls counted from `0`, the call number `n` of a run of consecutive calls of
`scheduler_timer` chooses `threads[(i0 + n) mod K]`; when no thread is twice in
the table, every thread of the table is chosen `floor(N / K)` or `ceil(N / K)`
times over the `N` calls that follow any number `m` of calls; and with the table
`A, B, C` and the cursor at `0` the call number `n` chooses the entry `n mod 3`
of `A, B, C`. -/
theorem scheduler_timer_round_robin (fuel : Nat) (s : SchedState) (hfuel : 0 < fuel)
    (hK : s.threads ≠ []) (hlen : buf_len s.threads < 2 ^ 64) (hi : s.i + 1 < 2 ^ 64)
    (hall : ∀ t ∈ s.threads, t ≠ 0 ∧ ((s.thread t).status = THREAD_STATUS_READY
      ∨ (s.thread t).status = THREAD_STATUS_RUNNING)) :
    (∀ n, nth_choice fuel n s
        = some (s.threads.getD ((s.i + n) % buf_len s.threads) 0))
      ∧ (s.threads.Nodup → ∀ t ∈ s.threads, ∀ m N,
          Nat.count (fun n => nth_choice fuel (m + n) s = some t) N
              = N / buf_len s.threads
            ∨ Nat.count (fun n => nth_choice fuel (m + n) s = some t) N
              = (N + buf_len s.threads - 1) / buf_len s.threads)
      ∧ (∀ A B C, s.threads = [A, B, C] → s.i = 0 →
          ∀ n, nth_choice fuel n s = some ([A, B, C].getD (n % 3) 0)) := by
  obtain ⟨fuel, rfl⟩ : ∃ f, fuel = f + 1 := ⟨fuel - 1, by omega⟩
  have hready : round_robin_ready s := ⟨hK, hlen, hi, hall⟩
  have hchoice := fun n => nth_choice_round_robin fuel n s hready
  have hpos : 0 < buf_len s.threads := by
    unfold buf_len
    exact List.length_pos.mpr hK
  refine ⟨hchoice, ?_, ?_⟩
  · intro hnd t ht m N
    obtain ⟨j, hj, rfl⟩ := List.getElem_of_mem ht
    have hp : ∀ n, nth_choice (fuel + 1) (m + n) s = some s.threads[j]
        ↔ (s.i + m + n) % buf_len s.threads = j := by
      intro n
      have hlt : (s.i + (m + n)) % buf_len s.threads < s.threads.length :=
        Nat.mod_lt _ hpos
      rw [hchoice, List.getD_eq_getElem s.threads 0 hlt, Option.some.injEq,
        hnd.getElem_inj_iff, Nat.add_assoc]
    have hcount : Nat.count (fun n => nth_choice (fuel + 1) (m + n) s = some s.threads[j]) N
        = Nat.count (fun n => (s.i + m + n) % buf_len s.threads = j) N := by
      apply le_antisymm
      · exact Nat.count_mono_left (fun n h => (hp n).mp h)
      · exact Nat.count_mono_left (fun n h => (hp n).mpr h)
    rw [hcount]
    exact count_shifted_residue (buf_len s.threads) (s.i + m) j N hpos hj
  · intro A B C habc h0 n
    rw [hchoice, habc, h0, Nat.zero_add]
    rfl

/-- A witness for claim C11: on `three_threads` the calls choose `A`, `B`, `C`
in turn, and over any seven consecutive calls each thread is chosen twice or
three times. -/
theorem scheduler_timer_round_robin_witness :
    (∀ n, nth_choice 1 n three_threads = some ([0x100, 0x200, 0x300].getD (n % 3) 0))
      ∧ ∀ m, Nat.count (fun n => nth_choice 1 (m + n) three_threads = some 0x200) 7 = 2
          ∨ Nat.count (fun n => nth_choice 1 (m + n) three_threads = some 0x200) 7 = 3 :=
  have h := scheduler_timer_round_robin 1 three_threads (by decide) (by decide) (by decide)
    (by decide) (fun t ht => by
      simp only [three_threads, List.mem_cons, List.mem_singleton, List.not_mem_nil,
        or_false] at ht
      rcases ht with rfl | rfl | rfl <;> exact ⟨by decide, Or.inl rfl⟩)
  ⟨h.2.2 0x100 0x200 0x300 rfl rfl,
    fun m => h.2.1 (by decide) 0x200 (by decide) m 7⟩

/-! ## No idle thread -/

/-- With no thread of the table `READY` or `RUNNING`, the loop of
`scheduler_timer` produces no choice, whatever the number of iterations it is
given, and so `scheduler_timer` produces no result. -/
theorem scheduler_timer_none_of_no_ready (fuel : Nat) (s : SchedState)
    (hno : ∀ t ∈ s.threads, (s.thread t).status ≠ THREAD_STATUS_READY
      ∧ (s.thread t).status ≠ THREAD_STATUS_RUNNING) :
    choose_thread fuel s = none ∧ scheduler_timer fuel s = none := by
  have hc : choose_thread fuel s = none := by
    cases h : choose_thread fuel s with
    | none => rfl
    | some r =>
      obtain ⟨new, s1⟩ := r
      obtain ⟨hm, _, hst, _⟩ := choose_thread_some fuel s s1 new h
      rcases hst with h1 | h1
      · exact absurd h1 (hno new hm).1
      · exact absurd h1 (hno new hm).2
  refine ⟨hc, ?_⟩
  unfold scheduler_timer
  rw [hc]

/-- Claim C12, amended.  There is no idle thread: a thread `scheduler_timer`
chooses is an entry of the table, not `NULL`, with status `READY` or `RUNNING`;
and on a table in which no thread has status `READY` or `RUNNING` the loop of
`scheduler_timer` does not end, however many iterations it is given, so that
`scheduler_timer` does not return. -/
theorem scheduler_timer_no_idle_thread (s : SchedState) :
    (∀ fuel new s1, choose_thread fuel s = some (new, s1) →
        new ∈ s.threads ∧ new ≠ 0
          ∧ ((s.thread new).status = THREAD_STATUS_READY
            ∨ (s.thread new).status = THREAD_STATUS_RUNNING))
      ∧ ((∀ t ∈ s.threads, (s.thread t).status ≠ THREAD_STATUS_READY
            ∧ (s.thread t).status ≠ THREAD_STATUS_RUNNING) →
          ∀ fuel, choose_thread fuel s = none ∧ scheduler_timer fuel s = none) := by
  refine ⟨fun fuel new s1 h => ?_, fun hno fuel => scheduler_timer_none_of_no_ready fuel s hno⟩
  obtain ⟨a, b, c, _⟩ := choose_thread_some fuel s s1 new h
  exact ⟨a, b, c⟩

/-- A witness for claim C12: on `blocked_only`, whose one thread is blocked,
`scheduler_timer` returns for no number of iterations. -/
theorem scheduler_timer_no_idle_thread_witness :
    ∀ fuel, choose_thread fuel blocked_only = none
      ∧ scheduler_timer fuel blocked_only = none :=
  (scheduler_timer_no_idle_thread blocked_only).2 (fun t ht => by
    simp only [blocked_only, List.mem_singleton] at ht
    subst ht
    exact ⟨by decide, by decide⟩)

/-- The counterexample of claim C12: on the table `blocked_only`, in which no
thread is `READY` or `RUNNING`, no number of iterations makes `scheduler_timer`
return, and on the table with no thread at all it is the same: no thread is
selected. -/
theorem scheduler_timer_blocked_only_never_returns :
    (¬ ∃ fuel r, scheduler_timer fuel blocked_only = some r)
      ∧ ¬ ∃ fuel r, scheduler_timer fuel { blocked_only with threads := [] } = some r := by
  constructor
  · rintro ⟨fuel, r, h⟩
    have h2 := (scheduler_timer_none_of_no_ready fuel blocked_only (fun t ht => by
      simp only [blocked_only, List.mem_singleton] at ht
      subst ht
      exact ⟨by decide, by decide⟩)).2
    rw [h2] at h
    cases h
  · rintro ⟨fuel, r, h⟩
    have h2 := (scheduler_timer_none_of_no_ready fuel { blocked_only with threads := [] }
      (fun t ht => by cases ht)).2
    rw [h2] at h
    cases h

/-! ## ioapic_redirect -/

/-- The loop that looks for the I/O APIC: it ends with `NULL` exactly when it
started with `NULL` and no I/O APIC of the list owns `gsi`. -/
theorem find_ioapic_none (gsi : Nat) (l : List ioapic_t) :
    ∀ found, find_ioapic gsi l found = none
      ↔ found = none ∧ ∀ io ∈ l, ¬ (io.gsi_start ≤ gsi ∧ gsi ≤ io.gsi_end) := by
  induction l with
  | nil =>
    intro found
    simp [find_ioapic]
  | cons a rest ih =>
    intro found
    unfold find_ioapic
    split_ifs with h
    · rw [ih]
      constructor
      · intro hc
        exact absurd hc.1 (by simp)
      · intro hc
        exact absurd h (hc.2 a (List.mem_cons_self _ _))
    · rw [ih]
      constructor
      · rintro ⟨h1, h2⟩
        refine ⟨h1, fun io hio => ?_⟩
        rcases List.mem_cons.mp hio with rfl | hm
        · exact h
        · exact h2 io hm
      · rintro ⟨h1, h2⟩
        exact ⟨h1, fun io hio => h2 io (List.mem_cons_of_mem _ hio)⟩

/-- The I/O APIC the loop ends with is the one it started with or an I/O APIC
of the list that owns `gsi`. -/
theorem find_ioapic_some (gsi : Nat) (l : List ioapic_t) :
    ∀ found io, find_ioapic gsi l found = some io →
      found = some io ∨ (io ∈ l ∧ io.gsi_start ≤ gsi ∧ gsi ≤ io.gsi_end) := by
  induction l with
  | nil =>
    intro found io h
    exact Or.inl h
  | cons a rest ih =>
    intro found io h
    unfold find_ioapic at h
    split_ifs at h with hc
    · rcases ih _ _ h with h1 | ⟨h1, h2⟩
      · simp only [Option.some.injEq] at h1
        subst h1
        exact Or.inr ⟨List.mem_cons_self _ _, hc⟩
      · exact Or.inr ⟨List.mem_cons_of_mem _ h1, h2⟩
    · rcases ih _ _ h with h1 | ⟨h1, h2⟩
      · exact Or.inl h1
      · exact Or.inr ⟨List.mem_cons_of_mem _ h1, h2⟩

/-- Claim C13.  For every list of I/O APICs and every `gsi`, `ioapic_redirect`
returns `ERROR_NOT_FOUND` if and only if no I/O APIC of the list has
`gsi_start <= gsi <= gsi_end`; in that case it leaves the state as it was, so it
writes no I/O APIC register; otherwise it returns `NO_ERROR`. -/
theorem ioapic_redirect_not_found (s : ApicState) (gsi vector : Nat)
    (level_triggered assertion_level : Bool) :
    ((ioapic_redirect s gsi vector level_triggered assertion_level).1 = ERROR_NOT_FOUND
        ↔ ¬ ∃ io ∈ s.g_ioapics, io.gsi_start ≤ gsi ∧ gsi ≤ io.gsi_end)
      ∧ ((ioapic_redirect s gsi vector level_triggered assertion_level).1 = ERROR_NOT_FOUND →
          (ioapic_redirect s gsi vector level_triggered assertion_level).2 = s)
      ∧ ((ioapic_redirect s gsi vector level_triggered assertion_level).1 ≠ ERROR_NOT_FOUND →
          (ioapic_redirect s gsi vector level_triggered assertion_level).1 = NO_ERROR) := by
  cases hf : find_ioapic gsi s.g_ioapics none with
  | none =>
    have hno := ((find_ioapic_none gsi s.g_ioapics none).mp hf).2
    have hr : ioapic_redirect s gsi vector level_triggered assertion_level
        = (ERROR_NOT_FOUND, s) := by
      unfold ioapic_redirect
      rw [hf]
    rw [hr]
    refine ⟨⟨fun _ => ?_, fun _ => rfl⟩, fun _ => rfl, fun h => absurd rfl h⟩
    rintro ⟨io, hio, hown⟩
    exact hno io hio hown
  | some io =>
    have hown : io ∈ s.g_ioapics ∧ io.gsi_start ≤ gsi ∧ gsi ≤ io.gsi_end := by
      rcases find_ioapic_some gsi s.g_ioapics none io hf with h | h
      · cases h
      · exact h
    have hr : (ioapic_redirect s gsi vector level_triggered assertion_level).1 = NO_ERROR := by
      unfold ioapic_redirect
      rw [hf]
    rw [hr]
    refine ⟨⟨fun h => ?_, fun h => ?_⟩, fun h => ?_, fun _ => rfl⟩
    · exact absurd h (by decide)
    · exact absurd ⟨io, hown.1, hown.2⟩ h
    · exact absurd h (by decide)

/-- A witness for claim C13: on `two_cpu_machine`, whose I/O APIC owns the GSIs
`0` to `23`, a redirect of GSI `24` returns `ERROR_NOT_FOUND` and leaves the log
of accesses empty, and a redirect of GSI `5` returns `NO_ERROR`. -/
theorem ioapic_redirect_not_found_witness :
    (ioapic_redirect two_cpu_machine 24 0x30 false true).1 = ERROR_NOT_FOUND
      ∧ (ioapic_redirect two_cpu_machine 24 0x30 false true).2.log = []
      ∧ (ioapic_redirect two_cpu_machine 5 0x30 false true).1 = NO_ERROR :=
  have h24 := ioapic_redirect_not_found two_cpu_machine 24 0x30 false true
  have h5 := ioapic_redirect_not_found two_cpu_machine 5 0x30 false true
  have e24 : (ioapic_redirect two_cpu_machine 24 0x30 false true).1 = ERROR_NOT_FOUND :=
    h24.1.mpr (by
      rintro ⟨io, hio, h1, h2⟩
      simp only [two_cpu_machine, List.mem_singleton] at hio
      subst hio
      exact absurd h2 (by decide))
  ⟨e24, by rw [h24.2.1 e24]; rfl,
    h5.2.2 (fun h => h5.1.mp h
      ⟨⟨0xFFFF8000FEC00000, 0, 23⟩, List.mem_singleton.mpr rfl, by decide, by decide⟩)⟩

/-- Claim C15, the code at the failing input.  The table of `two_cpu_machine`
has an override that sends the legacy IRQ `0` to GSI `2`, active low and level
triggered.  A redirect of IRQ `0` with the arguments edge triggered and active
high programs the entry of GSI `0` (registers `0x11` and `0x10`, not `0x15` and
`0x14`) with the polarity and the trigger mode of the arguments (low word
`0x30`: both bits clear); and whatever the table holds, the accesses are the
same: `ioapic_redirect` does not read the table. -/
theorem ioapic_redirect_ignores_iso :
    MADT_ISO 0 2 0xF ∈ two_cpu_machine.g_madt
      ∧ (ioapic_redirect two_cpu_machine 0 0x30 false true).1 = NO_ERROR
      ∧ (ioapic_redirect two_cpu_machine 0 0x30 false true).2.log
          = [hw_event.ioapic_index 0xFFFF8000FEC00000 0x11,
             hw_event.ioapic_data 0xFFFF8000FEC00000 0,
             hw_event.ioapic_index 0xFFFF8000FEC00000 0x10,
             hw_event.ioapic_data 0xFFFF8000FEC00000 0x30]
      ∧ ∀ madt : List madt_entry_t,
          (ioapic_redirect { two_cpu_machine with g_madt := madt } 0 0x30 false true).2.log
            = (ioapic_redirect two_cpu_machine 0 0x30 false true).2.log :=
  ⟨by decide, rfl, rfl, fun _ => rfl⟩

/-! ## set_next_scheduler_tick -/

/-- Claim C16, amended.  For every `ms`, `set_next_scheduler_tick(ms)` makes
three writes to the local APIC, in this order: the initial count
(`ms * g_lapic_freq`, a 64-bit product cut to 32 bits), the divide
configuration (`0`), and the LVT-Timer entry `0x20`: vector `0x20`, delivery
status, mask and timer mode `0` (not masked, one-shot).  The count is written
first and the LVT-Timer entry last. -/
theorem set_next_scheduler_tick_writes (s : ApicState) (ms : Nat) :
    (set_next_scheduler_tick s ms).log
        = s.log ++
          [hw_event.lapic_store XAPIC_TIMER_INIT_COUNT_OFFSET
             (ms * s.g_lapic_freq % 2 ^ 64 % 2 ^ 32),
           hw_event.lapic_store XAPIC_TIMER_DIVIDE_CONFIGURATION_OFFSET 0,
           hw_event.lapic_store XAPIC_LVT_TIMER_OFFSET 0x20]
      ∧ lapic_lvt_timer_t.raw { vector := 0x20, delivery_status := 0, mask := 0, timer_mode := 0 }
          = 0x20
      ∧ { s with log := (set_next_scheduler_tick s ms).log } = set_next_scheduler_tick s ms := by
  refine ⟨?_, by decide, rfl⟩
  simp only [set_next_scheduler_tick, lapic_write, record, lapic_lvt_timer_t.raw,
    List.append_assoc, List.cons_append, List.nil_append]
  rfl

/-- The counterexample of claim C16: on `two_cpu_machine` (a frequency of `1000`
counts per millisecond) `set_next_scheduler_tick(10)` writes the initial count
`10000` first; the divide configuration and the LVT-Timer entry come after it,
so the count is not written last. -/
theorem set_next_scheduler_tick_count_first :
    (set_next_scheduler_tick two_cpu_machine 10).log
        = [hw_event.lapic_store XAPIC_TIMER_INIT_COUNT_OFFSET 10000,
           hw_event.lapic_store XAPIC_TIMER_DIVIDE_CONFIGURATION_OFFSET 0,
           hw_event.lapic_store XAPIC_LVT_TIMER_OFFSET 0x20]
      ∧ (set_next_scheduler_tick two_cpu_machine 10).log.getLast?
          ≠ some (hw_event.lapic_store XAPIC_TIMER_INIT_COUNT_OFFSET 10000) := by
  decide

/-! ## kentry: feeding the physical memory manager -/

/-- Claim C17, the code at the failing input.  A usable region that ends exactly
at 4 GiB (`0xC0000000` to `0x100000000`) is submitted by neither pass, and so is
a usable region that straddles 4 GiB (`0xC0000000` to `0x140000000`); a usable
region below 4 GiB and one above are submitted, each by its pass, and a region
of another type is not. -/
theorem kentry_skips_region_ending_at_4gb :
    kentry_pmm_submissions [⟨0xC0000000, 0x40000000, 1⟩] = []
      ∧ kentry_pmm_submissions [⟨0xC0000000, 0x80000000, 1⟩] = []
      ∧ kentry_pmm_submissions
          [⟨0x100000, 0x1000000, 1⟩, ⟨0xF0000000, 0x1000, 2⟩, ⟨0x100000000, 0x40000000, 1⟩]
        = [(PHYSICAL_TO_DIRECT 0x100000, 0x1000), (PHYSICAL_TO_DIRECT 0x100000000, 0x40000)] := by
  decide

/-! ## startup_all_cores -/

/-- The `err_t` of a `vmm_map` call is the one the environment gives. -/
theorem mem_vmm_map_fst (err : error_t) (pages : Nat → Option page_mapping_t)
    (va pa flags : Nat) : (mem_vmm_map err pages va pa flags).1 = err := by
  unfold mem_vmm_map
  split_ifs with h
  · rfl
  · exact (not_not.mp h).symm

/-- The `err_t` of a `vmm_unmap` call is the one the environment gives. -/
theorem mem_vmm_unmap_fst (err : error_t) (pages : Nat → Option page_mapping_t) (va : Nat) :
    (mem_vmm_unmap err pages va).1 = err := by
  unfold mem_vmm_unmap
  split_ifs with h
  · rfl
  · exact (not_not.mp h).symm

/-- A `vmm_map` call that succeeds installs the mapping of the page of `va` and
changes no other page. -/
theorem mem_vmm_map_ok (pages : Nat → Option page_mapping_t) (va pa flags : Nat) :
    (mem_vmm_map NO_ERROR pages va pa flags).2
      = fun page => if page = va / 4096 then some ⟨pa, flags⟩ else pages page := by
  unfold mem_vmm_map
  rw [if_neg (fun h => h rfl)]

/-- A `vmm_unmap` call that succeeds tears down the mapping of the page of `va`
and changes no other page. -/
theorem mem_vmm_unmap_ok (pages : Nat → Option page_mapping_t) (va : Nat) :
    (mem_vmm_unmap NO_ERROR pages va).2
      = fun page => if page = va / 4096 then none else pages page := by
  unfold mem_vmm_unmap
  rw [if_neg (fun h => h rfl)]

/-- What `startup_core` does for one processor: the accesses the specification
describes, and an error exactly when the ready flag is zero after the first and
after the second SIPI. -/
theorem startup_core_spec (s : ApicState) (apic_id : Nat) :
    startup_core s apic_id
      = (if s.flag_after_first_sipi apic_id = 0 ∧ s.flag_after_second_sipi apic_id = 0
          then ERROR_CHECK_FAILED else NO_ERROR,
         { s with log := s.log
             ++ expected_core_events s.alloc_stack_result s.flag_after_first_sipi apic_id }) := by
  have hhigh : (apic_id % 2 ^ 32 % 256) <<< 24 % 2 ^ 32 = apic_id % 256 * 16777216 := by
    rw [Nat.shiftLeft_eq]
    omega
  have hinit : lapic_icr_low_t.raw ⟨0, LAPIC_DELIVERY_MODE_INIT, 0, 1⟩ % 2 ^ 32 = 0x4500 := by
    decide
  have hsipi : lapic_icr_low_t.raw ⟨0x1000 >>> 12, LAPIC_DELIVERY_MODE_STARTUP, 0, 1⟩ % 2 ^ 32
      = 0x4601 := by
    decide
  by_cases h1 : s.flag_after_first_sipi apic_id = 0
  · by_cases h2 : s.flag_after_second_sipi apic_id = 0
    · simp [startup_core, send_init_ipi, send_sipi_ipi, send_ipi, lapic_write, record,
        expected_core_events, expected_ipi_events, h1, h2]
      exact ⟨hhigh, hinit, hhigh, hsipi, hhigh, hsipi⟩
    · simp [startup_core, send_init_ipi, send_sipi_ipi, send_ipi, lapic_write, record,
        expected_core_events, expected_ipi_events, h1, h2]
      exact ⟨hhigh, hinit, hhigh, hsipi, hhigh, hsipi⟩
  · simp [startup_core, send_init_ipi, send_sipi_ipi, send_ipi, lapic_write, record,
      expected_core_events, expected_ipi_events, h1]
    exact ⟨hhigh, hinit, hhigh, hsipi⟩

/-- What the loop of `startup_all_cores` does over a table: it starts the
targets the specification names, in order, up to and including the first whose
ready flag is zero after both SIPIs; it returns an error exactly when there is
such a target. -/
theorem startup_cores_loop_spec (l : List madt_entry_t) :
    ∀ s : ApicState,
      (startup_cores_loop l s).2
          = { s with log := s.log
                ++ expected_startup_events s.alloc_stack_result s.flag_after_first_sipi
                        s.flag_after_second_sipi (expected_startup_targets s.lapic_id l) }
        ∧ ((startup_cores_loop l s).1 ≠ NO_ERROR
            ↔ ∃ id ∈ expected_startup_targets s.lapic_id l,
                s.flag_after_first_sipi id = 0 ∧ s.flag_after_second_sipi id = 0) := by
  induction l with
  | nil =>
    intro s
    simp [startup_cores_loop, expected_startup_targets, expected_startup_events]
  | cons e rest ih =>
    intro s
    cases e with
    | MADT_LAPIC apic_id enabled online_capable =>
      by_cases hskip : apic_id = s.lapic_id ∨ (enabled = false ∧ online_capable = false)
      · have hnot : ¬ (apic_id ≠ s.lapic_id ∧ (enabled = true ∨ online_capable = true)) := by
          rintro ⟨h1, h2⟩
          rcases hskip with h | ⟨h3, h4⟩
          · exact h1 h
          · rcases h2 with h | h
            · rw [h3] at h
              cases h
            · rw [h4] at h
              cases h
        rw [startup_cores_loop, if_pos hskip, expected_startup_targets, if_neg hnot]
        exact ih s
      · have hyes : apic_id ≠ s.lapic_id ∧ (enabled = true ∨ online_capable = true) := by
          refine ⟨fun h => hskip (Or.inl h), ?_⟩
          cases enabled
          · cases online_capable
            · exact absurd (Or.inr ⟨rfl, rfl⟩) hskip
            · exact Or.inr rfl
          · exact Or.inl rfl
        rw [startup_cores_loop, if_neg hskip, expected_startup_targets, if_pos hyes,
          expected_startup_events]
        dsimp only
        rw [startup_core_spec]
        by_cases hfail : s.flag_after_first_sipi apic_id = 0
            ∧ s.flag_after_second_sipi apic_id = 0
        · rw [if_pos hfail, if_pos hfail]
          have hne : ERROR_CHECK_FAILED ≠ NO_ERROR := by decide
          rw [if_pos hne]
          refine ⟨by rw [List.append_nil], fun _ => ⟨apic_id, List.mem_cons_self _ _, hfail⟩,
            fun _ => hne⟩
        · rw [if_neg hfail, if_neg hfail]
          rw [if_neg (fun h => h rfl)]
          obtain ⟨ih1, ih2⟩ := ih { s with log := s.log ++ (expected_core_events
            s.alloc_stack_result s.flag_after_first_sipi apic_id) }
          dsimp only at ih1 ih2 ⊢
          refine ⟨?_, ?_⟩
          · rw [ih1, List.append_assoc]
          · rw [ih2]
            constructor
            · rintro ⟨id, hid, h⟩
              exact ⟨id, List.mem_cons_of_mem _ hid, h⟩
            · rintro ⟨id, hid, h⟩
              rcases List.mem_cons.mp hid with rfl | hm
              · exact absurd h hfail
              · exact ⟨id, hm, h⟩
    | MADT_IOAPIC a b c =>
      rw [startup_cores_loop, expected_startup_targets]
      · exact ih s
      all_goals (intro _ _ _ h; cases h)
    | MADT_ISO a b c =>
      rw [startup_cores_loop, expected_startup_targets]
      · exact ih s
      all_goals (intro _ _ _ h; cases h)
    | MADT_OTHER =>
      rw [startup_cores_loop, expected_startup_targets]
      · exact ih s
      all_goals (intro _ _ _ h; cases h)

/-- Claim C18.  `startup_all_cores` returns an error if and only if one of the
two `vmm_map` or of the two `vmm_unmap` calls fails or some target (a LAPIC
entry of the table whose APIC id is not the boot processor's and that is enabled
or online-capable) has its ready flag zero after the first SIPI and still zero
after the second SIPI.  When the two pages are mapped, the accesses are the
set-up followed by those the specification describes: the targets, and only
they, are started in the order of the table, each with a second SIPI exactly
when the flag is zero after the first, and none after a target whose flag is
still zero after the second SIPI.  When a `vmm_map` fails no processor is
started. -/
theorem startup_all_cores_bring_up (s : ApicState) :
    ((startup_all_cores s).1 ≠ NO_ERROR
        ↔ s.vmm_map_zero_result ≠ NO_ERROR ∨ s.vmm_map_trampoline_result ≠ NO_ERROR
          ∨ (∃ id ∈ expected_startup_targets s.lapic_id s.g_madt,
              s.flag_after_first_sipi id = 0 ∧ s.flag_after_second_sipi id = 0)
          ∨ s.vmm_unmap_zero_result ≠ NO_ERROR ∨ s.vmm_unmap_trampoline_result ≠ NO_ERROR)
      ∧ (s.vmm_map_zero_result = NO_ERROR → s.vmm_map_trampoline_result = NO_ERROR →
          (startup_all_cores s).2.log
            = s.log ++ expected_setup_events s
                ++ expected_startup_events s.alloc_stack_result s.flag_after_first_sipi
                    s.flag_after_second_sipi (expected_startup_targets s.lapic_id s.g_madt))
      ∧ (s.vmm_map_zero_result ≠ NO_ERROR ∨ s.vmm_map_trampoline_result ≠ NO_ERROR →
          (startup_all_cores s).2.log = s.log ++ expected_setup_events s) := by
  unfold startup_all_cores
  dsimp only [record]
  simp only [mem_vmm_map_fst, mem_vmm_unmap_fst, List.append_assoc, List.cons_append,
    List.nil_append]
  split_ifs with h1 h2 h3 h4 h5
  · exact ⟨⟨fun _ => Or.inl h1, fun _ => h1⟩, fun h => absurd h h1, fun _ => rfl⟩
  · exact ⟨⟨fun _ => Or.inr (Or.inl h2), fun _ => h2⟩, fun _ h => absurd h h2, fun _ => rfl⟩
  · have h3e := (startup_cores_loop_spec _ _).2.mp h3
    dsimp only at h3e
    refine ⟨⟨fun _ => Or.inr (Or.inr (Or.inl h3e)), fun _ => h3⟩, fun _ _ => ?_, fun h => ?_⟩
    · rw [(startup_cores_loop_spec _ _).1]
      dsimp only
      rw [List.append_assoc]
      rfl
    · rcases h with h | h
      · exact absurd h h1
      · exact absurd h h2
  · rw [(startup_cores_loop_spec _ _).1] at h4 ⊢
    dsimp only at h4 ⊢
    refine ⟨⟨fun _ => Or.inr (Or.inr (Or.inr (Or.inl h4))), fun _ => h4⟩, fun _ _ => ?_,
      fun h => ?_⟩
    · rw [List.append_assoc]
      rfl
    · rcases h with h | h
      · exact absurd h h1
      · exact absurd h h2
  · rw [(startup_cores_loop_spec _ _).1] at h4 h5 ⊢
    dsimp only at h4 h5 ⊢
    refine ⟨⟨fun _ => Or.inr (Or.inr (Or.inr (Or.inr h5))), fun _ => h5⟩, fun _ _ => ?_,
      fun h => ?_⟩
    · rw [List.append_assoc]
      rfl
    · rcases h with h | h
      · exact absurd h h1
      · exact absurd h h2
  · have h3e := fun h => h3 ((startup_cores_loop_spec _ _).2.mpr h)
    dsimp only at h3e
    rw [(startup_cores_loop_spec _ _).1] at h4 h5 ⊢
    dsimp only at h4 h5 ⊢
    refine ⟨⟨fun h => absurd rfl h, fun h => ?_⟩, fun _ _ => ?_, fun h => ?_⟩
    · rcases h with h | h | h | h | h
      · exact absurd h h1
      · exact absurd h h2
      · exact absurd h h3e
      · exact absurd h h4
      · exact absurd h h5
    · rw [List.append_assoc]
      rfl
    · rcases h with h | h
      · exact absurd h h1
      · exact absurd h h2

/-- A witness for claim C18: on `two_cpu_machine` the processor `1` is the one
target; its flag is set after the first SIPI, so one INIT and one SIPI are sent
and the call succeeds.  On `silent_cpu_machine` the flag stays zero and the call
returns an error. -/
theorem startup_all_cores_bring_up_witness :
    (startup_all_cores two_cpu_machine).2.log
        = [hw_event.trampoline_copy,
           hw_event.cell_store SMP_KERNEL_ENTRY 0xFFFFFFFF80001000,
           hw_event.cell_store SMP_KERNEL_PAGE_TABLE 0x100000,
           hw_event.idt_copy, hw_event.gdt_copy,
           hw_event.cell_store SMP_FLAG 0,
           hw_event.cell_store SMP_STACK_POINTER 0xFFFF800000200000,
           hw_event.lapic_store XAPIC_ICR_HIGH_OFFSET 0x1000000,
           hw_event.lapic_store XAPIC_ICR_LOW_OFFSET 0x4500,
           hw_event.stall 10000,
           hw_event.lapic_store XAPIC_ICR_HIGH_OFFSET 0x1000000,
           hw_event.lapic_store XAPIC_ICR_LOW_OFFSET 0x4601,
           hw_event.stall 1000]
      ∧ (startup_all_cores silent_cpu_machine).1 ≠ NO_ERROR :=
  ⟨((startup_all_cores_bring_up two_cpu_machine).2.1 rfl rfl).trans (by decide),
    (startup_all_cores_bring_up silent_cpu_machine).1.mpr
      (Or.inr (Or.inr (Or.inl ⟨1, by decide, rfl, rfl⟩)))⟩

/-- Claim C19.  Whenever `startup_all_cores` returns success, the pages at `0`
and at `0x1000` are not mapped in the kernel address space afterwards:
`translate` gives `NOT_MAPPED` for every address of the two pages.  The calls
that did it are the two `vmm_unmap` calls, both of which returned `NO_ERROR`,
and every other page maps what it mapped before the bring-up. -/
theorem startup_all_cores_unmaps_trampoline (s : ApicState)
    (hok : (startup_all_cores s).1 = NO_ERROR) :
    (startup_all_cores s).2.kernel_pages (0 / 4096) = none
      ∧ (startup_all_cores s).2.kernel_pages (0x1000 / 4096) = none
      ∧ (∀ va, va < 0x2000 → mem_vmm_translate (startup_all_cores s).2.kernel_pages va = none)
      ∧ (s.vmm_unmap_zero_result = NO_ERROR ∧ s.vmm_unmap_trampoline_result = NO_ERROR)
      ∧ (∀ page, 2 ≤ page → (startup_all_cores s).2.kernel_pages page = s.kernel_pages page) := by
  have key : (startup_all_cores s).2.kernel_pages 0 = none
      ∧ (startup_all_cores s).2.kernel_pages 1 = none
      ∧ (s.vmm_unmap_zero_result = NO_ERROR ∧ s.vmm_unmap_trampoline_result = NO_ERROR)
      ∧ (∀ page, 2 ≤ page →
          (startup_all_cores s).2.kernel_pages page = s.kernel_pages page) := by
    revert hok
    unfold startup_all_cores
    dsimp only [record]
    simp only [mem_vmm_map_fst, mem_vmm_unmap_fst]
    split_ifs with h1 h2 h3 h4 h5
    · intro h
      exact absurd h h1
    · intro h
      exact absurd h h2
    · intro h
      exact absurd h h3
    · intro h
      exact absurd h h4
    · intro h
      exact absurd h h5
    · intro _
      rw [(startup_cores_loop_spec _ _).1] at h4 h5 ⊢
      dsimp only at h4 h5 ⊢
      rw [not_not] at h1 h2 h4 h5
      refine ⟨?_, ?_, ⟨h4, h5⟩, fun page hp => ?_⟩
      · rw [h1, h2, h4, h5, mem_vmm_unmap_ok, mem_vmm_unmap_ok]
        rfl
      · rw [h1, h2, h4, h5, mem_vmm_unmap_ok, mem_vmm_unmap_ok]
        rfl
      · have e0 : ¬ page = 0 / 4096 := by omega
        have e1 : ¬ page = 0x1000 / 4096 := by omega
        rw [h1, h2, h4, h5, mem_vmm_unmap_ok, mem_vmm_unmap_ok, mem_vmm_map_ok, mem_vmm_map_ok]
        simp only [if_neg e0, if_neg e1]
  refine ⟨key.1, key.2.1, fun va hva => ?_, key.2.2.1, key.2.2.2⟩
  unfold mem_vmm_translate
  have hpage : va / 4096 = 0 ∨ va / 4096 = 1 := by omega
  rcases hpage with h | h
  · rw [h, key.1]
  · rw [h, key.2.1]

/-- A witness for claim C19: on `two_cpu_machine` the bring-up succeeds; after it
the pages at `0` and at `0x1000` are not mapped, and the page at 1 MiB maps what
it mapped before. -/
theorem startup_all_cores_unmaps_trampoline_witness :
    (startup_all_cores two_cpu_machine).1 = NO_ERROR
      ∧ (startup_all_cores two_cpu_machine).2.kernel_pages 0 = none
      ∧ (startup_all_cores two_cpu_machine).2.kernel_pages 1 = none
      ∧ mem_vmm_translate (startup_all_cores two_cpu_machine).2.kernel_pages 0x1234 = none
      ∧ (startup_all_cores two_cpu_machine).2.kernel_pages 0x100
          = some ⟨0x100000, MAP_WRITE⟩ :=
  ⟨by decide,
    (startup_all_cores_unmaps_trampoline two_cpu_machine (by decide)).1,
    (startup_all_cores_unmaps_trampoline two_cpu_machine (by decide)).2.1,
    (startup_all_cores_unmaps_trampoline two_cpu_machine (by decide)).2.2.1 0x1234 (by decide),
    ((startup_all_cores_unmaps_trampoline two_cpu_machine (by decide)).2.2.2.2 0x100
      (by decide)).trans rfl⟩

/-! ## spinlock.c -/

/-- Claim C20.  For every task priority level `t` of the processor and a lock
whose flag is clear, with the loops given two tests of their condition at
least: `spinlock_acquire_high_tpl` returns with the flag set, `owner_tpl = t`
and the current level `TPL_HIGH_LEVEL`; `spinlock_release` after it clears the
flag and leaves the current level `t`; and `spinlock_acquire` returns with the
flag set and `owner_tpl = t`, the current level still `t`. -/
theorem spinlock_tpl_round_trip (fuel : Nat) (s : TplState) (hfuel : 2 ≤ fuel)
    (hflag : s.lock.flag = false) :
    spinlock_acquire_high_tpl fuel s
        = some { lock := { flag := true, owner_tpl := s.tpl }, tpl := TPL_HIGH_LEVEL }
      ∧ spinlock_release { lock := { flag := true, owner_tpl := s.tpl }, tpl := TPL_HIGH_LEVEL }
        = { lock := { flag := false, owner_tpl := s.tpl }, tpl := s.tpl }
      ∧ spinlock_acquire fuel s
        = some { lock := { flag := true, owner_tpl := s.tpl }, tpl := s.tpl } := by
  obtain ⟨fuel, rfl⟩ : ∃ f, fuel = f + 2 := ⟨fuel - 2, by omega⟩
  obtain ⟨⟨flag, owner⟩, tpl⟩ := s
  dsimp only at hflag
  subst hflag
  refine ⟨rfl, rfl, rfl⟩

/-- A witness for claim C20: the lock `free_lock_at_4`, taken at the level `4`
with the level raised and released, and taken without raising the level. -/
theorem spinlock_tpl_round_trip_witness :
    spinlock_acquire_high_tpl 2 free_lock_at_4
        = some { lock := { flag := true, owner_tpl := 4 }, tpl := TPL_HIGH_LEVEL }
      ∧ spinlock_release { lock := { flag := true, owner_tpl := 4 }, tpl := TPL_HIGH_LEVEL }
        = { lock := { flag := false, owner_tpl := 4 }, tpl := 4 }
      ∧ spinlock_acquire 2 free_lock_at_4
        = some { lock := { flag := true, owner_tpl := 4 }, tpl := 4 } :=
  spinlock_tpl_round_trip 2 free_lock_at_4 (by decide) rfl

/-! ## arch.c: the interrupt flag -/

/-- After `sti` the interrupt flag is set. -/
theorem get_interrupt_state_enable (s : CpuState) :
    get_interrupt_state (enable_interrupts s) = true := by
  have h : Nat.testBit RFLAGS_IF 9 = true := by decide
  simp [get_interrupt_state, enable_interrupts, read_eflags, Nat.testBit_or, h]

/-- After `cli` the interrupt flag is clear. -/
theorem get_interrupt_state_disable (s : CpuState) :
    get_interrupt_state (disable_interrupts s) = false := by
  have h : Nat.testBit (2 ^ 64 - 1 - RFLAGS_IF) 9 = false := by decide
  simp only [get_interrupt_state, disable_interrupts, read_eflags, Nat.testBit_and, h,
    Bool.and_false]
  rfl

/-- Claim C21.  For every state of the processor: `save_and_disable_interrupts`
returns the interrupt flag as it was and leaves it clear; `set_interrupt_state(b)`
returns `b` and leaves the interrupt flag equal to `b`; and
`set_interrupt_state(save_and_disable_interrupts())` leaves the interrupt flag as
it was before the two calls. -/
theorem interrupt_state_round_trip (s : CpuState) (b : Bool) :
    (save_and_disable_interrupts s).1 = get_interrupt_state s
      ∧ get_interrupt_state (save_and_disable_interrupts s).2 = false
      ∧ (set_interrupt_state s b).1 = b
      ∧ get_interrupt_state (set_interrupt_state s b).2 = b
      ∧ get_interrupt_state
          (set_interrupt_state (save_and_disable_interrupts s).2
            (save_and_disable_interrupts s).1).2 = get_interrupt_state s := by
  have hset : ∀ (t : CpuState) (c : Bool), get_interrupt_state (set_interrupt_state t c).2 = c := by
    intro t c
    cases c
    · exact get_interrupt_state_disable t
    · exact get_interrupt_state_enable t
  exact ⟨rfl, get_interrupt_state_disable s, rfl, hset s b, hset _ _⟩

/-! ## The ownership bitmap -/

/-- Claim C22, the code at the failing input.  On an empty bitmap
`set_allocated(0x1000)` sets bit `0` of the word `0x200` (`0x1000 / 8`), while
`is_allocated(0x1000)` reads bit `1` of the word `0` (page `1`): it is false
after `set_allocated(0x1000)`.  With that bit set, `is_allocated(0x1000)` is
true and stays true after `set_free(0x1000)`. -/
theorem is_allocated_misses_set_allocated :
    (set_allocated empty_space 0x1000).bitmap 0x200 = 1
      ∧ (set_allocated empty_space 0x1000).bitmap 0 = 0
      ∧ is_allocated (set_allocated empty_space 0x1000) 0x1000 = false
      ∧ is_allocated page_one_marked 0x1000 = true
      ∧ is_allocated (set_free page_one_marked 0x1000) 0x1000 = true := by
  decide

/-- Claim C27, the code at the failing input.  The addresses `0x1000` and
`0x1000000` are 4 KiB aligned and in different pages.  On an empty bitmap
`is_allocated(0x1000000)` is false, and true after `set_allocated(0x1000)`;
with bit `0` of the word `0x200` set, `is_allocated(0x1000000)` is true, and
false after `set_free(0x1000)`. -/
theorem set_allocated_changes_other_page :
    0x1000 % 4096 = 0 ∧ 0x1000000 % 4096 = 0 ∧ 0x1000 / 4096 ≠ 0x1000000 / 4096
      ∧ is_allocated empty_space 0x1000000 = false
      ∧ is_allocated (set_allocated empty_space 0x1000) 0x1000000 = true
      ∧ is_allocated word_0x200_marked 0x1000000 = true
      ∧ is_allocated (set_free word_0x200_marked 0x1000) 0x1000000 = false := by
  decide

/-! ## The count of the scheduler tick -/

/-- Claim C24, amended.  For every `ms` and every frequency, the first write of
`set_next_scheduler_tick(ms)` puts into the 32-bit initial-count register the
product `ms * g_lapic_freq` reduced modulo `2 ^ 32` (the 64-bit product cut to
the `uint32_t` parameter of `lapic_write`); the value written is the product
itself if and only if the product is below `2 ^ 32`. -/
theorem set_next_scheduler_tick_count (s : ApicState) (ms : Nat) :
    (set_next_scheduler_tick s ms).log
        = s.log ++
          [hw_event.lapic_store XAPIC_TIMER_INIT_COUNT_OFFSET (ms * s.g_lapic_freq % 2 ^ 32),
           hw_event.lapic_store XAPIC_TIMER_DIVIDE_CONFIGURATION_OFFSET 0,
           hw_event.lapic_store XAPIC_LVT_TIMER_OFFSET 0x20]
      ∧ (ms * s.g_lapic_freq % 2 ^ 32 = ms * s.g_lapic_freq ↔ ms * s.g_lapic_freq < 2 ^ 32) := by
  constructor
  · have h : ms * s.g_lapic_freq % 2 ^ 64 % 2 ^ 32 = ms * s.g_lapic_freq % 2 ^ 32 :=
      Nat.mod_mod_of_dvd _ (by decide)
    simp only [set_next_scheduler_tick, lapic_write, record, lapic_lvt_timer_t.raw,
      List.append_assoc, List.cons_append, List.nil_append, h]
    rfl
  · constructor
    · intro h
      rw [← h]
      exact Nat.mod_lt _ (by decide)
    · exact Nat.mod_eq_of_lt

/-- A witness for claim C24: at `1000` counts per millisecond (`two_cpu_machine`)
a tick of `10` ms writes the count `10000`, the product. -/
theorem set_next_scheduler_tick_count_witness :
    (set_next_scheduler_tick two_cpu_machine 10).log.head?
        = some (hw_event.lapic_store XAPIC_TIMER_INIT_COUNT_OFFSET 10000)
      ∧ 10 * two_cpu_machine.g_lapic_freq % 2 ^ 32 = 10 * two_cpu_machine.g_lapic_freq :=
  ⟨by rw [(set_next_scheduler_tick_count two_cpu_machine 10).1]; rfl,
    (set_next_scheduler_tick_count two_cpu_machine 10).2.mpr (by decide)⟩

/-- The counterexample of claim C24: with the frequency `0x80000000`, a value
`init_lapic` can record, `set_next_scheduler_tick(2)` writes the count `0`,
which is not the product `2 * 0x80000000`. -/
theorem set_next_scheduler_tick_count_wraps :
    fast_timer_machine.g_lapic_freq ≤ 0xFFFFFFFF
      ∧ (set_next_scheduler_tick fast_timer_machine 2).log
          = [hw_event.lapic_store XAPIC_TIMER_INIT_COUNT_OFFSET 0,
             hw_event.lapic_store XAPIC_TIMER_DIVIDE_CONFIGURATION_OFFSET 0,
             hw_event.lapic_store XAPIC_LVT_TIMER_OFFSET 0x20]
      ∧ 2 * fast_timer_machine.g_lapic_freq ≠ 0 := by
  decide

/-! ## A running thread that is blocked -/

/-- Claim C25, the code at the failing input.  In `blocked_runner` the running
thread `0x100` has status `BLOCKED`.  The tick chooses the thread `0x200` and
succeeds; it leaves the thread `0x100` with status `READY`, and the next tick
chooses the thread `0x100`. -/
theorem scheduler_timer_unblocks_running_thread :
    (blocked_runner.thread 0x100).status = THREAD_STATUS_BLOCKED
      ∧ blocked_runner.running_thread = 0x100
      ∧ (choose_thread 2 blocked_runner).map Prod.fst = some 0x200
      ∧ (scheduler_timer 2 blocked_runner).map Prod.fst = some NO_ERROR
      ∧ ((outcome (scheduler_timer 2 blocked_runner) blocked_runner).thread 0x100).status
          = THREAD_STATUS_READY
      ∧ nth_choice 2 1 blocked_runner = some 0x100 := by
  decide

/-! ## The spin loops -/

/-- Claim C26, the code at the failing input.  On `held_lock_at_4`, whose flag is
set, `spinlock_acquire` and `spinlock_acquire_high_tpl` return at the first
test of the flag, the lock having now a second holder.  On `free_lock_at_4`,
whose flag is clear, the first test (which sets the flag) does not end the
loops: they end at the second test, which finds the flag set. -/
theorem spinlock_acquire_takes_held_lock :
    held_lock_at_4.lock.flag = true
      ∧ spinlock_acquire 1 held_lock_at_4
          = some { lock := { flag := true, owner_tpl := 4 }, tpl := 4 }
      ∧ spinlock_acquire_high_tpl 1 held_lock_at_4
          = some { lock := { flag := true, owner_tpl := 4 }, tpl := TPL_HIGH_LEVEL }
      ∧ free_lock_at_4.lock.flag = false
      ∧ spinlock_acquire 1 free_lock_at_4 = none
      ∧ spinlock_acquire_high_tpl 1 free_lock_at_4 = none
      ∧ (spinlock_acquire 2 free_lock_at_4).isSome = true
      ∧ (spinlock_acquire_high_tpl 2 free_lock_at_4).isSome = true := by
  decide

/-! ## kentry: the unit of the memory size -/

/-- What the loop computes for every available size: five tests of the condition
are enough; the number printed is the size divided by `1024 ^ div`, rounded
down; and `div` is `4`, one past the last element of `g_size_names`, exactly
when the size is `2 ^ 40` or more. -/
theorem kentry_size_unit_spec (available_size : Nat) :
    ∃ size div, kentry_size_unit 5 available_size = some (size, div)
      ∧ div ≤ 4
      ∧ size * 1024 ^ div ≤ available_size ∧ available_size < (size + 1) * 1024 ^ div
      ∧ (div = 4 ↔ 2 ^ 40 ≤ available_size) := by
  unfold kentry_size_unit
  by_cases h0 : available_size ≥ 1024
  · by_cases h1 : available_size / 1024 ≥ 1024
    · by_cases h2 : available_size / 1024 / 1024 ≥ 1024
      · by_cases h3 : available_size / 1024 / 1024 / 1024 ≥ 1024
        · refine ⟨available_size / 1024 / 1024 / 1024 / 1024, 4, ?_, ?_⟩
          · simp [kentry_size_loop, g_size_names_length, h0, h1, h2, h3]
          · norm_num
            omega
        · refine ⟨available_size / 1024 / 1024 / 1024, 3, ?_, ?_⟩
          · simp [kentry_size_loop, g_size_names_length, h0, h1, h2, h3]
          · norm_num
            omega
      · refine ⟨available_size / 1024 / 1024, 2, ?_, ?_⟩
        · simp [kentry_size_loop, g_size_names_length, h0, h1, h2]
        · norm_num
          omega
    · refine ⟨available_size / 1024, 1, ?_, ?_⟩
      · simp [kentry_size_loop, g_size_names_length, h0, h1]
      · norm_num
        omega
  · refine ⟨available_size, 0, ?_, ?_⟩
    · simp [kentry_size_loop, g_size_names_length, h0]
    · norm_num
      omega

/-- Claim C28, the code at the failing input.  For an available size of 1 TiB
(`2 ^ 40` bytes) the loop ends with `size = 1` and `div = 4`, which is not an
index of the four elements of `g_size_names`; for the largest size with a valid
index, `2 ^ 40 - 1`, it ends with `size = 1023` and `div = 3`. -/
theorem kentry_size_unit_out_of_range :
    kentry_size_unit 5 (2 ^ 40) = some (1, 4)
      ∧ ¬ (4 < g_size_names_length)
      ∧ kentry_size_unit 5 (2 ^ 40 - 1) = some (1023, 3) := by
  decide

/-! ## early_alloc -/

/-- The loop of `early_alloc` ends without a `return` exactly when no entry is
usable and long enough. -/
theorem early_alloc_loop_none (size : Nat) (m : List stivale2_mmap_entry_t) :
    early_alloc_loop size m = none
      ↔ ∀ e ∈ m, ¬ (e.type = STIVALE2_MMAP_TYPE_USABLE ∧ e.length ≥ size) := by
  induction m with
  | nil => simp [early_alloc_loop]
  | cons a rest ih =>
    unfold early_alloc_loop
    split_ifs with h
    · constructor
      · intro hc
        cases hc
      · intro hc
        exact absurd h (hc a (List.mem_cons_self _ _))
    · cases hr : early_alloc_loop size rest with
      | none =>
        simp only [true_iff]
        intro e he
        rcases List.mem_cons.mp he with rfl | hm
        · exact h
        · exact (ih.mp hr) e hm
      | some r =>
        obtain ⟨p, l⟩ := r
        constructor
        · intro hc
          cases hc
        · intro hc
          have := ih.mpr (fun e he => hc e (List.mem_cons_of_mem _ he))
          rw [hr] at this
          cases this

/-- When the loop of `early_alloc` returns, it has passed over entries that are
not usable or too short, and it has taken the chunk from the start of the first
entry that is usable and long enough; the other entries are as they were. -/
theorem early_alloc_loop_some (size : Nat) (m : List stivale2_mmap_entry_t) :
    ∀ p m', early_alloc_loop size m = some (p, m') →
      ∃ pre e post, m = pre ++ e :: post
        ∧ (∀ x ∈ pre, ¬ (x.type = STIVALE2_MMAP_TYPE_USABLE ∧ x.length ≥ size))
        ∧ (e.type = STIVALE2_MMAP_TYPE_USABLE ∧ e.length ≥ size)
        ∧ p = PHYS_TO_DIRECT e.base
        ∧ m' = pre ++ ⟨(e.base + size) % 2 ^ 64, e.length - size, e.type⟩ :: post := by
  induction m with
  | nil =>
    intro p m' h
    simp [early_alloc_loop] at h
  | cons a rest ih =>
    intro p m' h
    unfold early_alloc_loop at h
    split_ifs at h with hfit
    · simp only [Option.some.injEq, Prod.mk.injEq] at h
      obtain ⟨rfl, rfl⟩ := h
      exact ⟨[], a, rest, rfl, fun x hx => absurd hx (List.not_mem_nil x), hfit, rfl, rfl⟩
    · cases hr : early_alloc_loop size rest with
      | none =>
        rw [hr] at h
        cases h
      | some r =>
        obtain ⟨q, l⟩ := r
        rw [hr] at h
        simp only [Option.some.injEq, Prod.mk.injEq] at h
        obtain ⟨rfl, rfl⟩ := h
        obtain ⟨pre, e, post, h1, h2, h3, h4, h5⟩ := ih q l hr
        refine ⟨a :: pre, e, post, by rw [h1]; rfl, ?_, h3, h4, by rw [h5]; rfl⟩
        intro x hx
        rcases List.mem_cons.mp hx with rfl | hm
        · exact hfit
        · exact h2 x hm

/-- The first entry that is usable and long enough is the one the loop takes the
chunk from. -/
theorem early_alloc_loop_first_fit (size : Nat) (pre : List stivale2_mmap_entry_t)
    (e : stivale2_mmap_entry_t) (post : List stivale2_mmap_entry_t)
    (hpre : ∀ x ∈ pre, ¬ (x.type = STIVALE2_MMAP_TYPE_USABLE ∧ x.length ≥ size))
    (he : e.type = STIVALE2_MMAP_TYPE_USABLE ∧ e.length ≥ size) :
    early_alloc_loop size (pre ++ e :: post)
      = some (PHYS_TO_DIRECT e.base,
          pre ++ ⟨(e.base + size) % 2 ^ 64, e.length - size, e.type⟩ :: post) := by
  induction pre with
  | nil =>
    simp only [List.nil_append]
    unfold early_alloc_loop
    rw [if_pos he]
  | cons a rest ih =>
    simp only [List.cons_append]
    unfold early_alloc_loop
    rw [if_neg (hpre a (List.mem_cons_self _ _)),
      ih (fun x hx => hpre x (List.mem_cons_of_mem _ hx))]

/-- The two ways `early_alloc` ends: with `NULL` and the memory map as it was,
no entry being usable and long enough; or with the chunk at the start of the
first entry that is usable and long enough. -/
theorem early_alloc_cases (m : List stivale2_mmap_entry_t) (page_count : Nat)
    (hsize : page_count * PAGE_SIZE < 2 ^ 64) :
    ((∀ e ∈ m, ¬ (e.type = STIVALE2_MMAP_TYPE_USABLE ∧ e.length ≥ page_count * PAGE_SIZE))
        ∧ early_alloc m page_count = (0, m))
      ∨ ∃ pre e post, m = pre ++ e :: post
          ∧ (∀ x ∈ pre,
              ¬ (x.type = STIVALE2_MMAP_TYPE_USABLE ∧ x.length ≥ page_count * PAGE_SIZE))
          ∧ (e.type = STIVALE2_MMAP_TYPE_USABLE ∧ e.length ≥ page_count * PAGE_SIZE)
          ∧ early_alloc m page_count
              = (PHYS_TO_DIRECT e.base,
                  pre ++ ⟨(e.base + page_count * PAGE_SIZE) % 2 ^ 64,
                    e.length - page_count * PAGE_SIZE, e.type⟩ :: post) := by
  have hs : PAGES_TO_SIZE page_count = page_count * PAGE_SIZE := Nat.mod_eq_of_lt hsize
  unfold early_alloc
  rw [hs]
  dsimp only
  cases hr : early_alloc_loop (page_count * PAGE_SIZE) m with
  | none => exact Or.inl ⟨(early_alloc_loop_none _ _).mp hr, rfl⟩
  | some r =>
    obtain ⟨p, l⟩ := r
    obtain ⟨pre, e, post, h1, h2, h3, h4, h5⟩ := early_alloc_loop_some _ _ p l hr
    exact Or.inr ⟨pre, e, post, h1, h2, h3, by rw [h4, h5]⟩

/-- Claim C29, amended.  Take a memory map whose usable entries lie in the direct
window (the direct address of their end does not wrap) and a `page_count` whose
size in bytes fits a `size_t`.  If an entry is usable and has
`length >= page_count * PAGE_SIZE` and no entry before it is so, `early_alloc`
returns the direct address of its base and leaves the map with that entry's
base advanced and its length shrunk by `page_count * PAGE_SIZE`, so that its
`base + length` is the same, and with every other entry as it was.
`early_alloc` returns `NULL` if and only if no entry is usable and long enough,
and then the map is as it was.  When the usable entries of the map do not
overlap, the ranges two successive successful calls return do not overlap. -/
theorem early_alloc_first_fit (memmap : List stivale2_mmap_entry_t) (page_count : Nat)
    (hsize : page_count * PAGE_SIZE < 2 ^ 64)
    (hwin : ∀ e ∈ memmap, e.type = STIVALE2_MMAP_TYPE_USABLE →
      e.base + e.length + DIRECT_MAPPING_BASE < 2 ^ 64) :
    (∀ pre e post, memmap = pre ++ e :: post →
        (∀ x ∈ pre,
          ¬ (x.type = STIVALE2_MMAP_TYPE_USABLE ∧ x.length ≥ page_count * PAGE_SIZE)) →
        (e.type = STIVALE2_MMAP_TYPE_USABLE ∧ e.length ≥ page_count * PAGE_SIZE) →
        early_alloc memmap page_count
            = (e.base + DIRECT_MAPPING_BASE,
                pre ++ ⟨e.base + page_count * PAGE_SIZE, e.length - page_count * PAGE_SIZE,
                  e.type⟩ :: post)
          ∧ (e.base + page_count * PAGE_SIZE) + (e.length - page_count * PAGE_SIZE)
              = e.base + e.length)
      ∧ ((early_alloc memmap page_count).1 = 0
          ↔ ∀ e ∈ memmap,
              ¬ (e.type = STIVALE2_MMAP_TYPE_USABLE ∧ e.length ≥ page_count * PAGE_SIZE))
      ∧ ((early_alloc memmap page_count).1 = 0 → (early_alloc memmap page_count).2 = memmap)
      ∧ (List.Pairwise (fun a b => a.type = STIVALE2_MMAP_TYPE_USABLE →
            b.type = STIVALE2_MMAP_TYPE_USABLE →
            a.base + a.length ≤ b.base ∨ b.base + b.length ≤ a.base) memmap →
          ∀ page_count2, page_count2 * PAGE_SIZE < 2 ^ 64 →
            (early_alloc memmap page_count).1 ≠ 0 →
            (early_alloc (early_alloc memmap page_count).2 page_count2).1 ≠ 0 →
            (early_alloc memmap page_count).1 + page_count * PAGE_SIZE
                ≤ (early_alloc (early_alloc memmap page_count).2 page_count2).1
              ∨ (early_alloc (early_alloc memmap page_count).2 page_count2).1
                  + page_count2 * PAGE_SIZE ≤ (early_alloc memmap page_count).1) := by
  have hD : DIRECT_MAPPING_BASE = 0xFFFF800000000000 := rfl
  have hdirect : ∀ e ∈ memmap, e.type = STIVALE2_MMAP_TYPE_USABLE →
      PHYS_TO_DIRECT e.base = e.base + DIRECT_MAPPING_BASE := by
    intro e he hu
    have := hwin e he hu
    unfold PHYS_TO_DIRECT
    exact Nat.mod_eq_of_lt (by omega)
  refine ⟨?_, ?_, ?_, ?_⟩
  · intro pre e post hm hpre he
    have hmem : e ∈ memmap := by
      rw [hm]
      exact List.mem_append_right _ (List.mem_cons_self _ _)
    have hw := hwin e hmem he.1
    have hb : (e.base + page_count * PAGE_SIZE) % 2 ^ 64 = e.base + page_count * PAGE_SIZE :=
      Nat.mod_eq_of_lt (by omega)
    refine ⟨?_, by omega⟩
    have hs : PAGES_TO_SIZE page_count = page_count * PAGE_SIZE := Nat.mod_eq_of_lt hsize
    unfold early_alloc
    rw [hs]
    dsimp only
    rw [hm, early_alloc_loop_first_fit _ pre e post hpre he, hb, ← hm, hdirect e hmem he.1]
  · rcases early_alloc_cases memmap page_count hsize with ⟨h1, h2⟩ | ⟨pre, e, post, h1, h2, h3, h4⟩
    · rw [h2]
      exact ⟨fun _ => h1, fun _ => rfl⟩
    · have hmem : e ∈ memmap := by
        rw [h1]
        exact List.mem_append_right _ (List.mem_cons_self _ _)
      rw [h4, hdirect e hmem h3.1]
      constructor
      · intro hc
        dsimp only at hc
        omega
      · intro hc
        exact absurd h3 (hc e hmem)
  · rcases early_alloc_cases memmap page_count hsize with ⟨h1, h2⟩ | ⟨pre, e, post, h1, h2, h3, h4⟩
    · intro _
      rw [h2]
    · have hmem : e ∈ memmap := by
        rw [h1]
        exact List.mem_append_right _ (List.mem_cons_self _ _)
      rw [h4, hdirect e hmem h3.1]
      intro hc
      dsimp only at hc
      omega
  · intro hpw page_count2 hsize2 hne1 hne2
    rcases early_alloc_cases memmap page_count hsize with ⟨h1, h2⟩ | ⟨pre, e, post, h1, h2, h3, h4⟩
    · rw [h2] at hne1
      exact absurd rfl hne1
    have hmem : e ∈ memmap := by
      rw [h1]
      exact List.mem_append_right _ (List.mem_cons_self _ _)
    have hw := hwin e hmem h3.1
    have hb : (e.base + page_count * PAGE_SIZE) % 2 ^ 64 = e.base + page_count * PAGE_SIZE :=
      Nat.mod_eq_of_lt (by omega)
    rw [h4, hb, hdirect e hmem h3.1] at hne2 ⊢
    dsimp only at hne2 ⊢
    rcases early_alloc_cases
        (pre ++ ⟨e.base + page_count * PAGE_SIZE, e.length - page_count * PAGE_SIZE, e.type⟩
          :: post) page_count2 hsize2 with ⟨g1, g2⟩ | ⟨pre2, f, post2, g1, g2, g3, g4⟩
    · rw [g2] at hne2
      exact absurd rfl hne2
    rw [g4]
    dsimp only
    have hf : f ∈ pre ++ (⟨e.base + page_count * PAGE_SIZE, e.length - page_count * PAGE_SIZE,
        e.type⟩ : stivale2_mmap_entry_t) :: post := by
      rw [g1]
      exact List.mem_append_right _ (List.mem_cons_self _ _)
    rw [h1] at hpw
    obtain ⟨_, hpost, hcross⟩ := List.pairwise_append.mp hpw
    obtain ⟨hepost, _⟩ := List.pairwise_cons.mp hpost
    rcases List.mem_append.mp hf with hin | hin
    · have hfm : f ∈ memmap := by
        rw [h1]
        exact List.mem_append_left _ hin
      have hfw := hwin f hfm g3.1
      have hd := hcross f hin e (List.mem_cons_self _ _) g3.1 h3.1
      rw [hdirect f hfm g3.1]
      omega
    · rcases List.mem_cons.mp hin with rfl | hin
      · unfold PHYS_TO_DIRECT
        dsimp only
        rw [Nat.mod_eq_of_lt (by omega)]
        omega
      · have hfm : f ∈ memmap := by
          rw [h1]
          exact List.mem_append_right _ (List.mem_cons_of_mem _ hin)
        have hfw := hwin f hfm g3.1
        have hd := hepost f hin h3.1 g3.1
        rw [hdirect f hfm g3.1]
        omega

/-- A witness for claim C29: on `sample_memmap` a request for 4 pages passes over
the first usable entry (2 pages) and the reserved entry and takes the chunk at
`0x100000`; a request for one page after it returns a range that does not
overlap the first. -/
theorem early_alloc_first_fit_witness :
    early_alloc sample_memmap 4
        = (0xFFFF800000100000,
            [⟨0x1000, 0x2000, 1⟩, ⟨0xA0000, 0x60000, 2⟩, ⟨0x104000, 0xC000, 1⟩,
             ⟨0x1000000, 0x100000, 1⟩])
      ∧ ((early_alloc sample_memmap 4).1 + 4 * PAGE_SIZE
            ≤ (early_alloc (early_alloc sample_memmap 4).2 1).1
          ∨ (early_alloc (early_alloc sample_memmap 4).2 1).1 + 1 * PAGE_SIZE
            ≤ (early_alloc sample_memmap 4).1) :=
  ⟨((early_alloc_first_fit sample_memmap 4 (by decide) (by decide)).1
      [⟨0x1000, 0x2000, 1⟩, ⟨0xA0000, 0x60000, 2⟩] ⟨0x100000, 0x10000, 1⟩
      [⟨0x1000000, 0x100000, 1⟩] rfl (by decide) (by decide)).1.trans (by decide),
    (early_alloc_first_fit sample_memmap 4 (by decide) (by decide)).2.2.2 (by decide) 1
      (by decide) (by decide) (by decide)⟩

/-- The counterexample of claim C29.  A request for `2 ^ 52` pages has a size of
`2 ^ 64` bytes, which is `0` as a `size_t`: on a map with one usable entry of
two pages `early_alloc` returns a pointer, although no entry is that long.  For
a usable entry at the physical address `2 ^ 47` the direct address wraps to `0`:
`early_alloc` returns `NULL` although the entry is usable and long enough, and it
has advanced the entry.  And on a map with two usable entries that describe the
same page, two successive calls for one page both succeed and return the same
range. -/
theorem early_alloc_wraps_and_overlaps :
    ((early_alloc [⟨0x1000, 0x2000, STIVALE2_MMAP_TYPE_USABLE⟩] (2 ^ 52)).1 ≠ 0
        ∧ ∀ e ∈ [(⟨0x1000, 0x2000, STIVALE2_MMAP_TYPE_USABLE⟩ : stivale2_mmap_entry_t)],
            ¬ (e.type = STIVALE2_MMAP_TYPE_USABLE ∧ e.length ≥ 2 ^ 52 * PAGE_SIZE))
      ∧ (early_alloc [⟨2 ^ 47, 0x2000, STIVALE2_MMAP_TYPE_USABLE⟩] 1
            = (0, [⟨2 ^ 47 + 0x1000, 0x1000, STIVALE2_MMAP_TYPE_USABLE⟩])
          ∧ ∃ e ∈ [(⟨2 ^ 47, 0x2000, STIVALE2_MMAP_TYPE_USABLE⟩ : stivale2_mmap_entry_t)],
              e.type = STIVALE2_MMAP_TYPE_USABLE ∧ e.length ≥ 1 * PAGE_SIZE)
      ∧ ((early_alloc [⟨0x1000, 0x1000, STIVALE2_MMAP_TYPE_USABLE⟩,
              ⟨0x1000, 0x1000, STIVALE2_MMAP_TYPE_USABLE⟩] 1).1 = 0xFFFF800000001000
          ∧ (early_alloc (early_alloc [⟨0x1000, 0x1000, STIVALE2_MMAP_TYPE_USABLE⟩,
              ⟨0x1000, 0x1000, STIVALE2_MMAP_TYPE_USABLE⟩] 1).2 1).1 = 0xFFFF800000001000) := by
  decide

/-! ## The alignment macros -/

/-- The mask `~((a) - 1)` of `ALIGN_DOWN` for `a = 2 ^ k` of a type of `w` bits:
the bits `k` to `w - 1`. -/
theorem ALIGN_DOWN_mask (w k : Nat) (hk : k < w) :
    2 ^ w - 1 - (2 ^ k + 2 ^ w - 1) % 2 ^ w = 2 ^ k * (2 ^ (w - k) - 1) := by
  have h1 : 0 < 2 ^ k := Nat.two_pow_pos k
  have h2 : 2 ^ k < 2 ^ w := Nat.pow_lt_pow_right (by decide) hk
  have h3 : 2 ^ w = 2 ^ k * 2 ^ (w - k) := by
    rw [← Nat.pow_add]
    congr 1
    omega
  have h4 : (2 ^ k + 2 ^ w - 1) % 2 ^ w = 2 ^ k - 1 := by
    have : 2 ^ k + 2 ^ w - 1 = (2 ^ k - 1) + 2 ^ w := by omega
    rw [this, Nat.add_mod_right, Nat.mod_eq_of_lt (by omega)]
  rw [h4, Nat.mul_sub, Nat.mul_one, ← h3]
  omega

/-- What `ALIGN_DOWN(n, a)` computes for `a = 2 ^ k` of a type of `w` bits and
any `n`: the bits of `n` above the bit `w - 1` are dropped, and what is left is
rounded down to a multiple of `a`. -/
theorem ALIGN_DOWN_pow2 (w k n : Nat) (hk : k < w) :
    ALIGN_DOWN w n (2 ^ k) = 2 ^ k * (n % 2 ^ w / 2 ^ k) := by
  unfold ALIGN_DOWN
  rw [ALIGN_DOWN_mask w k hk]
  apply Nat.eq_of_testBit_eq
  intro i
  rw [Nat.testBit_and, Nat.testBit_mul_pow_two, Nat.testBit_mul_pow_two,
    Nat.testBit_two_pow_sub_one, ← Nat.shiftRight_eq_div_pow, Nat.testBit_shiftRight,
    Nat.testBit_mod_two_pow]
  by_cases h1 : i ≥ k
  · have h2 : k + (i - k) = i := by omega
    rw [h2]
    by_cases h3 : i < w
    · have h4 : i - k < w - k := by omega
      simp [h1, h3, h4]
    · have h4 : ¬ (i - k < w - k) := by omega
      simp [h1, h3, h4]
  · simp [h1]

/-- With `n` and `a = 2 ^ k` of the same type of `w` bits and `n + a - 1` not
overflowing, `ALIGN_DOWN(n, a)` is `n` rounded down to a multiple of `a` and
`ALIGN_UP(n, a)` is `n` rounded up to a multiple of `a`. -/
theorem ALIGN_same_width (w k n : Nat) (hk : k < w) (hn : n + 2 ^ k - 1 < 2 ^ w) :
    ALIGN_DOWN w n (2 ^ k) = 2 ^ k * (n / 2 ^ k)
      ∧ ALIGN_UP w w n (2 ^ k) = 2 ^ k * ((n + 2 ^ k - 1) / 2 ^ k) := by
  have h1 : 0 < 2 ^ k := Nat.two_pow_pos k
  constructor
  · rw [ALIGN_DOWN_pow2 w k n hk, Nat.mod_eq_of_lt (by omega)]
  · unfold ALIGN_UP
    have h2 : (n + 2 ^ k + 2 ^ w - 1) % 2 ^ w = n + 2 ^ k - 1 := by
      have : n + 2 ^ k + 2 ^ w - 1 = (n + 2 ^ k - 1) + 2 ^ w := by omega
      rw [this, Nat.add_mod_right, Nat.mod_eq_of_lt hn]
    rw [h2, ALIGN_DOWN_pow2 w k _ hk, Nat.mod_eq_of_lt hn]

/-- Claim C30, the code at the failing input.  `4096` is a power of two for
`IS_POW2`.  With `a = 4096u`, an `unsigned int`, and `n` a 64-bit address at or
above 4 GiB, as in `is_allocated`: `ALIGN_DOWN(0x100000000, 4096u)` is `0` and
`ALIGN_DOWN(0x100001234, 4096u)` is `0x1000`, not the largest multiple of `4096`
below the address; `ALIGN_UP(0x100000001, 4096u)` is `0x1000`, which is below
the address; and `is_allocated(0x100000000)` reads the bit of page `0`. -/
theorem ALIGN_DOWN_drops_high_bits :
    IS_POW2 4096 = true
      ∧ ALIGN_DOWN 32 0x100000000 4096 = 0
      ∧ ALIGN_DOWN 32 0x100001234 4096 = 0x1000
      ∧ ALIGN_UP 32 64 0x100000001 4096 = 0x1000
      ∧ is_allocated empty_space 0x100000000 = false
      ∧ is_allocated page_zero_marked 0x100000000 = true := by
  decide

/-! ## Intermediate entries -/

theorem user_and_read_write : PAGING_USER_SUPREVISOR_BIT &&& PAGING_READ_WRITE_BIT = 0 := by
  decide

theorem read_write_and_user : PAGING_READ_WRITE_BIT &&& PAGING_USER_SUPREVISOR_BIT = 0 := by
  decide

theorem clear_nx_and_read_write :
    (2 ^ 64 - 1 - PAGING_NO_EXECUTE_BIT) &&& PAGING_READ_WRITE_BIT = PAGING_READ_WRITE_BIT := by
  decide

theorem clear_nx_and_user :
    (2 ^ 64 - 1 - PAGING_NO_EXECUTE_BIT) &&& PAGING_USER_SUPREVISOR_BIT
      = PAGING_USER_SUPREVISOR_BIT := by
  decide

/-- A bit that has been set is set. -/
theorem or_and_self (x b : Nat) : (x ||| b) &&& b = b := by
  apply Nat.eq_of_testBit_eq
  intro i
  rw [Nat.testBit_and, Nat.testBit_or]
  cases Nat.testBit x i <;> cases Nat.testBit b i <;> rfl

/-- After `set_attributes` the WRITE bit of an entry is set exactly when it was
set before or `write` is asked for. -/
theorem set_attributes_word_read_write (e : Nat) (attrs : page_attributes_t) :
    set_attributes_word e attrs &&& PAGING_READ_WRITE_BIT ≠ 0
      ↔ (e &&& PAGING_READ_WRITE_BIT ≠ 0 ∨ attrs.write = true) := by
  have step2 : ∀ (x : Nat) (c : Prop) [Decidable c],
      (if c then x ||| PAGING_USER_SUPREVISOR_BIT else x) &&& PAGING_READ_WRITE_BIT
        = x &&& PAGING_READ_WRITE_BIT := by
    intro x c _
    split_ifs
    · exact or_and_of_disjoint _ _ _ user_and_read_write
    · rfl
  have step3 : ∀ (x : Nat) (c : Prop) [Decidable c],
      (if c then x &&& (2 ^ 64 - 1 - PAGING_NO_EXECUTE_BIT) else x) &&& PAGING_READ_WRITE_BIT
        = x &&& PAGING_READ_WRITE_BIT := by
    intro x c _
    split_ifs
    · exact and_and_of_cover _ _ _ clear_nx_and_read_write
    · rfl
  unfold set_attributes_word
  dsimp only
  rw [step3, step2]
  have hne : PAGING_READ_WRITE_BIT ≠ 0 := by decide
  split_ifs with h
  · rw [or_and_self]
    exact ⟨fun _ => Or.inr h.2, fun _ => hne⟩
  · constructor
    · exact fun hx => Or.inl hx
    · rintro (hx | hx)
      · exact hx
      · by_contra hc
        exact h ⟨hc, hx⟩

/-- After `set_attributes` the USER bit of an entry is set exactly when it was
set before or `user` is asked for. -/
theorem set_attributes_word_user (e : Nat) (attrs : page_attributes_t) :
    set_attributes_word e attrs &&& PAGING_USER_SUPREVISOR_BIT ≠ 0
      ↔ (e &&& PAGING_USER_SUPREVISOR_BIT ≠ 0 ∨ attrs.user = true) := by
  have step1 : ∀ (x : Nat) (c : Prop) [Decidable c],
      (if c then x ||| PAGING_READ_WRITE_BIT else x) &&& PAGING_USER_SUPREVISOR_BIT
        = x &&& PAGING_USER_SUPREVISOR_BIT := by
    intro x c _
    split_ifs
    · exact or_and_of_disjoint _ _ _ read_write_and_user
    · rfl
  have step3 : ∀ (x : Nat) (c : Prop) [Decidable c],
      (if c then x &&& (2 ^ 64 - 1 - PAGING_NO_EXECUTE_BIT) else x) &&& PAGING_USER_SUPREVISOR_BIT
        = x &&& PAGING_USER_SUPREVISOR_BIT := by
    intro x c _
    split_ifs
    · exact and_and_of_cover _ _ _ clear_nx_and_user
    · rfl
  have hne : PAGING_USER_SUPREVISOR_BIT ≠ 0 := by decide
  have key : ∀ e1 : Nat, e1 &&& PAGING_USER_SUPREVISOR_BIT = e &&& PAGING_USER_SUPREVISOR_BIT →
      ((if e1 &&& PAGING_USER_SUPREVISOR_BIT = 0 ∧ attrs.user = true then
          e1 ||| PAGING_USER_SUPREVISOR_BIT else e1) &&& PAGING_USER_SUPREVISOR_BIT ≠ 0
        ↔ (e &&& PAGING_USER_SUPREVISOR_BIT ≠ 0 ∨ attrs.user = true)) := by
    intro e1 h1
    split_ifs with h
    · rw [or_and_self]
      exact ⟨fun _ => Or.inr h.2, fun _ => hne⟩
    · rw [h1] at h ⊢
      constructor
      · exact fun hx => Or.inl hx
      · rintro (hx | hx)
        · exact hx
        · by_contra hc
          exact h ⟨hc, hx⟩
  unfold set_attributes_word
  dsimp only
  rw [step3]
  exact key _ (step1 _ _)

theorem entry_grows_refl (e : Nat) : entry_grows e e := ⟨rfl, rfl, id, id⟩

theorem entry_grows_trans {e1 e2 e3 : Nat} (h1 : entry_grows e1 e2) (h2 : entry_grows e2 e3) :
    entry_grows e1 e3 :=
  ⟨h2.1.trans h1.1, h2.2.1.trans h1.2.1, fun h => h2.2.2.1 (h1.2.2.1 h),
    fun h => h2.2.2.2 (h1.2.2.2 h)⟩

theorem entry_grows_set_attributes_word (e : Nat) (attrs : page_attributes_t) :
    entry_grows e (set_attributes_word e attrs) :=
  ⟨set_attributes_word_mask e attrs, set_attributes_word_present e attrs,
    fun h => (set_attributes_word_read_write e attrs).mpr (Or.inl h),
    fun h => (set_attributes_word_user e attrs).mpr (Or.inl h)⟩

theorem links_table_of_grows {e e' : Nat} (h : entry_grows e e') (hl : links_table e) :
    links_table e' := by
  obtain ⟨h1, h2, _⟩ := h
  unfold links_table
  rw [h1, h2]
  exact hl

theorem no_execute_and_present : PAGING_NO_EXECUTE_BIT &&& PAGING_PRESENT_BIT = 0 := by decide

/-- The entry `map_to_free_page` writes is present. -/
theorem map_to_free_page_present (s : VmmState) (p : Nat) :
    (map_to_free_page s p).free_page_pte &&& PAGING_PRESENT_BIT ≠ 0 := by
  simp only [map_to_free_page]
  rw [or_and_of_disjoint _ _ _ no_execute_and_present,
    or_and_of_disjoint _ _ _ read_write_and_present, or_and_self]
  decide

/-- For an entry that links a table `get_page` returns its frame address, which
is not `NULL`. -/
theorem get_page_of_links (s : VmmState) (t : TablePtr) (i : Nat)
    (h : links_table (load s t i)) :
    get_page s t i = load s t i &&& PAGING_4KB_ADDR_MASK ∧ get_page s t i ≠ 0 := by
  unfold get_page
  rw [if_pos h.1]
  exact ⟨rfl, h.2⟩

/-- The three statements that set an entry of a table (the frame, the present
bit, `set_attributes`) replace that entry and touch nothing else. -/
theorem write_entry_updates (s : VmmState) (t : TablePtr) (idx v : Nat)
    (attrs : page_attributes_t) :
    updates_word s
      (set_attributes
        (store (store s t idx v) t idx (load (store s t idx v) t idx ||| PAGING_PRESENT_BIT))
        t idx attrs)
      (t.resolve s + 8 * idx) (fun _ => set_attributes_word (v ||| PAGING_PRESENT_BIT) attrs) := by
  cases t with
  | direct pt => exact write_leaf_updates s pt idx v attrs
  | free_page =>
    obtain ⟨h1, h2, h3, h4, h5, h6, h7⟩ := set_attributes_updates
      (store (store s .free_page idx v) .free_page idx
        (load (store s .free_page idx v) .free_page idx ||| PAGING_PRESENT_BIT))
      .free_page idx attrs
    have e5 : (store (store s .free_page idx v) .free_page idx
        (load (store s .free_page idx v) .free_page idx ||| PAGING_PRESENT_BIT)).mem
          ((s.free_page_pte &&& PAGING_4KB_ADDR_MASK) + 8 * idx) = v ||| PAGING_PRESENT_BIT := by
      simp only [store, load, TablePtr.resolve, if_true]
    have e6 : ∀ a, a ≠ (s.free_page_pte &&& PAGING_4KB_ADDR_MASK) + 8 * idx →
        (store (store s .free_page idx v) .free_page idx
          (load (store s .free_page idx v) .free_page idx ||| PAGING_PRESENT_BIT)).mem a
          = s.mem a := by
      intro a ha
      simp only [store, load, TablePtr.resolve, if_neg ha]
    refine ⟨?_, fun a ha => ?_, h3, h4, h5, h6, h7⟩
    · exact h1.trans (congrArg (fun e => set_attributes_word e attrs) e5)
    · exact (h2 a ha).trans (e6 a ha)

/-- A word that lies in no frame the physical memory manager may hand out lies
in none when the free list has lost frames. -/
theorem in_free_frame_mono {s s' : VmmState} {a : Nat}
    (hsub : ∀ f ∈ s'.pmm_free_frames, f ∈ s.pmm_free_frames) (h : in_free_frame s' a) :
    in_free_frame s a := by
  obtain ⟨f, hf, hr⟩ := h
  refine ⟨f, ?_, hr⟩
  rcases List.mem_cons.mp hf with rfl | hm
  · exact List.mem_cons_self _ _
  · exact List.mem_cons_of_mem _ (hsub f hm)

/-- One level of `get_or_create_page_table`, whether the entry is found or
created: a word that links a table and lies in no frame the physical memory
manager may hand out keeps its frame address and its present bit and loses
neither WRITE nor USER; the free list gains no frame. -/
theorem get_or_create_page_keeps (s : VmmState) (p i : Nat) (attrs : page_attributes_t)
    (a : Nat) (hl : links_table (s.mem a)) (hf : ¬ in_free_frame s a) :
    entry_grows (s.mem a)
        ((get_or_create_page (map_to_free_page s p) .free_page i attrs).2.mem a)
      ∧ ∀ f ∈ (get_or_create_page (map_to_free_page s p) .free_page i attrs).2.pmm_free_frames,
          f ∈ s.pmm_free_frames := by
  by_cases hg : get_page (map_to_free_page s p) .free_page i = 0
  · -- the entry is created
    have haA : a ≠ (p &&& PAGING_4KB_ADDR_MASK) + 8 * i := by
      intro hc
      rw [get_page_free_page_map] at hg
      unfold entry_target at hg
      rw [← hc, if_pos hl.1] at hg
      exact hl.2 hg
    unfold get_or_create_page
    dsimp only
    rw [if_neg (not_not.mpr hg)]
    have hpa : (pmm_allocate (map_to_free_page s p)).1 ∈ 0 :: s.pmm_free_frames
        ∧ (pmm_allocate (map_to_free_page s p)).2.mem = s.mem
        ∧ (pmm_allocate (map_to_free_page s p)).2.free_page_pte
            = (map_to_free_page s p).free_page_pte
        ∧ ∀ g ∈ (pmm_allocate (map_to_free_page s p)).2.pmm_free_frames,
            g ∈ s.pmm_free_frames := by
      unfold pmm_allocate
      rw [map_to_free_page_pmm]
      cases hfr : s.pmm_free_frames with
      | nil => exact ⟨List.mem_cons_self _ _, rfl, rfl, fun g hg => by rw [map_to_free_page_pmm, hfr] at hg; exact hg⟩
      | cons f rest =>
        exact ⟨List.mem_cons_of_mem _ (List.mem_cons_self _ _), rfl, rfl,
          fun g hg => List.mem_cons_of_mem _ hg⟩
    generalize pmm_allocate (map_to_free_page s p) = pa at hpa
    obtain ⟨f, s2⟩ := pa
    obtain ⟨hfm, hm2, hpte2, hsub2⟩ := hpa
    dsimp only at hfm hm2 hpte2 hsub2 ⊢
    have hr1 : ¬ (f ≤ a ∧ a < f + 4096) := fun h => hf ⟨f, hfm, Or.inl h⟩
    have hr2 : ¬ (f &&& PAGING_4KB_ADDR_MASK ≤ a ∧ a < (f &&& PAGING_4KB_ADDR_MASK) + 4096) :=
      fun h => hf ⟨f, hfm, Or.inr h⟩
    have key : ∀ s3 : VmmState, s3.mem a = s.mem a →
        s3.free_page_pte &&& PAGING_4KB_ADDR_MASK = p &&& PAGING_4KB_ADDR_MASK →
        (∀ g ∈ s3.pmm_free_frames, g ∈ s.pmm_free_frames) →
        entry_grows (s.mem a)
            ((set_attributes
              (store (store (set_allocated s3 f) .free_page i (f &&& PAGING_4KB_ADDR_MASK))
                .free_page i
                (load (store (set_allocated s3 f) .free_page i (f &&& PAGING_4KB_ADDR_MASK))
                  .free_page i ||| PAGING_PRESENT_BIT))
              .free_page i attrs).mem a)
          ∧ ∀ g ∈ (set_attributes
              (store (store (set_allocated s3 f) .free_page i (f &&& PAGING_4KB_ADDR_MASK))
                .free_page i
                (load (store (set_allocated s3 f) .free_page i (f &&& PAGING_4KB_ADDR_MASK))
                  .free_page i ||| PAGING_PRESENT_BIT))
              .free_page i attrs).pmm_free_frames, g ∈ s.pmm_free_frames := by
      intro s3 hm3 hp3 hsub3
      obtain ⟨_, h2, _, _, h5, _, _⟩ := write_entry_updates (set_allocated s3 f) .free_page i
        (f &&& PAGING_4KB_ADDR_MASK) attrs
      have hres : TablePtr.free_page.resolve (set_allocated s3 f)
          = p &&& PAGING_4KB_ADDR_MASK := hp3
      rw [hres] at h2
      refine ⟨?_, fun g hg => ?_⟩
      · rw [h2 a haA]
        show entry_grows (s.mem a) (s3.mem a)
        rw [hm3]
        exact entry_grows_refl _
      · rw [h5] at hg
        exact hsub3 g hg
    apply key
    · split_ifs
      · show (if f ≤ a ∧ a < f + 4096 then 0 else s2.mem a) = s.mem a
        rw [if_neg hr1, hm2]
      · show (if (map_to_free_page s2 f).free_page_pte &&& PAGING_4KB_ADDR_MASK ≤ a
            ∧ a < ((map_to_free_page s2 f).free_page_pte &&& PAGING_4KB_ADDR_MASK) + 4096
            then 0 else s2.mem a) = s.mem a
        rw [map_to_free_page_frame, if_neg hr2, hm2]
    · split_ifs
      · show s2.free_page_pte &&& PAGING_4KB_ADDR_MASK = _
        rw [hpte2, map_to_free_page_frame]
      · rw [map_to_free_page_frame]
        unfold get_free_page_physical
        rw [hpte2, if_pos (map_to_free_page_present s p), mask_idem, map_to_free_page_frame]
    · split_ifs
      · exact hsub2
      · exact hsub2
  · -- the entry is found
    rw [get_or_create_page_present _ _ _ _ hg]
    obtain ⟨h1, h2, _, _, h5, _, _⟩ :=
      set_attributes_updates (map_to_free_page s p) .free_page i attrs
    dsimp only
    refine ⟨?_, fun f hfm => ?_⟩
    · by_cases ha : a = TablePtr.free_page.resolve (map_to_free_page s p) + 8 * i
      · rw [ha, h1]
        exact entry_grows_set_attributes_word _ _
      · rw [h2 a ha]
        exact entry_grows_refl _
    · rw [h5] at hfm
      exact hfm

/-- The walk of `get_or_create_page_table`, whatever it finds or creates: a word
that links a table and lies in no frame the physical memory manager may hand
out keeps its frame address and its present bit and loses neither WRITE nor
USER; the free list gains no frame. -/
theorem get_or_create_page_table_keeps (s : VmmState) (address_space v : Nat)
    (attrs : page_attributes_t) (a : Nat) (hl : links_table (s.mem a))
    (hf : ¬ in_free_frame s a) :
    entry_grows (s.mem a) ((get_or_create_page_table s address_space v attrs).2.mem a)
      ∧ ∀ f ∈ (get_or_create_page_table s address_space v attrs).2.pmm_free_frames,
          f ∈ s.pmm_free_frames := by
  unfold get_or_create_page_table
  dsimp only
  obtain ⟨g1, u1⟩ := get_or_create_page_keeps s address_space (PAGING_PML4_OFFSET v) attrs a hl hf
  generalize get_or_create_page (map_to_free_page s address_space) .free_page
    (PAGING_PML4_OFFSET v) attrs = r1 at g1 u1
  obtain ⟨pdp, s1⟩ := r1
  dsimp only at g1 u1 ⊢
  obtain ⟨g2, u2⟩ := get_or_create_page_keeps s1 pdp (PAGING_PDPE_OFFSET v) attrs a
    (links_table_of_grows g1 hl) (fun h => hf (in_free_frame_mono u1 h))
  generalize get_or_create_page (map_to_free_page s1 pdp) .free_page
    (PAGING_PDPE_OFFSET v) attrs = r2 at g2 u2
  obtain ⟨pd, s2⟩ := r2
  dsimp only at g2 u2 ⊢
  have hl2 := links_table_of_grows g2 (links_table_of_grows g1 hl)
  have hu2 : ∀ f ∈ s2.pmm_free_frames, f ∈ s.pmm_free_frames := fun f hfm => u1 f (u2 f hfm)
  obtain ⟨g3, u3⟩ := get_or_create_page_keeps s2 pd (PAGING_PDE_OFFSET v) attrs a hl2
    (fun h => hf (in_free_frame_mono hu2 h))
  exact ⟨entry_grows_trans (entry_grows_trans g1 g2) g3, fun f hfm => hu2 f (u3 f hfm)⟩

/-- After the walk `vmm_allocate` writes no word of memory but the leaf entry. -/
theorem vmm_allocate_mem (s : VmmState) (address_space va : Nat) (attrs : page_attributes_t) :
    ∀ a, a ≠ (get_or_create_page_table s address_space (PAGING_PDE_OFFSET va) attrs).1
          + 8 * PAGING_PTE_OFFSET va →
      (vmm_allocate s address_space va attrs).mem a
        = (get_or_create_page_table s address_space (PAGING_PDE_OFFSET va) attrs).2.mem a := by
  intro a ha
  unfold vmm_allocate
  generalize get_or_create_page_table s address_space (PAGING_PDE_OFFSET va) attrs = r at ha
  obtain ⟨pt, s1⟩ := r
  dsimp only at ha ⊢
  generalize hs3 : (if get_page (map_to_free_page s1 pt) .free_page (PAGING_PTE_OFFSET va) ≠ 0
      ∧ is_allocated (map_to_free_page s1 pt)
          (get_page (map_to_free_page s1 pt) .free_page (PAGING_PTE_OFFSET va)) = true then
      set_free (pmm_free (map_to_free_page s1 pt)
          (get_page (map_to_free_page s1 pt) .free_page (PAGING_PTE_OFFSET va)))
        (get_page (map_to_free_page s1 pt) .free_page (PAGING_PTE_OFFSET va))
      else map_to_free_page s1 pt) = s3
  have hmem3 : s3.mem = s1.mem := by
    rw [← hs3]
    split_ifs <;> rfl
  have hpa : (pmm_allocate s3).2.mem = s3.mem := by
    unfold pmm_allocate
    cases s3.pmm_free_frames <;> rfl
  generalize pmm_allocate s3 = pa at hpa
  obtain ⟨frame, s4⟩ := pa
  dsimp only at hpa ⊢
  obtain ⟨_, h2, _⟩ := write_leaf_updates s4 pt (PAGING_PTE_OFFSET va)
    (frame &&& PAGING_4KB_ADDR_MASK) attrs
  rw [h2 a ha, hpa, hmem3]

/-- One call of `vmm_map` or `vmm_allocate`: a word that links a table, is not
the leaf entry the call writes and lies in no frame the physical memory manager
may hand out keeps its frame address and its present bit and loses neither
WRITE nor USER. -/
theorem run_call_keeps (s : VmmState) (c : map_call) (a : Nat) (hl : links_table (s.mem a))
    (hleaf : a ≠ leaf_entry_written s c) (hf : ¬ in_free_frame s a) :
    entry_grows (s.mem a) ((run_call s c).mem a) := by
  have hw := (get_or_create_page_table_keeps s c.address_space (PAGING_PDE_OFFSET c.va) c.attrs
    a hl hf).1
  unfold run_call
  split_ifs
  · rw [vmm_allocate_mem s c.address_space c.va c.attrs a hleaf]
    exact hw
  · rw [(vmm_map_effect s c.address_space c.va c.pa c.attrs).2.1 a hleaf]
    exact hw

/-- A sequence of calls of `vmm_map` and `vmm_allocate`: a word that links a
table and is kept aside along the sequence keeps its frame address and its
present bit and loses neither WRITE nor USER. -/
theorem run_calls_keep (calls : List map_call) :
    ∀ (s : VmmState) (a : Nat), links_table (s.mem a) → kept_aside calls s a →
      entry_grows (s.mem a) ((run_calls calls s).mem a) := by
  induction calls with
  | nil =>
    intro s a _ _
    exact entry_grows_refl _
  | cons c rest ih =>
    intro s a hl hk
    obtain ⟨hleaf, hf, hrest⟩ := hk
    have h1 := run_call_keeps s c a hl hleaf hf
    exact entry_grows_trans h1 (ih (run_call s c) a (links_table_of_grows h1 hl) hrest)

/-- For an entry of a table that is present with a frame address that is not
`0`, and every set of attributes, `get_or_create_page` returns the frame address
of the entry and leaves that address and the present bit as they were;
afterwards the WRITE bit of the entry is set exactly when it was set before or
`write` is asked for, and its USER bit exactly when it was set before or `user`
is asked for; no other word of memory changes. -/
theorem get_or_create_page_found_entry (s : VmmState) (t : TablePtr) (i : Nat)
    (attrs : page_attributes_t) (hl : links_table (load s t i)) :
    (get_or_create_page s t i attrs).1 = load s t i &&& PAGING_4KB_ADDR_MASK
      ∧ (get_or_create_page s t i attrs).2.mem (t.resolve s + 8 * i) &&& PAGING_4KB_ADDR_MASK
          = load s t i &&& PAGING_4KB_ADDR_MASK
      ∧ (get_or_create_page s t i attrs).2.mem (t.resolve s + 8 * i) &&& PAGING_PRESENT_BIT
          = load s t i &&& PAGING_PRESENT_BIT
      ∧ ((get_or_create_page s t i attrs).2.mem (t.resolve s + 8 * i)
            &&& PAGING_READ_WRITE_BIT ≠ 0
          ↔ (load s t i &&& PAGING_READ_WRITE_BIT ≠ 0 ∨ attrs.write = true))
      ∧ ((get_or_create_page s t i attrs).2.mem (t.resolve s + 8 * i)
            &&& PAGING_USER_SUPREVISOR_BIT ≠ 0
          ↔ (load s t i &&& PAGING_USER_SUPREVISOR_BIT ≠ 0 ∨ attrs.user = true))
      ∧ ∀ a, a ≠ t.resolve s + 8 * i → (get_or_create_page s t i attrs).2.mem a = s.mem a := by
  obtain ⟨hg, hne⟩ := get_page_of_links s t i hl
  rw [get_or_create_page_present s t i attrs hne]
  obtain ⟨h1, h2, _⟩ := set_attributes_updates s t i attrs
  dsimp only
  rw [h1]
  exact ⟨hg, set_attributes_word_mask _ _, set_attributes_word_present _ _,
    set_attributes_word_read_write _ _, set_attributes_word_user _ _, h2⟩

/-- Claim C23, the code at the failing input.  In `frame_zero_free` the address
space at `0x1000` is empty and the physical memory manager hands out the frame
at `0` first.  `vmm_map` of the page `0x3000`, writable, takes that frame for
the table of the first entry of the top-level table and leaves the entry `0x3`:
present, with the WRITE bit and the frame address `0`; the page translates to
`0x5000`.  On this present entry `get_or_create_page` without `write`, called as
the next walk calls it, returns another frame, `0x15000`, and leaves the entry
`0x15001`: the frame address has changed and the WRITE bit is clear.  So a
second `vmm_map`, of the page `0x4000` without `write`, leaves the entry
`0x15001`, and the page `0x3000` is not mapped any more.  With no frame left
(`no_frame_left`), where `pmm_allocate` returns `NULL`, the first call leaves the
entry `0x3` as well and the second call leaves it `0x1`, the WRITE bit clear. -/
theorem vmm_map_replaces_frame_zero_table :
    frame_zero_table_space.mem 0x1000 = 0x3
      ∧ frame_zero_table_space.mem 0x1000 &&& PAGING_PRESENT_BIT ≠ 0
      ∧ frame_zero_table_space.mem 0x1000 &&& PAGING_READ_WRITE_BIT ≠ 0
      ∧ translate frame_zero_table_space.mem 0x1000 0x3000 = some 0x5000
      ∧ (get_or_create_page (map_to_free_page frame_zero_table_space 0x1000) .free_page 0
            attrs_none).1 = 0x15000
      ∧ (get_or_create_page (map_to_free_page frame_zero_table_space 0x1000) .free_page 0
            attrs_none).2.mem 0x1000 = 0x15001
      ∧ (get_or_create_page (map_to_free_page frame_zero_table_space 0x1000) .free_page 0
            attrs_none).2.mem 0x1000 &&& PAGING_4KB_ADDR_MASK
          ≠ frame_zero_table_space.mem 0x1000 &&& PAGING_4KB_ADDR_MASK
      ∧ (get_or_create_page (map_to_free_page frame_zero_table_space 0x1000) .free_page 0
            attrs_none).2.mem 0x1000 &&& PAGING_READ_WRITE_BIT = 0
      ∧ (vmm_map frame_zero_table_space 0x1000 0x4000 0x6000 attrs_none).mem 0x1000 = 0x15001
      ∧ (vmm_map frame_zero_table_space 0x1000 0x4000 0x6000 attrs_none).mem 0x1000
            &&& PAGING_READ_WRITE_BIT = 0
      ∧ translate (vmm_map frame_zero_table_space 0x1000 0x4000 0x6000 attrs_none).mem
            0x1000 0x3000 = none
      ∧ (vmm_map no_frame_left 0x1000 0x3000 0x5000 attrs_write_only).mem 0x1000 = 0x3
      ∧ (vmm_map (vmm_map no_frame_left 0x1000 0x3000 0x5000 attrs_write_only)
            0x1000 0x4000 0x6000 attrs_none).mem 0x1000 = 0x1 := by
  decide

end TomatOS
